import Mathlib

/-!
Order placement of the coffee shop backend.

A shallow embedding of `router.post('/create')` and
`router.post('/:orderId/reorder')` of `backend/routes/orders.js` and of
the handlers of `backend/routes/cart.js`, and of the admin status update.

* The relational store is a record of tables, each table a list of rows.
* JavaScript numbers that hold money (`parseFloat` of a `DECIMAL` column and
  the arithmetic on it) are exact rationals; quantities and stock are integers.
  The `quantity` of the body of cart add is the value that was sent, a number
  or a string of digits, and `+` on it is that of JavaScript.
* A value of the column `customizations` is the text that was stored; SQL
  equality on it is equality of the texts.
* The storage connection is explicit: every `await connection.…` call is a
  numbered storage call that may throw, as decided by an oracle, and the
  `try`/`catch` of the handler is a match on the outcome.
* A handler that calls the pool commits every statement as it runs.
-/

namespace CoffeeShop

/-! ## Tables -/

/-- Row of `products` (the columns the cart and order handlers read or write).
The column `stock_quantity` is a signed SQL integer, as the JavaScript number
the handlers compare and subtract. -/
structure Product where
  id : Nat
  name : String
  base_price : ℚ
  stock_quantity : Int
  is_active : Bool
deriving DecidableEq

/-- Row of `product_variants`. -/
structure ProductVariant where
  id : Nat
  product_id : Nat
  price_modifier : ℚ
  is_active : Bool
deriving DecidableEq

/-- Value of the `customizations` column: the text `JSON.stringify` wrote,
such as `{"variants":[{"id":1,"type":"size","name":"Large","price_modifier":0.5}]}`.
The text is kept as the two parts that make it up: `variants`, the ids
`JSON.parse(text).variants.map(v => v.id)` in the order in which they are
listed, and `rest`, what the text holds besides these ids (the `type`, `name`
and `price_modifier` the client sends with each id, and any other member).
Two texts are equal exactly when both parts are. -/
structure Customizations where
  variants : List Nat
  rest : String
deriving DecidableEq

/-- Row of `cart_items`; `customizations` is `none` for SQL `NULL`. -/
structure CartItem where
  id : Nat
  user_id : Nat
  product_id : Nat
  quantity : Int
  customizations : Option Customizations
deriving DecidableEq

/-- Values of `orders.payment_status`. -/
inductive PaymentStatus where
  | pending
  | completed
  | failed
deriving DecidableEq

/-- Values of `orders.status`. -/
inductive OrderStatus where
  | pending
  | processing
  | completed
  | cancelled
deriving DecidableEq

/-- Row of `orders`, with the amounts as the handler hands them to the insert
(the precision of the columns is not part of the embedding). -/
structure Order where
  id : Nat
  user_id : Nat
  total_amount : ℚ
  tax_amount : ℚ
  payment_method : String
  payment_status : PaymentStatus
  notes : Option String
  status : OrderStatus
deriving DecidableEq

/-- Row of `order_items` (the columns the order handler inserts). -/
structure OrderItem where
  order_id : Nat
  product_id : Nat
  quantity : Int
  unit_price : ℚ
  customizations : Option Customizations
deriving DecidableEq

/-- The store: the five tables order placement touches. -/
structure Db where
  products : List Product
  product_variants : List ProductVariant
  cart_items : List CartItem
  orders : List Order
  order_items : List OrderItem
deriving DecidableEq

/-! ## Request and response -/

/-- The object `payment_details` of the request body. -/
structure PaymentDetails where
  card_number : Option String
deriving DecidableEq

/-- Body of `POST /create`. -/
structure Request where
  payment_method : String
  payment_details : Option PaymentDetails
  notes : Option String
deriving DecidableEq

/-- The `error` strings the handlers send. -/
inductive ErrorMessage where
  /-- Text `'Cart is empty'`. -/
  | cartIsEmpty
  /-- Text `Insufficient stock for ${name}. Available: ${available}, Requested: ${requested}`. -/
  | insufficientStock (name : String) (available requested : Int)
  /-- Text `'Payment failed. Please try again.'`. -/
  | paymentFailed
  /-- Text `'Internal server error'`. -/
  | internalServerError
  /-- Text `'Order not found'`. -/
  | orderNotFound
  /-- Text `'No available items to reorder'`. -/
  | noAvailableItems
  /-- Text `'Product not found'`. -/
  | productNotFound
  /-- Text `'Insufficient stock'`. -/
  | insufficientStockToAdd
  /-- Text `'Insufficient stock for requested quantity'`. -/
  | insufficientStockForQuantity
  /-- Text `'Cart item not found'`. -/
  | cartItemNotFound
deriving DecidableEq

/-- Element of `items` in the answer of the cart view: the row of the cart
query (the column `image_url` is left out) with the name of the category, and
the `unit_price` and `total_price` the handler adds. -/
structure CartViewItem where
  id : Nat
  user_id : Nat
  product_id : Nat
  quantity : Int
  customizations : Option Customizations
  name : String
  base_price : ℚ
  stock_quantity : Int
  category_name : String
  unit_price : ℚ
  total_price : ℚ
deriving DecidableEq

/-- Object `summary` in the answer of the cart view. -/
structure CartSummary where
  subtotal : ℚ
  tax : ℚ
  total : ℚ
  itemCount : Int
deriving DecidableEq

/-- JSON bodies the handlers send. -/
inductive Body where
  /-- Object `{ errors: errors.array() }`. -/
  | errors (messages : List String)
  /-- Object `{ error: … }`. -/
  | error (message : ErrorMessage)
  /-- Object `{ message: 'Order created successfully', orderId, totalAmount, paymentStatus }`. -/
  | orderCreated (orderId : Nat) (totalAmount : ℚ) (paymentStatus : PaymentStatus)
  /-- Object `{ message: … }`. -/
  | message (text : String)
  /-- Object `{ items, summary }`. -/
  | cart (items : List CartViewItem) (summary : CartSummary)
deriving DecidableEq

/-- What `res.status(…).json(…)` sends. -/
structure Response where
  status : Nat
  body : Body
deriving DecidableEq

/-! ## The storage connection -/

/-- Which storage calls of a request throw: `fails k` for the call issued after
`k` earlier ones. -/
abbrev Oracle := Nat → Bool

/-- The storage never throws. -/
def noFailure : Oracle := fun _ => false

/-- A connection inside a transaction: the working copy of the store and the
number of storage calls issued on it so far. -/
structure Connection where
  db : Db
  issued : Nat
deriving DecidableEq

/-- Outcome of an awaited storage call, or of a block of awaited calls: a
value and the connection after the call, or a throw and the connection it
leaves, with the working copy as it was written so far. -/
inductive Call (α : Type) where
  | returned (value : α) (c : Connection)
  | thrown (c : Connection)

/-- One awaited call on the connection: it throws when the oracle says so and
otherwise runs the statement on the working copy. -/
def Connection.execute {α : Type} (fails : Oracle) (c : Connection)
    (stmt : Db → α × Db) : Call α :=
  if fails c.issued then Call.thrown ⟨c.db, c.issued + 1⟩
  else Call.returned (stmt c.db).1 ⟨(stmt c.db).2, c.issued + 1⟩

/-- Call `connection.beginTransaction()`. -/
def beginTransaction (db : Db) : Unit × Db := ((), db)

/-- Call `connection.rollback()` in a transaction begun on `committed`. -/
def rollback (committed : Db) (_working : Db) : Unit × Db := ((), committed)

/-- Call `connection.commit()`. -/
def commit (db : Db) : Unit × Db := ((), db)

/-! ## Statements of the handler -/

/-- Row of the cart query: `ci.*, p.name, p.base_price, p.stock_quantity`. -/
structure CartRow where
  id : Nat
  user_id : Nat
  product_id : Nat
  quantity : Int
  customizations : Option Customizations
  name : String
  base_price : ℚ
  stock_quantity : Int
deriving DecidableEq

/-- The join row of a cart line and a product. -/
def joinRow (ci : CartItem) (p : Product) : CartRow :=
  { id := ci.id, user_id := ci.user_id, product_id := ci.product_id,
    quantity := ci.quantity, customizations := ci.customizations,
    name := p.name, base_price := p.base_price, stock_quantity := p.stock_quantity }

/-- Query
`SELECT ci.*, p.name, p.base_price, p.stock_quantity FROM cart_items ci
 JOIN products p ON ci.product_id = p.id WHERE ci.user_id = ? AND p.is_active = TRUE`. -/
def selectCartItems (userId : Nat) (db : Db) : List CartRow :=
  db.cart_items.flatMap fun ci =>
    (db.products.filter fun p =>
      decide (ci.product_id = p.id) && decide (ci.user_id = userId) && p.is_active).map
      (joinRow ci)

/-- Query `SELECT price_modifier FROM product_variants WHERE id IN (…)`. -/
def selectVariants (variantIds : List Nat) (db : Db) : List ProductVariant :=
  db.product_variants.filter fun v => decide (v.id ∈ variantIds)

/-- The key an `AUTO_INCREMENT` insert into `orders` assigns: a fresh one. -/
def insertId (db : Db) : Nat :=
  (db.orders.map fun o => o.id).foldr max 0 + 1

/-- Statement `INSERT INTO orders (user_id, total_amount, tax_amount,
payment_method, payment_status, notes) VALUES (…)`; the column `status` takes
its default, `pending`. Returns `insertId`. -/
def insertOrder (userId : Nat) (totalAmount taxAmount : ℚ) (paymentMethod : String)
    (paymentStatus : PaymentStatus) (notes : Option String) (db : Db) : Nat × Db :=
  (insertId db,
   { db with orders := db.orders ++
      [{ id := insertId db, user_id := userId, total_amount := totalAmount,
         tax_amount := taxAmount, payment_method := paymentMethod,
         payment_status := paymentStatus, notes := notes,
         status := OrderStatus.pending }] })

/-- Statement `INSERT INTO order_items (order_id, product_id, quantity,
unit_price, customizations) VALUES (…)`. -/
def insertOrderItem (item : OrderItem) (db : Db) : Unit × Db :=
  ((), { db with order_items := db.order_items ++ [item] })

/-- Statement `UPDATE products SET stock_quantity = stock_quantity - ? WHERE id = ?`. -/
def updateStock (quantity : Int) (productId : Nat) (db : Db) : Unit × Db :=
  ((), { db with products := db.products.map fun p =>
      if p.id = productId then { p with stock_quantity := p.stock_quantity - quantity } else p })

/-- Statement `DELETE FROM cart_items WHERE user_id = ?`. -/
def deleteCartItems (userId : Nat) (db : Db) : Unit × Db :=
  ((), { db with cart_items := db.cart_items.filter fun ci => !decide (ci.user_id = userId) })

/-- Statement `UPDATE orders SET status = ? WHERE id = ?`. -/
def updateOrderStatus (status : OrderStatus) (orderId : Nat) (db : Db) : Unit × Db :=
  ((), { db with orders := db.orders.map fun o =>
      if o.id = orderId then { o with status := status } else o })

/-- A read-only statement. -/
def query {α : Type} (q : Db → α) (db : Db) : α × Db := (q db, db)

/-! ## The handler `router.post('/create')` -/

/-- Validators of the route: `body('payment_method').isIn(['card', 'cash'])`.
(The check `payment_details` `optional().isObject()` holds by the type of
`Request`.) Returns `errors.array()`. -/
def validationResult (req : Request) : List String :=
  if req.payment_method = "card" ∨ req.payment_method = "cash" then []
  else ["Valid payment method required"]

/-- Lines 45 and 55-70: the unit price of a cart row, the base price plus the
price modifiers of the rows the variants query returns. The query is issued
only for a customization that lists at least one variant. -/
def resolveUnitPrice (fails : Oracle) (item : CartRow) (c : Connection) : Call ℚ :=
  match item.customizations with
  | none => Call.returned item.base_price c
  | some customizations =>
    if customizations.variants.length > 0 then
      match c.execute fails (query (selectVariants customizations.variants)) with
      | Call.thrown cx => Call.thrown cx
      | Call.returned variants c1 =>
        Call.returned
          (item.base_price + variants.foldl (fun sum variant => sum + variant.price_modifier) 0) c1
    else Call.returned item.base_price c

/-- An element of the array `orderItems`. -/
structure OrderLine where
  product_id : Nat
  quantity : Int
  unit_price : ℚ
  customizations : Option Customizations
deriving DecidableEq

/-- How the loop over `cartItems` (lines 44-81) ends. -/
inductive Priced where
  /-- The loop ran to its end. -/
  | priced (subtotal : ℚ) (orderItems : List OrderLine) (c : Connection)
  /-- The stock check of `item` failed. -/
  | insufficient (item : CartRow) (c : Connection)
  /-- A storage call threw, on the connection `c`. -/
  | thrown (c : Connection)

/-- Lines 44-81: `for (let item of cartItems)`, from the current values of
`subtotal` and `orderItems`. -/
def priceItems (fails : Oracle) :
    List CartRow → ℚ → List OrderLine → Connection → Priced
  | [], subtotal, orderItems, c => Priced.priced subtotal orderItems c
  | item :: rest, subtotal, orderItems, c =>
    if item.stock_quantity < item.quantity then Priced.insufficient item c
    else
      match resolveUnitPrice fails item c with
      | Call.thrown cx => Priced.thrown cx
      | Call.returned unitPrice c1 =>
        let itemTotal := unitPrice * item.quantity
        priceItems fails rest (subtotal + itemTotal)
          (orderItems ++ [{ product_id := item.product_id, quantity := item.quantity,
                            unit_price := unitPrice, customizations := item.customizations }]) c1

/-- Lines 86-93: the mock payment processing. -/
def paymentStatus (req : Request) : PaymentStatus :=
  if req.payment_method = "card" then
    match req.payment_details with
    | some details =>
      if details.card_number = some "4000000000000002" then PaymentStatus.failed
      else PaymentStatus.completed
    | none => PaymentStatus.completed
  else PaymentStatus.completed

/-- Lines 109-120: `for (let item of orderItems)`, an insert into `order_items`
and a stock update per element. -/
def writeItems (fails : Oracle) (orderId : Nat) : List OrderLine → Connection → Call Unit
  | [], c => Call.returned () c
  | item :: rest, c =>
    match c.execute fails (insertOrderItem
        { order_id := orderId, product_id := item.product_id, quantity := item.quantity,
          unit_price := item.unit_price, customizations := item.customizations }) with
    | Call.thrown cx => Call.thrown cx
    | Call.returned _ c1 =>
      match c1.execute fails (updateStock item.quantity item.product_id) with
      | Call.thrown cx => Call.thrown cx
      | Call.returned _ c2 => writeItems fails orderId rest c2

/-- Expression `notes || null`. -/
def notesOrNull (notes : Option String) : Option String :=
  match notes with
  | some "" => none
  | other => other

/-- How the `try` block ends: with a response sent, the store as the
connection leaves it and the number of storage calls issued, or with a throw
on the connection `c`. -/
inductive Tried where
  | sent (response : Response) (db : Db) (issued : Nat)
  | thrown (c : Connection)

/-- An early `await connection.rollback(); return res.status(400).json(…)`. -/
def rollbackAndSend (fails : Oracle) (committed : Db) (c : Connection)
    (message : ErrorMessage) : Tried :=
  match c.execute fails (rollback committed) with
  | Call.thrown cx => Tried.thrown cx
  | Call.returned _ c1 => Tried.sent ⟨400, Body.error message⟩ c1.db c1.issued

/-- Lines 100-141: the writes, the commit and the 201 response. -/
def commitOrder (fails : Oracle) (userId : Nat) (req : Request) (subtotal : ℚ)
    (orderItems : List OrderLine) (c : Connection) : Tried :=
  let taxAmount := subtotal * (8 / 100)
  let totalAmount := subtotal + taxAmount
  let paymentStatus := paymentStatus req
  match c.execute fails (insertOrder userId totalAmount taxAmount req.payment_method
      paymentStatus (notesOrNull req.notes)) with
  | Call.thrown cx => Tried.thrown cx
  | Call.returned orderId c1 =>
  match writeItems fails orderId orderItems c1 with
  | Call.thrown cx => Tried.thrown cx
  | Call.returned _ c2 =>
  match c2.execute fails (deleteCartItems userId) with
  | Call.thrown cx => Tried.thrown cx
  | Call.returned _ c3 =>
  match c3.execute fails (updateOrderStatus
      (if paymentStatus = PaymentStatus.completed then OrderStatus.processing
       else OrderStatus.pending) orderId) with
  | Call.thrown cx => Tried.thrown cx
  | Call.returned _ c4 =>
  match c4.execute fails commit with
  | Call.thrown cx => Tried.thrown cx
  | Call.returned _ c5 =>
    Tried.sent ⟨201, Body.orderCreated orderId totalAmount paymentStatus⟩ c5.db c5.issued

/-- Lines 16-141: the `try` block, on the store `s` the transaction begins on.
A response sent on failed validation leaves the transaction uncommitted. -/
def createOrderTry (fails : Oracle) (s : Db) (userId : Nat) (req : Request) : Tried :=
  match (Connection.mk s 0).execute fails beginTransaction with
  | Call.thrown cx => Tried.thrown cx
  | Call.returned _ c0 =>
  if validationResult req ≠ [] then
    Tried.sent ⟨400, Body.errors (validationResult req)⟩ s c0.issued
  else
  match c0.execute fails (query (selectCartItems userId)) with
  | Call.thrown cx => Tried.thrown cx
  | Call.returned cartItems c1 =>
  if cartItems.length = 0 then rollbackAndSend fails s c1 ErrorMessage.cartIsEmpty
  else
  match priceItems fails cartItems 0 [] c1 with
  | Priced.thrown cx => Tried.thrown cx
  | Priced.insufficient item c2 =>
    rollbackAndSend fails s c2
      (ErrorMessage.insufficientStock item.name item.stock_quantity item.quantity)
  | Priced.priced subtotal orderItems c2 =>
    if paymentStatus req = PaymentStatus.failed then
      rollbackAndSend fails s c2 ErrorMessage.paymentFailed
    else commitOrder fails userId req subtotal orderItems c2

/-- What a request leaves behind: the response, the store and the number of
storage calls the `try` block issued. -/
structure Outcome where
  response : Response
  db : Db
  issued : Nat

/-- The handler `POST /create` for the authenticated user `userId` on the
store `s`: the `try` block, and the `catch` block that rolls the transaction
back (that rollback is taken to succeed) and answers 500. -/
def createOrder (fails : Oracle) (s : Db) (userId : Nat) (req : Request) : Outcome :=
  match createOrderTry fails s userId req with
  | Tried.sent response db issued => ⟨response, db, issued⟩
  | Tried.thrown cx =>
    ⟨⟨500, Body.error ErrorMessage.internalServerError⟩, (rollback s cx.db).2, cx.issued⟩

/-- The unit price the handler resolves for a cart row on the store `db`
when no storage call throws. -/
def unitPrice (db : Db) (item : CartRow) : ℚ :=
  match resolveUnitPrice noFailure item ⟨db, 0⟩ with
  | Call.returned price _ => price
  | Call.thrown _ => item.base_price

/-! ## Notions used to state the properties -/

/-- No storage call before the `n`-th threw. -/
def Clean (fails : Oracle) (n : Nat) : Prop := ∀ k, k < n → fails k = false

/-- The element of `orderItems` the loop pushes for a cart row. -/
def toOrderLine (db : Db) (item : CartRow) : OrderLine :=
  { product_id := item.product_id, quantity := item.quantity,
    unit_price := unitPrice db item, customizations := item.customizations }

/-- The row of `order_items` inserted for an element of `orderItems`. -/
def toOrderItem (orderId : Nat) (item : OrderLine) : OrderItem :=
  { order_id := orderId, product_id := item.product_id, quantity := item.quantity,
    unit_price := item.unit_price, customizations := item.customizations }

/-- The quantity the lines of `items` order of product `productId`. -/
def orderedQuantity (productId : Nat) (items : List OrderLine) : Int :=
  ((items.filter fun item => decide (item.product_id = productId)).map fun item =>
    item.quantity).sum


/-- A product after the stock updates of the lines of `items`. -/
def applyLines (items : List OrderLine) (p : Product) : Product :=
  { p with stock_quantity := p.stock_quantity - orderedQuantity p.id items }

/-- The row the handler inserts into `orders` for a subtotal, as the final
status update leaves it. -/
def orderRow (s : Db) (userId : Nat) (req : Request) (subtotal : ℚ) : Order :=
  { id := insertId s, user_id := userId,
    total_amount := subtotal + subtotal * (8 / 100), tax_amount := subtotal * (8 / 100),
    payment_method := req.payment_method, payment_status := paymentStatus req,
    notes := notesOrNull req.notes,
    status := if paymentStatus req = PaymentStatus.completed then OrderStatus.processing
              else OrderStatus.pending }

/-- The subtotal of a list of cart rows on the store `db`: the sum of unit
price times quantity. -/
def subtotalOf (db : Db) (rows : List CartRow) : ℚ :=
  (rows.map fun item => unitPrice db item * item.quantity).sum

/-- The store a successful placement commits, from the store `s` the
transaction began on. -/
def placedStore (s : Db) (userId : Nat) (req : Request) : Db :=
  { products := s.products.map (applyLines ((selectCartItems userId s).map (toOrderLine s))),
    product_variants := s.product_variants,
    cart_items := s.cart_items.filter fun ci => !decide (ci.user_id = userId),
    orders := s.orders ++ [orderRow s userId req (subtotalOf s (selectCartItems userId s))],
    order_items := s.order_items ++
      ((selectCartItems userId s).map (toOrderLine s)).map (toOrderItem (insertId s)) }

/-- The ways the handler answers without a throw. -/
def Answered (s : Db) (userId : Nat) (req : Request) (response : Response) (db : Db) : Prop :=
  (validationResult req ≠ [] ∧
    response = ⟨400, Body.errors (validationResult req)⟩ ∧ db = s) ∨
  (validationResult req = [] ∧ selectCartItems userId s = [] ∧
    response = ⟨400, Body.error ErrorMessage.cartIsEmpty⟩ ∧ db = s) ∨
  (validationResult req = [] ∧
    (∃ item ∈ selectCartItems userId s, item.stock_quantity < item.quantity ∧
      response = ⟨400, Body.error
        (ErrorMessage.insufficientStock item.name item.stock_quantity item.quantity)⟩) ∧
    db = s) ∨
  (validationResult req = [] ∧ selectCartItems userId s ≠ [] ∧
    (∀ item ∈ selectCartItems userId s, item.quantity ≤ item.stock_quantity) ∧
    paymentStatus req = PaymentStatus.failed ∧
    response = ⟨400, Body.error ErrorMessage.paymentFailed⟩ ∧ db = s) ∨
  (validationResult req = [] ∧ selectCartItems userId s ≠ [] ∧
    (∀ item ∈ selectCartItems userId s, item.quantity ≤ item.stock_quantity) ∧
    paymentStatus req ≠ PaymentStatus.failed ∧
    response = ⟨201, Body.orderCreated (insertId s)
      (subtotalOf s (selectCartItems userId s) +
        subtotalOf s (selectCartItems userId s) * (8 / 100)) (paymentStatus req)⟩ ∧
    db = placedStore s userId req)

/-- Rounding to 2 decimal places, half up: the rounding the spec words for the
amounts of an order (in the cart view, `parseFloat(x.toFixed(2))`). -/
def roundHalfUp2 (x : ℚ) : ℚ := (⌊x * 100 + 1 / 2⌋ : ℤ) / 100

/-! ## Example stores and requests -/

/-- A store with three products, one of them inactive, two variants, and the
carts of users 7 and 8. -/
def exampleStore : Db :=
  { products := [⟨1, "Latte", 9 / 2, 5, true⟩, ⟨2, "Mocha", 499 / 100, 1, true⟩,
                 ⟨3, "Chai", 3, 10, false⟩],
    product_variants := [⟨1, 1, 1 / 2, true⟩, ⟨2, 2, 3 / 4, false⟩],
    cart_items := [⟨1, 7, 1, 2, some ⟨[1], ""⟩⟩, ⟨2, 7, 2, 1, none⟩, ⟨4, 8, 1, 1, none⟩],
    orders := [], order_items := [] }

/-- A request that pays cash. -/
def cashRequest : Request := ⟨"cash", none, none⟩

/-- A request that pays with the card number the mock payment declines. -/
def declinedCardRequest : Request := ⟨"card", some ⟨some "4000000000000002"⟩, none⟩

/-- A store in which user 1 has one Mocha at 4.99 in the cart. -/
def centsStore : Db :=
  { products := [⟨2, "Mocha", 499 / 100, 3, true⟩],
    product_variants := [],
    cart_items := [⟨1, 1, 2, 1, none⟩],
    orders := [], order_items := [] }

/-- A store in which user 7 asks for six of a product that has five in stock. -/
def shortStore : Db :=
  { products := [⟨1, "Latte", 9 / 2, 5, true⟩],
    product_variants := [],
    cart_items := [⟨1, 7, 1, 6, none⟩],
    orders := [], order_items := [] }

/-- A store in which user 7 holds two lines of the same product, with
different customizations, each for the one unit in stock. -/
def oversellStore : Db :=
  { products := [⟨1, "Latte", 9 / 2, 1, true⟩],
    product_variants := [⟨1, 1, 1 / 2, true⟩],
    cart_items := [⟨1, 7, 1, 1, none⟩, ⟨2, 7, 1, 1, some ⟨[1], ""⟩⟩],
    orders := [], order_items := [] }

/-- A store in which the cart line of user 7, a Latte, lists variant 2, an
inactive variant of the Mocha, and variant 99, which does not exist. -/
def unknownVariantStore : Db :=
  { products := [⟨1, "Latte", 9 / 2, 5, true⟩, ⟨2, "Mocha", 499 / 100, 1, true⟩],
    product_variants := [⟨2, 2, 3 / 4, false⟩],
    cart_items := [⟨1, 7, 1, 1, some ⟨[2, 99], ""⟩⟩],
    orders := [], order_items := [] }

/-- A store in which user 7 holds a line of an active product and a line of
an inactive one, and user 8 a line of the inactive product only. -/
def inactiveStore : Db :=
  { products := [⟨1, "Latte", 9 / 2, 5, true⟩, ⟨3, "Chai", 3, 10, false⟩],
    product_variants := [],
    cart_items := [⟨1, 7, 1, 1, none⟩, ⟨2, 7, 3, 1, none⟩, ⟨3, 8, 3, 1, none⟩],
    orders := [], order_items := [] }

/-- A store in which user 7 holds one Latte, an active product with five in
stock, and fifty Chai, an inactive product with ten in stock. -/
def mixedStore : Db :=
  { products := [⟨1, "Latte", 9 / 2, 5, true⟩, ⟨3, "Chai", 3, 10, false⟩],
    product_variants := [],
    cart_items := [⟨1, 7, 1, 1, none⟩, ⟨2, 7, 3, 50, none⟩],
    orders := [], order_items := [] }

/-- The storage call issued after six earlier ones throws. -/
def failsAtSix : Oracle := fun k => decide (k = 6)

/-- The rows a successful placement appends to `order_items`. -/
def newOrderItems (s : Db) (userId : Nat) : List OrderItem :=
  ((selectCartItems userId s).map (toOrderLine s)).map (toOrderItem (insertId s))

/-- The quantity the rows of `rows` order of product `productId`. -/
def quantityOrdered (productId : Nat) (rows : List OrderItem) : Int :=
  ((rows.filter fun row => decide (row.product_id = productId)).map fun row =>
    row.quantity).sum

/-- The connection a `try` block threw on, if it threw. -/
def thrownOn : Tried → Option Connection
  | Tried.thrown cx => some cx
  | Tried.sent _ _ _ => none

/-- The variant ids a value of the column `customizations` lists: none for
SQL `NULL`. -/
def selectedVariants (customizations : Option Customizations) : List Nat :=
  match customizations with
  | none => []
  | some cz => cz.variants

/-- The sum of the price modifiers of the rows of `product_variants` whose id
is among `ids`, each row counted once. -/
def modifiersOf (db : Db) (ids : List Nat) : ℚ :=
  ((db.product_variants.filter fun v => decide (v.id ∈ ids)).map fun v => v.price_modifier).sum

/-! ## Statements of the cart and reorder handlers -/

/-- SQL `customizations = ?` on the column and a bound value: true when both
are not `NULL` and the two texts are equal, the listed ids and the rest of
the text alike, and never true when one of them is `NULL`. -/
def sqlEq (column value : Option Customizations) : Bool :=
  match column, value with
  | some x, some y => decide (x = y)
  | _, _ => false

/-- Query `SELECT id, stock_quantity FROM products WHERE id = ? AND is_active = TRUE`. -/
def selectActiveProduct (productId : Nat) (db : Db) : List Product :=
  db.products.filter fun p => decide (p.id = productId) && p.is_active

/-- Query `SELECT id, quantity FROM cart_items WHERE user_id = ? AND
product_id = ? AND customizations = ?`. -/
def selectExistingItems (userId productId : Nat) (customizations : Option Customizations)
    (db : Db) : List CartItem :=
  db.cart_items.filter fun ci =>
    decide (ci.user_id = userId) && decide (ci.product_id = productId) &&
      sqlEq ci.customizations customizations

/-- Statement `UPDATE cart_items SET quantity = ? WHERE id = ?`. -/
def updateCartItemQuantity (quantity : Int) (id : Nat) (db : Db) : Unit × Db :=
  ((), { db with cart_items := db.cart_items.map fun ci =>
      if ci.id = id then { ci with quantity := quantity } else ci })

/-- The key an `AUTO_INCREMENT` insert into `cart_items` assigns: a fresh one. -/
def cartInsertId (db : Db) : Nat :=
  (db.cart_items.map fun ci => ci.id).foldr max 0 + 1

/-- Statement `INSERT INTO cart_items (user_id, product_id, quantity,
customizations) VALUES (…)`. -/
def insertCartItem (userId productId : Nat) (quantity : Int)
    (customizations : Option Customizations) (db : Db) : Unit × Db :=
  ((), { db with cart_items := db.cart_items ++
      [{ id := cartInsertId db, user_id := userId, product_id := productId,
         quantity := quantity, customizations := customizations }] })

/-- Query `SELECT id FROM orders WHERE id = ? AND user_id = ?`. -/
def selectOrder (orderId userId : Nat) (db : Db) : List Nat :=
  (db.orders.filter fun o => decide (o.id = orderId) && decide (o.user_id = userId)).map
    fun o => o.id

/-- Row of the reorder query: `oi.product_id, oi.quantity, oi.customizations,
p.stock_quantity`. -/
structure ReorderRow where
  product_id : Nat
  quantity : Int
  customizations : Option Customizations
  stock_quantity : Int
deriving DecidableEq

/-- Query `SELECT oi.product_id, oi.quantity, oi.customizations, p.stock_quantity
FROM order_items oi JOIN products p ON oi.product_id = p.id
WHERE oi.order_id = ? AND p.is_active = TRUE`. -/
def selectOrderItems (orderId : Nat) (db : Db) : List ReorderRow :=
  db.order_items.flatMap fun oi =>
    (db.products.filter fun p =>
      decide (oi.product_id = p.id) && decide (oi.order_id = orderId) && p.is_active).map
      fun p => { product_id := oi.product_id, quantity := oi.quantity,
                 customizations := oi.customizations, stock_quantity := p.stock_quantity }

/-! ## The handler `router.post('/add')` of `backend/routes/cart.js` -/

/-- The member `quantity` of the body of `POST /add`, which the handler uses
as it was sent: a JSON number, or a string of decimal digits such as `"2"`,
which the validator `isInt` accepts as well. -/
inductive Quantity where
  | number (n : Int)
  | text (digits : List (Fin 10))
deriving DecidableEq

/-- The number a string of decimal digits spells. -/
def digitsValue (digits : List (Fin 10)) : Int :=
  digits.foldl (fun value d => value * 10 + d.val) 0

/-- The number JavaScript compares in `product.stock_quantity < quantity`, and
the number the column `quantity` takes from the bound value. -/
def Quantity.toNumber : Quantity → Int
  | Quantity.number n => n
  | Quantity.text digits => digitsValue digits

/-- JavaScript `existingItems[0].quantity + quantity`, as the number the
comparison with the stock and the column `quantity` read from it: the sum
when `quantity` is a number; when it is a string, the string that holds the
decimal digits of the existing quantity followed by those of `quantity`
(`1 + "2"` is `"12"`). -/
def plusQuantity (existing : Int) : Quantity → Int
  | Quantity.number n => existing + n
  | Quantity.text digits =>
    if existing < 0 then existing * 10 ^ digits.length - digitsValue digits
    else existing * 10 ^ digits.length + digitsValue digits

/-- Body of `POST /add`; `customizations` is `none` when the body has none. -/
structure AddRequest where
  product_id : Nat
  quantity : Quantity
  customizations : Option Customizations
deriving DecidableEq

/-- Validators of the route: `body('product_id').isInt({ min: 1 })` and
`body('quantity').isInt({ min: 1 })`. Returns `errors.array()`. -/
def addValidationResult (req : AddRequest) : List String :=
  (if 1 ≤ req.product_id then [] else ["Valid product ID required"]) ++
    (if 1 ≤ req.quantity.toNumber then [] else ["Quantity must be at least 1"])

/-- Lines 74-127 of `cart.js`: the `try` block of `POST /add`. The calls go to
the pool, so every statement is committed as it runs. The bound value
`customizationsJson` is the serialized `customizations`, or `null`. -/
def cartAddTry (fails : Oracle) (s : Db) (userId : Nat) (req : AddRequest) : Tried :=
  if addValidationResult req ≠ [] then
    Tried.sent ⟨400, Body.errors (addValidationResult req)⟩ s 0
  else
  match (Connection.mk s 0).execute fails (query (selectActiveProduct req.product_id)) with
  | Call.thrown cx => Tried.thrown cx
  | Call.returned products c1 =>
  match products with
  | [] => Tried.sent ⟨404, Body.error ErrorMessage.productNotFound⟩ c1.db c1.issued
  | product :: _ =>
  if product.stock_quantity < req.quantity.toNumber then
    Tried.sent ⟨400, Body.error ErrorMessage.insufficientStockToAdd⟩ c1.db c1.issued
  else
  match c1.execute fails
      (query (selectExistingItems userId req.product_id req.customizations)) with
  | Call.thrown cx => Tried.thrown cx
  | Call.returned existingItems c2 =>
  match existingItems with
  | existing :: _ =>
    let newQuantity := plusQuantity existing.quantity req.quantity
    if product.stock_quantity < newQuantity then
      Tried.sent ⟨400, Body.error ErrorMessage.insufficientStockForQuantity⟩ c2.db c2.issued
    else
      match c2.execute fails (updateCartItemQuantity newQuantity existing.id) with
      | Call.thrown cx => Tried.thrown cx
      | Call.returned _ c3 =>
        Tried.sent ⟨200, Body.message "Item added to cart successfully"⟩ c3.db c3.issued
  | [] =>
    match c2.execute fails
        (insertCartItem userId req.product_id req.quantity.toNumber req.customizations) with
    | Call.thrown cx => Tried.thrown cx
    | Call.returned _ c3 =>
      Tried.sent ⟨200, Body.message "Item added to cart successfully"⟩ c3.db c3.issued

/-- The `catch` block of a handler that calls the pool: it answers 500, and
what the statements before the throw wrote stays. -/
def catchOnPool (tried : Tried) : Outcome :=
  match tried with
  | Tried.sent response db issued => ⟨response, db, issued⟩
  | Tried.thrown cx =>
    ⟨⟨500, Body.error ErrorMessage.internalServerError⟩, cx.db, cx.issued⟩

/-- The handler `POST /add` of the cart for the authenticated user `userId`. -/
def cartAdd (fails : Oracle) (s : Db) (userId : Nat) (req : AddRequest) : Outcome :=
  catchOnPool (cartAddTry fails s userId req)

/-! ## The handler `router.post('/:orderId/reorder')` of `backend/routes/orders.js` -/

/-- Lines 242-268: `for (let item of orderItems)`, with the stock read by the
reorder query. -/
def reorderItems (fails : Oracle) (userId : Nat) : List ReorderRow → Connection → Call Unit
  | [], c => Call.returned () c
  | item :: rest, c =>
    if item.stock_quantity ≥ item.quantity then
      match c.execute fails
          (query (selectExistingItems userId item.product_id item.customizations)) with
      | Call.thrown cx => Call.thrown cx
      | Call.returned existingItems c1 =>
        match existingItems with
        | existing :: _ =>
          let newQuantity := existing.quantity + item.quantity
          if item.stock_quantity ≥ newQuantity then
            match c1.execute fails (updateCartItemQuantity newQuantity existing.id) with
            | Call.thrown cx => Call.thrown cx
            | Call.returned _ c2 => reorderItems fails userId rest c2
          else reorderItems fails userId rest c1
        | [] =>
          match c1.execute fails
              (insertCartItem userId item.product_id item.quantity item.customizations) with
          | Call.thrown cx => Call.thrown cx
          | Call.returned _ c2 => reorderItems fails userId rest c2
    else reorderItems fails userId rest c

/-- Lines 214-270: the `try` block of the reorder handler. -/
def reorderTry (fails : Oracle) (s : Db) (userId orderId : Nat) : Tried :=
  match (Connection.mk s 0).execute fails (query (selectOrder orderId userId)) with
  | Call.thrown cx => Tried.thrown cx
  | Call.returned orders c1 =>
  if orders.length = 0 then
    Tried.sent ⟨404, Body.error ErrorMessage.orderNotFound⟩ c1.db c1.issued
  else
  match c1.execute fails (query (selectOrderItems orderId)) with
  | Call.thrown cx => Tried.thrown cx
  | Call.returned orderItems c2 =>
  if orderItems.length = 0 then
    Tried.sent ⟨400, Body.error ErrorMessage.noAvailableItems⟩ c2.db c2.issued
  else
  match reorderItems fails userId orderItems c2 with
  | Call.thrown cx => Tried.thrown cx
  | Call.returned _ c3 =>
    Tried.sent ⟨200, Body.message "Items added to cart successfully"⟩ c3.db c3.issued

/-- The handler `POST /:orderId/reorder` for the authenticated user `userId`. -/
def reorder (fails : Oracle) (s : Db) (userId orderId : Nat) : Outcome :=
  catchOnPool (reorderTry fails s userId orderId)

/-- A store in which user 7 holds a Latte with variants 1 and 2, listed in
that order, and a Latte with no customization. -/
def mergeStore : Db :=
  { products := [⟨1, "Latte", 9 / 2, 5, true⟩],
    product_variants := [⟨1, 1, 1 / 2, true⟩, ⟨2, 1, 1 / 4, true⟩],
    cart_items := [⟨1, 7, 1, 1, some ⟨[1, 2], ""⟩⟩, ⟨2, 7, 1, 1, none⟩],
    orders := [], order_items := [] }

/-- A store in which user 7 holds a Latte with variants 1 and 2, and twenty
Lattes are in stock. -/
def roomyStore : Db :=
  { products := [⟨1, "Latte", 9 / 2, 20, true⟩],
    product_variants := [⟨1, 1, 1 / 2, true⟩, ⟨2, 1, 1 / 4, true⟩],
    cart_items := [⟨1, 7, 1, 1, some ⟨[1, 2], ""⟩⟩],
    orders := [], order_items := [] }

/-- A store in which order 1 of user 7 has a line of five Lattes, of which
three are in stock, and a line of two Mochas with variant 3, of which three
are in stock and two are in the cart of user 7 with the same customization. -/
def reorderStore : Db :=
  { products := [⟨1, "Latte", 9 / 2, 3, true⟩, ⟨2, "Mocha", 499 / 100, 3, true⟩],
    product_variants := [⟨3, 2, 1 / 2, true⟩],
    cart_items := [⟨1, 7, 2, 2, some ⟨[3], ""⟩⟩],
    orders := [⟨1, 7, 3348 / 100, 248 / 100, "cash", PaymentStatus.completed, none,
                OrderStatus.processing⟩],
    order_items := [⟨1, 1, 5, 9 / 2, none⟩, ⟨1, 2, 2, 549 / 100, some ⟨[3], ""⟩⟩] }

/-! ## Merged lines, as the spec words them -/

/-- A cart line or order line as the spec sees it: the product, the
customization value and the quantity. -/
structure Line where
  product_id : Nat
  customizations : Option Customizations
  quantity : Int
deriving DecidableEq

/-- The line of a row of `cart_items`. -/
def CartItem.toLine (ci : CartItem) : Line :=
  { product_id := ci.product_id, customizations := ci.customizations, quantity := ci.quantity }

/-- The line of a row of the reorder query. -/
def ReorderRow.toLine (item : ReorderRow) : Line :=
  { product_id := item.product_id, customizations := item.customizations,
    quantity := item.quantity }

/-- Line `a` shares product and customization with line `l`. -/
def sameKey (l a : Line) : Bool :=
  decide (a.product_id = l.product_id) && decide (a.customizations = l.customizations)

/-- The spec's "quantities merged for duplicates", one line at a time: a line
that shares product and customization with a line of `acc` adds its quantity
to it, and any other line is appended. -/
def specMergeLine (acc : List Line) (l : Line) : List Line :=
  if acc.any (sameKey l) then
    acc.map fun a => if sameKey l a then { a with quantity := a.quantity + l.quantity } else a
  else acc ++ [l]

/-- The spec's merged lines of a list of lines, from an empty cart. -/
def specMergedLines (lines : List Line) : List Line :=
  lines.foldl specMergeLine []

/-- Every row of `rows` is within the stock read for it, and so is, at the
moment the row is merged into the lines `acc`, the quantity summed for its
product and customization. -/
def mergedWithinStock (acc : List Line) : List ReorderRow → Bool
  | [] => true
  | item :: rest =>
    decide (item.quantity ≤ item.stock_quantity) &&
    (specMergeLine acc item.toLine).all
      (fun l => !sameKey item.toLine l || decide (l.quantity ≤ item.stock_quantity)) &&
    mergedWithinStock (specMergeLine acc item.toLine) rest

/-- What the reorder loop keeps true of the cart, split into the lines `base`
of other users and the lines `new` of the caller: ids tell the lines of the
caller apart, from each other and from the lines of other users, and no two
lines of the caller share product and customization. -/
structure ReorderInv (userId : Nat) (base new : List CartItem) : Prop where
  user_base : ∀ b ∈ base, b.user_id ≠ userId
  user_new : ∀ a ∈ new, a.user_id = userId
  ids : ∀ a ∈ new, ∀ b ∈ new, a.id = b.id → a = b
  base_ids : ∀ b ∈ base, ∀ a ∈ new, b.id ≠ a.id
  keys : ∀ a ∈ new, ∀ b ∈ new, a.product_id = b.product_id →
    a.customizations = b.customizations → a.id = b.id

/-- No row of `rows` without customization names the product of a line of
`new` without customization. -/
def NullApart (new : List CartItem) (rows : List ReorderRow) : Prop :=
  ∀ item ∈ rows, item.customizations = none →
    ∀ a ∈ new, a.product_id = item.product_id → a.customizations ≠ none

/-- No two rows of `rows` name the same product without customization. -/
def NullOnce (rows : List ReorderRow) : Prop :=
  rows.Pairwise fun x y =>
    x.product_id = y.product_id → y.customizations = none → x.customizations ≠ none

/-- A store in which order 1 of user 7 has two Latte lines with variant 1, a
Mocha line and a line of the inactive Chai, and user 8 holds a cart line. -/
def reorderMergeStore : Db :=
  { products := [⟨1, "Latte", 9 / 2, 5, true⟩, ⟨2, "Mocha", 499 / 100, 3, true⟩,
                 ⟨3, "Chai", 3, 10, false⟩],
    product_variants := [⟨1, 1, 1 / 2, true⟩],
    cart_items := [⟨4, 8, 1, 1, none⟩],
    orders := [⟨1, 7, 2484 / 100, 184 / 100, "cash", PaymentStatus.completed, none,
                OrderStatus.processing⟩],
    order_items := [⟨1, 1, 2, 5, some ⟨[1], ""⟩⟩, ⟨1, 2, 1, 499 / 100, none⟩,
                    ⟨1, 1, 1, 5, some ⟨[1], ""⟩⟩, ⟨1, 3, 1, 3, none⟩] }

/-- A store with an empty cart for user 7, whose order 2 has two Latte lines
without customization, whose order 3 has a line of the inactive Chai only,
and whose order 4 has two lines of two Mochas with variant 3, of which three
are in stock. -/
def reorderSplitStore : Db :=
  { products := [⟨1, "Latte", 9 / 2, 5, true⟩, ⟨2, "Mocha", 499 / 100, 3, true⟩,
                 ⟨3, "Chai", 3, 10, false⟩],
    product_variants := [⟨3, 2, 1 / 2, true⟩],
    cart_items := [],
    orders := [⟨2, 7, 972 / 100, 72 / 100, "cash", PaymentStatus.completed, none,
                OrderStatus.processing⟩,
               ⟨3, 7, 324 / 100, 24 / 100, "cash", PaymentStatus.completed, none,
                OrderStatus.processing⟩,
               ⟨4, 7, 2372 / 100, 176 / 100, "cash", PaymentStatus.completed, none,
                OrderStatus.processing⟩],
    order_items := [⟨2, 1, 1, 9 / 2, none⟩, ⟨2, 1, 1, 9 / 2, none⟩, ⟨3, 3, 1, 3, none⟩,
                    ⟨4, 2, 2, 549 / 100, some ⟨[3], ""⟩⟩, ⟨4, 2, 2, 549 / 100, some ⟨[3], ""⟩⟩] }

/-! ## The handlers `PUT /update/:itemId`, `DELETE /remove/:itemId` and `DELETE /clear` -/

/-- Row of the ownership query of the update handler: `ci.id, ci.product_id,
p.stock_quantity`. -/
structure OwnedRow where
  id : Nat
  product_id : Nat
  stock_quantity : Int
deriving DecidableEq

/-- Query `SELECT ci.id, ci.product_id, p.stock_quantity FROM cart_items ci
JOIN products p ON ci.product_id = p.id WHERE ci.id = ? AND ci.user_id = ?`. -/
def selectOwnedItem (itemId userId : Nat) (db : Db) : List OwnedRow :=
  db.cart_items.flatMap fun ci =>
    (db.products.filter fun p =>
      decide (ci.product_id = p.id) && decide (ci.id = itemId) &&
        decide (ci.user_id = userId)).map
      fun p => { id := ci.id, product_id := ci.product_id, stock_quantity := p.stock_quantity }

/-- Validator of the update route: `body('quantity').isInt({ min: 1 })`. -/
def updateValidationResult (quantity : Int) : List String :=
  if 1 ≤ quantity then [] else ["Quantity must be at least 1"]

/-- Lines 138-173 of `cart.js`: the `try` block of `PUT /update/:itemId`. -/
def cartUpdateTry (fails : Oracle) (s : Db) (userId itemId : Nat) (quantity : Int) : Tried :=
  if updateValidationResult quantity ≠ [] then
    Tried.sent ⟨400, Body.errors (updateValidationResult quantity)⟩ s 0
  else
  match (Connection.mk s 0).execute fails (query (selectOwnedItem itemId userId)) with
  | Call.thrown cx => Tried.thrown cx
  | Call.returned cartItems c1 =>
  match cartItems with
  | [] => Tried.sent ⟨404, Body.error ErrorMessage.cartItemNotFound⟩ c1.db c1.issued
  | cartItem :: _ =>
  if cartItem.stock_quantity < quantity then
    Tried.sent ⟨400, Body.error ErrorMessage.insufficientStockToAdd⟩ c1.db c1.issued
  else
  match c1.execute fails (updateCartItemQuantity quantity itemId) with
  | Call.thrown cx => Tried.thrown cx
  | Call.returned _ c2 =>
    Tried.sent ⟨200, Body.message "Cart item updated successfully"⟩ c2.db c2.issued

/-- The handler `PUT /update/:itemId` of the cart. -/
def cartUpdate (fails : Oracle) (s : Db) (userId itemId : Nat) (quantity : Int) : Outcome :=
  catchOnPool (cartUpdateTry fails s userId itemId quantity)

/-- Statement `DELETE FROM cart_items WHERE id = ? AND user_id = ?`; returns
`affectedRows`. -/
def deleteCartItem (itemId userId : Nat) (db : Db) : Nat × Db :=
  ((db.cart_items.filter fun ci =>
      decide (ci.id = itemId) && decide (ci.user_id = userId)).length,
   { db with cart_items := db.cart_items.filter fun ci =>
      !(decide (ci.id = itemId) && decide (ci.user_id = userId)) })

/-- Lines 182-195 of `cart.js`: the `try` block of `DELETE /remove/:itemId`. -/
def cartRemoveTry (fails : Oracle) (s : Db) (userId itemId : Nat) : Tried :=
  match (Connection.mk s 0).execute fails (deleteCartItem itemId userId) with
  | Call.thrown cx => Tried.thrown cx
  | Call.returned affectedRows c1 =>
    if affectedRows = 0 then
      Tried.sent ⟨404, Body.error ErrorMessage.cartItemNotFound⟩ c1.db c1.issued
    else
      Tried.sent ⟨200, Body.message "Item removed from cart successfully"⟩ c1.db c1.issued

/-- The handler `DELETE /remove/:itemId` of the cart. -/
def cartRemove (fails : Oracle) (s : Db) (userId itemId : Nat) : Outcome :=
  catchOnPool (cartRemoveTry fails s userId itemId)

/-- Lines 204-212 of `cart.js`: the `try` block of `DELETE /clear`. -/
def cartClearTry (fails : Oracle) (s : Db) (userId : Nat) : Tried :=
  match (Connection.mk s 0).execute fails (deleteCartItems userId) with
  | Call.thrown cx => Tried.thrown cx
  | Call.returned _ c1 =>
    Tried.sent ⟨200, Body.message "Cart cleared successfully"⟩ c1.db c1.issued

/-- The handler `DELETE /clear` of the cart. -/
def cartClear (fails : Oracle) (s : Db) (userId : Nat) : Outcome :=
  catchOnPool (cartClearTry fails s userId)

/-! ## The handler `PUT /admin/:orderId/status` of `backend/routes/orders.js` -/

/-- The values `body('status').isIn([…])` accepts, as values of `orders.status`. -/
def orderStatusOf (status : String) : Option OrderStatus :=
  if status = "pending" then some OrderStatus.pending
  else if status = "processing" then some OrderStatus.processing
  else if status = "completed" then some OrderStatus.completed
  else if status = "cancelled" then some OrderStatus.cancelled
  else none

/-- Lines 312-326 of `orders.js`: the `try` block of the admin status update,
for a caller the admin middleware let through. -/
def updateStatusTry (fails : Oracle) (s : Db) (orderId : Nat) (status : String) : Tried :=
  match orderStatusOf status with
  | none => Tried.sent ⟨400, Body.errors ["Valid status required"]⟩ s 0
  | some value =>
    match (Connection.mk s 0).execute fails (updateOrderStatus value orderId) with
    | Call.thrown cx => Tried.thrown cx
    | Call.returned _ c1 =>
      Tried.sent ⟨200, Body.message "Order status updated successfully"⟩ c1.db c1.issued

/-- The handler `PUT /admin/:orderId/status`. -/
def updateStatus (fails : Oracle) (s : Db) (orderId : Nat) (status : String) : Outcome :=
  catchOnPool (updateStatusTry fails s orderId status)

/-! ## Requests in sequence -/

/-- A request to one of the handlers that write the cart, with the
authenticated user. -/
inductive ShopRequest where
  | cartAdd (userId : Nat) (req : AddRequest)
  | cartUpdate (userId itemId : Nat) (quantity : Int)
  | cartRemove (userId itemId : Nat)
  | cartClear (userId : Nat)
  | reorder (userId orderId : Nat)
  | createOrder (userId : Nat) (req : Request)

/-- The authenticated user of a request. -/
def ShopRequest.userId : ShopRequest → Nat
  | ShopRequest.cartAdd userId _ => userId
  | ShopRequest.cartUpdate userId _ _ => userId
  | ShopRequest.cartRemove userId _ => userId
  | ShopRequest.cartClear userId => userId
  | ShopRequest.reorder userId _ => userId
  | ShopRequest.createOrder userId _ => userId

/-- The handler of a request, run on the store `s` with the storage calls
that throw given by `fails`. -/
def handle (fails : Oracle) (s : Db) : ShopRequest → Outcome
  | ShopRequest.cartAdd userId req => cartAdd fails s userId req
  | ShopRequest.cartUpdate userId itemId quantity => cartUpdate fails s userId itemId quantity
  | ShopRequest.cartRemove userId itemId => cartRemove fails s userId itemId
  | ShopRequest.cartClear userId => cartClear fails s userId
  | ShopRequest.reorder userId orderId => reorder fails s userId orderId
  | ShopRequest.createOrder userId req => createOrder fails s userId req

/-- The store after a sequence of requests, each with its own storage
behaviour, run one after the other. -/
def runRequests (s : Db) : List (Oracle × ShopRequest) → Db
  | [] => s
  | (fails, request) :: rest => runRequests (handle fails s request).db rest

/-- What the admin status update must leave as it is in an order: every
column but `status`. -/
def Order.content (o : Order) : Nat × Nat × ℚ × ℚ × String × PaymentStatus × Option String :=
  (o.id, o.user_id, o.total_amount, o.tax_amount, o.payment_method, o.payment_status, o.notes)

/-- A store with two orders and the lines of the first. -/
def statusStore : Db :=
  { products := [⟨1, "Latte", 9 / 2, 5, true⟩],
    product_variants := [],
    cart_items := [⟨1, 7, 1, 1, none⟩],
    orders := [⟨1, 7, 486 / 100, 36 / 100, "cash", PaymentStatus.completed, none,
                OrderStatus.processing⟩,
               ⟨2, 8, 972 / 100, 72 / 100, "card", PaymentStatus.completed, none,
                OrderStatus.processing⟩],
    order_items := [⟨1, 1, 1, 9 / 2, none⟩] }

/-! ## Notions used to state the properties of the carts -/

/-- The store an awaited call, or a block of calls, leaves. -/
def Call.store {α : Type} : Call α → Db
  | Call.returned _ c => c.db
  | Call.thrown cx => cx.db

/-- The stores the reorder loop over rows of `rows` can leave, from the store
`s`: every write is the update of a matching line of the caller by a row
within stock, to a sum within stock, or the insert of a line for a row within
stock. -/
inductive ReorderWrites (userId : Nat) (rows : List ReorderRow) (s : Db) : Db → Prop where
  | refl : ReorderWrites userId rows s s
  | update (d : Db) (item : ReorderRow) (existing : CartItem) :
      ReorderWrites userId rows s d → item ∈ rows →
      existing ∈ selectExistingItems userId item.product_id item.customizations d →
      item.quantity ≤ item.stock_quantity →
      existing.quantity + item.quantity ≤ item.stock_quantity →
      ReorderWrites userId rows s
        (updateCartItemQuantity (existing.quantity + item.quantity) existing.id d).2
  | insert (d : Db) (item : ReorderRow) :
      ReorderWrites userId rows s d → item ∈ rows →
      item.quantity ≤ item.stock_quantity →
      ReorderWrites userId rows s
        (insertCartItem userId item.product_id item.quantity item.customizations d).2

/-- Every cart line and every order line has a quantity of at least 1. -/
def QuantitiesPositive (s : Db) : Prop :=
  (∀ ci ∈ s.cart_items, 1 ≤ ci.quantity) ∧ (∀ oi ∈ s.order_items, 1 ≤ oi.quantity)

/-- The id of a cart line tells its owner and its product: what the primary
key of `cart_items` gives. -/
def CartKeyed (s : Db) : Prop :=
  ∀ a ∈ s.cart_items, ∀ b ∈ s.cart_items, a.id = b.id →
    a.user_id = b.user_id ∧ a.product_id = b.product_id

/-- The cart lines of the users other than `userId`. -/
def otherCarts (userId : Nat) (s : Db) : List CartItem :=
  s.cart_items.filter fun ci => !decide (ci.user_id = userId)

/-- A store with two products and no cart line, order or order line. -/
def emptyShop : Db :=
  { products := [⟨1, "Latte", 9 / 2, 10, true⟩, ⟨2, "Mocha", 499 / 100, 3, true⟩],
    product_variants := [⟨1, 1, 1 / 2, true⟩],
    cart_items := [], orders := [], order_items := [] }

/-- User 7 adds two Lattes, sets the line to three, orders, reorders the
order and adds a Mocha; user 8 adds a Latte. -/
def exampleRequests : List (Oracle × ShopRequest) :=
  [(noFailure, ShopRequest.cartAdd 7 ⟨1, Quantity.number 2, none⟩),
   (noFailure, ShopRequest.cartUpdate 7 1 3),
   (noFailure, ShopRequest.createOrder 7 cashRequest),
   (noFailure, ShopRequest.cartAdd 8 ⟨1, Quantity.number 1, none⟩),
   (noFailure, ShopRequest.reorder 7 1),
   (noFailure, ShopRequest.cartAdd 7 ⟨2, Quantity.number 1, some ⟨[1], ""⟩⟩)]

/-- A store in which users 7 and 8 hold a cart line each, and user 7 has an
order of two Lattes. -/
def sharedStore : Db :=
  { products := [⟨1, "Latte", 9 / 2, 5, true⟩],
    product_variants := [],
    cart_items := [⟨1, 7, 1, 1, none⟩, ⟨2, 8, 1, 2, some ⟨[1], ""⟩⟩],
    orders := [⟨1, 7, 972 / 100, 72 / 100, "cash", PaymentStatus.completed, none,
                OrderStatus.processing⟩],
    order_items := [⟨1, 1, 2, 9 / 2, some ⟨[1], ""⟩⟩] }

/-! ## The cart view `router.get('/')` of `backend/routes/cart.js` -/

/-- Row of `categories`. -/
structure Category where
  id : Nat
  name : String
deriving DecidableEq

/-- What the cart view reads and the store `Db` leaves out: the column
`products.category_id` (`none` for SQL `NULL`), the table `categories` and
the column `cart_items.created_at`. -/
structure ViewColumns where
  category_id : Product → Option Nat
  categories : List Category
  created_at : CartItem → Nat

/-- Row of the cart view query: `ci.*, p.name, p.base_price, p.stock_quantity`
and `c.name as category_name` (the column `image_url` is left out). -/
structure CartViewRow where
  id : Nat
  user_id : Nat
  product_id : Nat
  quantity : Int
  customizations : Option Customizations
  name : String
  base_price : ℚ
  stock_quantity : Int
  category_name : String
deriving DecidableEq

/-- The columns of a row of the cart view that the cart query of order
placement reads too. -/
def CartViewRow.toCartRow (row : CartViewRow) : CartRow :=
  { id := row.id, user_id := row.user_id, product_id := row.product_id,
    quantity := row.quantity, customizations := row.customizations, name := row.name,
    base_price := row.base_price, stock_quantity := row.stock_quantity }

/-- Query `SELECT ci.*, p.name, p.base_price, p.image_url, p.stock_quantity,
c.name as category_name FROM cart_items ci JOIN products p ON ci.product_id = p.id
JOIN categories c ON p.category_id = c.id
WHERE ci.user_id = ? AND p.is_active = TRUE ORDER BY ci.created_at DESC`. -/
def selectCartView (cols : ViewColumns) (userId : Nat) (db : Db) : List CartViewRow :=
  (db.cart_items.insertionSort fun a b => cols.created_at b ≤ cols.created_at a).flatMap
    fun ci =>
      (db.products.filter fun p =>
        decide (ci.product_id = p.id) && decide (ci.user_id = userId) && p.is_active).flatMap
        fun p =>
          (cols.categories.filter fun c => decide (cols.category_id p = some c.id)).map
            fun c =>
              { id := ci.id, user_id := ci.user_id, product_id := ci.product_id,
                quantity := ci.quantity, customizations := ci.customizations, name := p.name,
                base_price := p.base_price, stock_quantity := p.stock_quantity,
                category_name := c.name }

/-- Lines 26-43 of `cart.js`: the price of a row of the cart view, in the
variable `totalPrice`. -/
def resolveTotalPrice (fails : Oracle) (item : CartViewRow) (c : Connection) : Call ℚ :=
  match item.customizations with
  | none => Call.returned item.base_price c
  | some customizations =>
    if customizations.variants.length > 0 then
      match c.execute fails (query (selectVariants customizations.variants)) with
      | Call.thrown cx => Call.thrown cx
      | Call.returned variants c1 =>
        Call.returned
          (item.base_price + variants.foldl (fun sum variant => sum + variant.price_modifier) 0) c1
    else Call.returned item.base_price c

/-- The element of `items` for a row and its price: `item.unit_price =
totalPrice` and `item.total_price = totalPrice * item.quantity`. -/
def toViewItem (item : CartViewRow) (totalPrice : ℚ) : CartViewItem :=
  { id := item.id, user_id := item.user_id, product_id := item.product_id,
    quantity := item.quantity, customizations := item.customizations, name := item.name,
    base_price := item.base_price, stock_quantity := item.stock_quantity,
    category_name := item.category_name, unit_price := totalPrice,
    total_price := totalPrice * item.quantity }

/-- Lines 25-47 of `cart.js`: `for (let item of cartItems)`. -/
def priceCartView (fails : Oracle) : List CartViewRow → Connection → Call (List CartViewItem)
  | [], c => Call.returned [] c
  | item :: rest, c =>
    match resolveTotalPrice fails item c with
    | Call.thrown cx => Call.thrown cx
    | Call.returned totalPrice c1 =>
      match priceCartView fails rest c1 with
      | Call.thrown cx => Call.thrown cx
      | Call.returned items c2 => Call.returned (toViewItem item totalPrice :: items) c2

/-- Expression `parseFloat(x.toFixed(2))` on an exact amount: the nearest
number with 2 decimals, a tie going to the larger magnitude. -/
def toFixed2 (x : ℚ) : ℚ :=
  if x < 0 then -roundHalfUp2 (-x) else roundHalfUp2 x

/-- Lines 49-60 of `cart.js`: the object `summary`. -/
def summaryOf (items : List CartViewItem) : CartSummary :=
  let subtotal := items.foldl (fun sum item => sum + item.total_price) 0
  let tax := subtotal * (8 / 100)
  let total := subtotal + tax
  { subtotal := toFixed2 subtotal, tax := toFixed2 tax, total := toFixed2 total,
    itemCount := items.foldl (fun sum item => sum + item.quantity) 0 }

/-- Lines 10-61 of `cart.js`: the `try` block of the cart view. -/
def getCartTry (fails : Oracle) (cols : ViewColumns) (s : Db) (userId : Nat) : Tried :=
  match (Connection.mk s 0).execute fails (query (selectCartView cols userId)) with
  | Call.thrown cx => Tried.thrown cx
  | Call.returned cartItems c1 =>
    match priceCartView fails cartItems c1 with
    | Call.thrown cx => Tried.thrown cx
    | Call.returned items c2 =>
      Tried.sent ⟨200, Body.cart items (summaryOf items)⟩ c2.db c2.issued

/-- The handler `GET /` of the cart for the authenticated user `userId`. -/
def getCart (fails : Oracle) (cols : ViewColumns) (s : Db) (userId : Nat) : Outcome :=
  catchOnPool (getCartTry fails cols s userId)

/-- The items the cart view answers with when the storage does not throw:
every row of the view with its unit price and line total, unrounded. -/
def viewItems (cols : ViewColumns) (s : Db) (userId : Nat) : List CartViewItem :=
  (selectCartView cols userId s).map fun row => toViewItem row (unitPrice s row.toCartRow)

/-- The sum of the line totals of the cart view, unrounded. -/
def viewSubtotal (cols : ViewColumns) (s : Db) (userId : Nat) : ℚ :=
  ((viewItems cols s userId).map fun item => item.total_price).sum

/-- An amount is a whole number of cents. -/
def IsCents (x : ℚ) : Prop := ∃ k : ℤ, x = k / 100

/-- Columns in which every product is of category 1, there is one category,
and a cart line is as old as its id. -/
def exampleColumns : ViewColumns :=
  { category_id := fun _ => some 1, categories := [⟨1, "Coffee"⟩],
    created_at := fun ci => ci.id }

/-- Columns in which no product has a category: `category_id` is `NULL`. -/
def noCategoryColumns : ViewColumns :=
  { category_id := fun _ => none, categories := [⟨1, "Coffee"⟩],
    created_at := fun ci => ci.id }
/-! ## Storage calls -/

theorem clean_zero (fails : Oracle) : Clean fails 0 := fun _ hk => absurd hk (Nat.not_lt_zero _)

theorem clean_noFailure (n : Nat) : Clean noFailure n := fun _ _ => rfl

theorem clean_succ {fails : Oracle} {n : Nat} (h : Clean fails n) (hn : fails n = false) :
    Clean fails (n + 1) := by
  intro k hk
  rcases Nat.lt_succ_iff_lt_or_eq.mp hk with h1 | h1
  · exact h k h1
  · rw [h1]; exact hn

theorem execute_returned {α : Type} {fails : Oracle} {c c1 : Connection} {stmt : Db → α × Db}
    {v : α} (h : c.execute fails stmt = Call.returned v c1) :
    fails c.issued = false ∧ v = (stmt c.db).1 ∧ c1.db = (stmt c.db).2 ∧
      c1.issued = c.issued + 1 := by
  unfold Connection.execute at h
  split at h
  · cases h
  · rename_i hf
    cases h
    exact ⟨by simpa using hf, rfl, rfl, rfl⟩

theorem execute_thrown {α : Type} {fails : Oracle} {c : Connection} {stmt : Db → α × Db}
    {n : Connection} (h : c.execute fails stmt = (Call.thrown n : Call α)) :
    fails c.issued = true ∧ n.issued = c.issued + 1 := by
  unfold Connection.execute at h
  split at h
  · rename_i hf
    cases h
    exact ⟨hf, rfl⟩
  · cases h

theorem execute_noFailure {α : Type} (c : Connection) (stmt : Db → α × Db) :
    c.execute noFailure stmt = Call.returned (stmt c.db).1 ⟨(stmt c.db).2, c.issued + 1⟩ := by
  simp [Connection.execute, noFailure]

/-! ## Pricing -/

theorem unitPrice_none (db : Db) (item : CartRow) (h : item.customizations = none) :
    unitPrice db item = item.base_price := by
  simp [unitPrice, resolveUnitPrice, h]

theorem unitPrice_some (db : Db) (item : CartRow) (cz : Customizations)
    (h : item.customizations = some cz) :
    unitPrice db item =
      if cz.variants.length > 0 then
        item.base_price +
          (selectVariants cz.variants db).foldl (fun sum variant => sum + variant.price_modifier) 0
      else item.base_price := by
  by_cases hl : cz.variants.length > 0
  · simp [unitPrice, resolveUnitPrice, h, hl, execute_noFailure, query]
  · simp [unitPrice, resolveUnitPrice, h, hl]

theorem resolveUnitPrice_returned {fails : Oracle} {item : CartRow} {c c1 : Connection} {p : ℚ}
    (h : resolveUnitPrice fails item c = Call.returned p c1) :
    c1.db = c.db ∧ p = unitPrice c.db item ∧ (Clean fails c.issued → Clean fails c1.issued) := by
  unfold resolveUnitPrice at h
  split at h
  · rename_i hc
    cases h
    exact ⟨rfl, (unitPrice_none _ _ hc).symm, id⟩
  · rename_i cz hc
    split at h
    · rename_i hl
      split at h
      · cases h
      · rename_i variants c2 he
        cases h
        obtain ⟨hf, hv, hdb, hi⟩ := execute_returned he
        refine ⟨by simpa [query] using hdb, ?_, fun hcl => ?_⟩
        · rw [unitPrice_some _ _ _ hc, if_pos hl, hv]; rfl
        · rw [hi]; exact clean_succ hcl hf
    · rename_i hl
      cases h
      exact ⟨rfl, by rw [unitPrice_some _ _ _ hc, if_neg hl], id⟩

theorem resolveUnitPrice_thrown {fails : Oracle} {item : CartRow} {c : Connection} {n : Connection}
    (h : resolveUnitPrice fails item c = Call.thrown n) : ∃ k, k < n.issued ∧ fails k = true := by
  unfold resolveUnitPrice at h
  split at h
  · cases h
  · split at h
    · split at h
      · rename_i m he
        cases h
        obtain ⟨hf, hn⟩ := execute_thrown he
        exact ⟨c.issued, by omega, hf⟩
      · cases h
    · cases h

theorem resolveUnitPrice_noFailure (item : CartRow) (c : Connection) :
    ∃ c1, resolveUnitPrice noFailure item c = Call.returned (unitPrice c.db item) c1 := by
  cases hr : resolveUnitPrice noFailure item c with
  | returned p c1 => exact ⟨c1, by rw [(resolveUnitPrice_returned hr).2.1]⟩
  | thrown n =>
    obtain ⟨k, _, hk⟩ := resolveUnitPrice_thrown hr
    simp [noFailure] at hk

theorem priceItems_priced {fails : Oracle} :
    ∀ (rows : List CartRow) (subtotal0 : ℚ) (acc : List OrderLine) (c c2 : Connection)
      (subtotal : ℚ) (orderItems : List OrderLine),
      priceItems fails rows subtotal0 acc c = Priced.priced subtotal orderItems c2 →
      c2.db = c.db ∧
      subtotal = subtotal0 + (rows.map fun item => unitPrice c.db item * item.quantity).sum ∧
      orderItems = acc ++ rows.map (toOrderLine c.db) ∧
      (∀ item ∈ rows, item.quantity ≤ item.stock_quantity) ∧
      (Clean fails c.issued → Clean fails c2.issued) := by
  intro rows
  induction rows with
  | nil =>
    intro subtotal0 acc c c2 subtotal orderItems h
    simp only [priceItems] at h
    cases h
    simp
  | cons item rest ih =>
    intro subtotal0 acc c c2 subtotal orderItems h
    simp only [priceItems] at h
    split at h
    · cases h
    · rename_i hs
      split at h
      · cases h
      · rename_i p c1 hr
        obtain ⟨hdb, hp, hcl⟩ := resolveUnitPrice_returned hr
        obtain ⟨h1, h2, h3, h4, h5⟩ := ih _ _ _ _ _ _ h
        rw [hdb] at h1 h2 h3
        refine ⟨h1, ?_, ?_, ?_, fun hc => h5 (hcl hc)⟩
        · rw [h2, hp]; simp [add_assoc]
        · rw [h3, hp]; simp [toOrderLine]
        · intro it hit
          rcases List.mem_cons.mp hit with h6 | h6
          · rw [h6]; exact not_lt.mp hs
          · exact h4 it h6

theorem priceItems_insufficient {fails : Oracle} :
    ∀ (rows : List CartRow) (subtotal0 : ℚ) (acc : List OrderLine) (c c2 : Connection)
      (item : CartRow),
      priceItems fails rows subtotal0 acc c = Priced.insufficient item c2 →
      c2.db = c.db ∧ item ∈ rows ∧ item.stock_quantity < item.quantity ∧
      (Clean fails c.issued → Clean fails c2.issued) := by
  intro rows
  induction rows with
  | nil =>
    intro subtotal0 acc c c2 item h
    simp only [priceItems] at h
    cases h
  | cons head rest ih =>
    intro subtotal0 acc c c2 item h
    simp only [priceItems] at h
    split at h
    · rename_i hs
      cases h
      exact ⟨rfl, List.mem_cons_self _ _, hs, id⟩
    · split at h
      · cases h
      · rename_i p c1 hr
        obtain ⟨hdb, _, hcl⟩ := resolveUnitPrice_returned hr
        obtain ⟨h1, h2, h3, h4⟩ := ih _ _ _ _ _ h
        exact ⟨h1.trans hdb, List.mem_cons_of_mem _ h2, h3, fun hc => h4 (hcl hc)⟩

theorem priceItems_thrown {fails : Oracle} :
    ∀ (rows : List CartRow) (subtotal0 : ℚ) (acc : List OrderLine) (c : Connection) (n : Connection),
      priceItems fails rows subtotal0 acc c = Priced.thrown n → ∃ k, k < n.issued ∧ fails k = true := by
  intro rows
  induction rows with
  | nil =>
    intro subtotal0 acc c n h
    simp only [priceItems] at h
    cases h
  | cons head rest ih =>
    intro subtotal0 acc c n h
    simp only [priceItems] at h
    split at h
    · cases h
    · split at h
      · rename_i m hr
        cases h
        exact resolveUnitPrice_thrown hr
      · exact ih _ _ _ _ h

/-- With a storage that never throws, the loop ends at the first row whose
quantity exceeds the stock, and runs to its end when there is none. -/
theorem priceItems_noFailure_of_stock :
    ∀ (rows : List CartRow) (subtotal0 : ℚ) (acc : List OrderLine) (c : Connection),
      (∀ item ∈ rows, item.quantity ≤ item.stock_quantity) →
      ∃ c2, priceItems noFailure rows subtotal0 acc c =
        Priced.priced (subtotal0 + (rows.map fun item => unitPrice c.db item * item.quantity).sum)
          (acc ++ rows.map (toOrderLine c.db)) c2 ∧ c2.db = c.db := by
  intro rows subtotal0 acc c hall
  cases hp : priceItems noFailure rows subtotal0 acc c with
  | priced subtotal orderItems c2 =>
    obtain ⟨h1, h2, h3, _, _⟩ := priceItems_priced _ _ _ _ _ _ _ hp
    exact ⟨c2, by rw [h2, h3], h1⟩
  | insufficient item c2 =>
    obtain ⟨_, h2, h3, _⟩ := priceItems_insufficient _ _ _ _ _ _ hp
    exact absurd (hall item h2) (not_le.mpr h3)
  | thrown n =>
    obtain ⟨k, _, hk⟩ := priceItems_thrown _ _ _ _ _ hp
    simp [noFailure] at hk

theorem priceItems_noFailure_of_short :
    ∀ (rows : List CartRow) (subtotal0 : ℚ) (acc : List OrderLine) (c : Connection),
      (∃ item ∈ rows, item.stock_quantity < item.quantity) →
      ∃ item c2, priceItems noFailure rows subtotal0 acc c = Priced.insufficient item c2 ∧
        c2.db = c.db ∧ item ∈ rows ∧ item.stock_quantity < item.quantity := by
  intro rows subtotal0 acc c hex
  cases hp : priceItems noFailure rows subtotal0 acc c with
  | priced subtotal orderItems c2 =>
    obtain ⟨_, _, _, h4, _⟩ := priceItems_priced _ _ _ _ _ _ _ hp
    obtain ⟨item, hm, hlt⟩ := hex
    exact absurd (h4 item hm) (not_le.mpr hlt)
  | insufficient item c2 =>
    obtain ⟨h1, h2, h3, _⟩ := priceItems_insufficient _ _ _ _ _ _ hp
    exact ⟨item, c2, rfl, h1, h2, h3⟩
  | thrown n =>
    obtain ⟨k, _, hk⟩ := priceItems_thrown _ _ _ _ _ hp
    simp [noFailure] at hk

/-! ## Writing the order -/

theorem applyLines_cons (item : OrderLine) (rest : List OrderLine) (p : Product) :
    applyLines rest
        (if p.id = item.product_id then
          { p with stock_quantity := p.stock_quantity - item.quantity } else p) =
      applyLines (item :: rest) p := by
  by_cases h : p.id = item.product_id
  · simp [applyLines, orderedQuantity, h, List.filter_cons, sub_sub]
  · have h2 : ¬ item.product_id = p.id := fun e => h e.symm
    simp [applyLines, orderedQuantity, h, h2, List.filter_cons]

theorem writeItems_returned {fails : Oracle} (orderId : Nat) :
    ∀ (items : List OrderLine) (c c2 : Connection) (u : Unit),
      writeItems fails orderId items c = Call.returned u c2 →
      c2.db = { c.db with
                products := c.db.products.map (applyLines items),
                order_items := c.db.order_items ++ items.map (toOrderItem orderId) } ∧
      (Clean fails c.issued → Clean fails c2.issued) := by
  intro items
  induction items with
  | nil =>
    intro c c2 u h
    simp only [writeItems] at h
    cases h
    refine ⟨?_, id⟩
    have hid : applyLines [] = id := by
      funext p
      simp [applyLines, orderedQuantity]
    simp [hid]
  | cons item rest ih =>
    intro c c2 u h
    simp only [writeItems] at h
    split at h
    · cases h
    · rename_i u1 c1 he1
      split at h
      · cases h
      · rename_i u2 c3 he2
        obtain ⟨hf1, _, hdb1, hi1⟩ := execute_returned he1
        obtain ⟨hf2, _, hdb2, hi2⟩ := execute_returned he2
        obtain ⟨h1, h2⟩ := ih _ _ _ h
        refine ⟨?_, fun hc => h2 ?_⟩
        · rw [h1, hdb2, hdb1]
          simp only [updateStock, insertOrderItem, List.map_map, List.map_cons,
            List.append_assoc, List.singleton_append]
          congr 1
          · apply List.map_congr_left
            intro p _
            exact applyLines_cons item rest p
        · rw [hi2]
          refine clean_succ ?_ hf2
          rw [hi1]
          exact clean_succ hc hf1

theorem writeItems_thrown {fails : Oracle} (orderId : Nat) :
    ∀ (items : List OrderLine) (c : Connection) (n : Connection),
      writeItems fails orderId items c = Call.thrown n → ∃ k, k < n.issued ∧ fails k = true := by
  intro items
  induction items with
  | nil =>
    intro c n h
    simp only [writeItems] at h
    cases h
  | cons item rest ih =>
    intro c n h
    simp only [writeItems] at h
    split at h
    · rename_i m he
      cases h
      obtain ⟨hf, hn⟩ := execute_thrown he
      exact ⟨c.issued, by omega, hf⟩
    · rename_i u1 c1 he1
      split at h
      · rename_i m he
        cases h
        obtain ⟨hf, hn⟩ := execute_thrown he
        exact ⟨c1.issued, by omega, hf⟩
      · exact ih _ _ h

theorem insertId_fresh (db : Db) (o : Order) (h : o ∈ db.orders) : o.id < insertId db := by
  unfold insertId
  have key : ∀ (l : List Order), o ∈ l → o.id ≤ (l.map fun o => o.id).foldr max 0 := by
    intro l
    induction l with
    | nil => intro h; cases h
    | cons a t ih =>
      intro h
      rcases List.mem_cons.mp h with h1 | h1
      · rw [h1]; simp
      · have := ih h1
        simp only [List.map_cons, List.foldr_cons]
        exact le_trans this (le_max_right _ _)
  exact Nat.lt_succ_of_le (key _ h)

theorem updateOrderStatus_fresh (db : Db) (status : OrderStatus) :
    db.orders.map (fun o => if o.id = insertId db then { o with status := status } else o) =
      db.orders := by
  conv_rhs => rw [← List.map_id db.orders]
  apply List.map_congr_left
  intro o ho
  have := insertId_fresh db o ho
  simp [Nat.ne_of_lt this]

theorem commitOrder_sent {fails : Oracle} {userId : Nat} {req : Request} {subtotal : ℚ}
    {orderItems : List OrderLine} {c : Connection} {response : Response} {db : Db} {n : Nat}
    (h : commitOrder fails userId req subtotal orderItems c = Tried.sent response db n) :
    response = ⟨201, Body.orderCreated (insertId c.db) (subtotal + subtotal * (8 / 100))
      (paymentStatus req)⟩ ∧
    db = { products := c.db.products.map (applyLines orderItems),
           product_variants := c.db.product_variants,
           cart_items := c.db.cart_items.filter fun ci => !decide (ci.user_id = userId),
           orders := c.db.orders ++ [orderRow c.db userId req subtotal],
           order_items := c.db.order_items ++ orderItems.map (toOrderItem (insertId c.db)) } ∧
    (Clean fails c.issued → Clean fails n) := by
  unfold commitOrder at h
  simp only at h
  split at h
  · cases h
  · rename_i orderId c1 he1
    split at h
    · cases h
    · rename_i u2 c2 hw
      split at h
      · cases h
      · rename_i u3 c3 he3
        split at h
        · cases h
        · rename_i u4 c4 he4
          split at h
          · cases h
          · rename_i u5 c5 he5
            cases h
            obtain ⟨hf1, hv1, hdb1, hi1⟩ := execute_returned he1
            obtain ⟨hdb2, hcl2⟩ := writeItems_returned _ _ _ _ _ hw
            obtain ⟨hf3, _, hdb3, hi3⟩ := execute_returned he3
            obtain ⟨hf4, _, hdb4, hi4⟩ := execute_returned he4
            obtain ⟨hf5, _, hdb5, hi5⟩ := execute_returned he5
            have hid : orderId = insertId c.db := by rw [hv1]; rfl
            subst hid
            refine ⟨rfl, ?_, fun hc => ?_⟩
            · rw [hdb5, commit, hdb4, hdb3, hdb2, hdb1]
              simp only [updateOrderStatus, deleteCartItems, insertOrder, List.map_append,
                updateOrderStatus_fresh, List.map_cons, List.map_nil, if_true, orderRow]
            · rw [hi5]
              refine clean_succ ?_ hf5
              rw [hi4]
              refine clean_succ ?_ hf4
              rw [hi3]
              refine clean_succ (hcl2 ?_) hf3
              rw [hi1]
              exact clean_succ hc hf1

theorem commitOrder_thrown {fails : Oracle} {userId : Nat} {req : Request} {subtotal : ℚ}
    {orderItems : List OrderLine} {c : Connection} {n : Connection}
    (h : commitOrder fails userId req subtotal orderItems c = Tried.thrown n) :
    ∃ k, k < n.issued ∧ fails k = true := by
  unfold commitOrder at h
  simp only at h
  split at h
  · rename_i m he
    cases h
    obtain ⟨hf, hn⟩ := execute_thrown he
    exact ⟨_, by omega, hf⟩
  · split at h
    · rename_i m hw
      cases h
      exact writeItems_thrown _ _ _ _ hw
    · split at h
      · rename_i m he
        cases h
        obtain ⟨hf, hn⟩ := execute_thrown he
        exact ⟨_, by omega, hf⟩
      · split at h
        · rename_i m he
          cases h
          obtain ⟨hf, hn⟩ := execute_thrown he
          exact ⟨_, by omega, hf⟩
        · split at h
          · rename_i m he
            cases h
            obtain ⟨hf, hn⟩ := execute_thrown he
            exact ⟨_, by omega, hf⟩
          · cases h

theorem rollbackAndSend_sent {fails : Oracle} {s : Db} {c : Connection} {message : ErrorMessage}
    {response : Response} {db : Db} {n : Nat}
    (h : rollbackAndSend fails s c message = Tried.sent response db n) :
    response = ⟨400, Body.error message⟩ ∧ db = s ∧ (Clean fails c.issued → Clean fails n) := by
  unfold rollbackAndSend at h
  split at h
  · cases h
  · rename_i u c1 he
    cases h
    obtain ⟨hf, _, hdb, hi⟩ := execute_returned he
    exact ⟨rfl, by rw [hdb]; rfl, fun hc => by rw [hi]; exact clean_succ hc hf⟩

theorem rollbackAndSend_thrown {fails : Oracle} {s : Db} {c : Connection} {message : ErrorMessage}
    {n : Connection} (h : rollbackAndSend fails s c message = Tried.thrown n) :
    ∃ k, k < n.issued ∧ fails k = true := by
  unfold rollbackAndSend at h
  split at h
  · rename_i m he
    cases h
    obtain ⟨hf, hn⟩ := execute_thrown he
    exact ⟨_, by omega, hf⟩
  · cases h

/-! ## The handler, case by case -/

theorem createOrderTry_sent {fails : Oracle} {s : Db} {userId : Nat} {req : Request}
    {response : Response} {db : Db} {n : Nat}
    (h : createOrderTry fails s userId req = Tried.sent response db n) :
    Clean fails n ∧ Answered s userId req response db := by
  unfold createOrderTry at h
  split at h
  · cases h
  · rename_i u0 c0 he0
    obtain ⟨hf0, _, hdb0, hi0⟩ := execute_returned he0
    have hc0 : Clean fails c0.issued := by
      rw [hi0]; exact clean_succ (clean_zero fails) hf0
    have hs0 : c0.db = s := by rw [hdb0]; rfl
    split at h
    · rename_i hv
      cases h
      exact ⟨hc0, Or.inl ⟨hv, rfl, rfl⟩⟩
    · rename_i hv
      have hv : validationResult req = [] := by simpa using hv
      split at h
      · cases h
      · rename_i cartItems c1 he1
        obtain ⟨hf1, hrows, hdb1, hi1⟩ := execute_returned he1
        have hc1 : Clean fails c1.issued := by
          rw [hi1]; exact clean_succ hc0 hf1
        have hs1 : c1.db = s := by rw [hdb1, ← hs0]; rfl
        have hrows : cartItems = selectCartItems userId s := by rw [hrows, hs0]; rfl
        subst hrows
        split at h
        · rename_i hlen
          obtain ⟨h1, h2, h3⟩ := rollbackAndSend_sent h
          exact ⟨h3 hc1, Or.inr (Or.inl ⟨hv, List.length_eq_zero.mp hlen, h1, h2⟩)⟩
        · rename_i hlen
          have hne : selectCartItems userId s ≠ [] := fun e => hlen (by rw [e]; rfl)
          split at h
          · cases h
          · rename_i item c2 hp
            obtain ⟨_, hm, hlt, hcl⟩ := priceItems_insufficient _ _ _ _ _ _ hp
            obtain ⟨h1, h2, h3⟩ := rollbackAndSend_sent h
            exact ⟨h3 (hcl hc1),
              Or.inr (Or.inr (Or.inl ⟨hv, ⟨item, hm, hlt, h1⟩, h2⟩))⟩
          · rename_i subtotal orderItems c2 hp
            obtain ⟨hdb2, hsub, hitems, hall, hcl⟩ := priceItems_priced _ _ _ _ _ _ _ hp
            rw [hs1] at hdb2 hsub hitems
            split at h
            · rename_i hpay
              obtain ⟨h1, h2, h3⟩ := rollbackAndSend_sent h
              exact ⟨h3 (hcl hc1),
                Or.inr (Or.inr (Or.inr (Or.inl ⟨hv, hne, hall, hpay, h1, h2⟩)))⟩
            · rename_i hpay
              obtain ⟨h1, h2, h3⟩ := commitOrder_sent h
              refine ⟨h3 (hcl hc1),
                Or.inr (Or.inr (Or.inr (Or.inr ⟨hv, hne, hall, hpay, ?_, ?_⟩)))⟩
              · rw [h1, hdb2, hsub]; simp [subtotalOf]
              · rw [h2, hdb2, hsub, hitems]; simp [placedStore, subtotalOf]

theorem createOrderTry_thrown {fails : Oracle} {s : Db} {userId : Nat} {req : Request} {n : Connection}
    (h : createOrderTry fails s userId req = Tried.thrown n) :
    ∃ k, k < n.issued ∧ fails k = true := by
  unfold createOrderTry at h
  split at h
  · rename_i m he
    cases h
    obtain ⟨hf, hn⟩ := execute_thrown he
    exact ⟨_, by omega, hf⟩
  · split at h
    · cases h
    · split at h
      · rename_i m he
        cases h
        obtain ⟨hf, hn⟩ := execute_thrown he
        exact ⟨_, by omega, hf⟩
      · split at h
        · exact rollbackAndSend_thrown h
        · split at h
          · rename_i m hp
            cases h
            exact priceItems_thrown _ _ _ _ _ hp
          · exact rollbackAndSend_thrown h
          · split at h
            · exact rollbackAndSend_thrown h
            · exact commitOrder_thrown h

/-- Every run of the handler either met a throwing storage call, answered 500
and left the store as it was, or met none and answered in one of the five
ways of `Answered`. -/
theorem createOrder_cases (fails : Oracle) (s : Db) (userId : Nat) (req : Request) :
    ((∃ k, k < (createOrder fails s userId req).issued ∧ fails k = true) ∧
      (createOrder fails s userId req).response =
        ⟨500, Body.error ErrorMessage.internalServerError⟩ ∧
      (createOrder fails s userId req).db = s) ∨
    (Clean fails (createOrder fails s userId req).issued ∧
      Answered s userId req (createOrder fails s userId req).response
        (createOrder fails s userId req).db) := by
  unfold createOrder
  cases ht : createOrderTry fails s userId req with
  | sent response db n =>
    exact Or.inr (createOrderTry_sent ht)
  | thrown n =>
    exact Or.inl ⟨createOrderTry_thrown ht, rfl, rfl⟩

/-- With a storage that never throws the handler answers in one of the five
ways of `Answered`. -/
theorem createOrder_noFailure (s : Db) (userId : Nat) (req : Request) :
    Answered s userId req (createOrder noFailure s userId req).response
      (createOrder noFailure s userId req).db := by
  rcases createOrder_cases noFailure s userId req with ⟨⟨k, _, hk⟩, _⟩ | ⟨_, h⟩
  · simp [noFailure] at hk
  · exact h

theorem mem_selectCartItems (userId : Nat) (s : Db) (row : CartRow) :
    row ∈ selectCartItems userId s ↔
      ∃ ci ∈ s.cart_items, ∃ p ∈ s.products,
        ci.product_id = p.id ∧ ci.user_id = userId ∧ p.is_active = true ∧ joinRow ci p = row := by
  simp only [selectCartItems, List.mem_flatMap, List.mem_map, List.mem_filter,
    Bool.and_eq_true, decide_eq_true_eq]
  constructor
  · rintro ⟨ci, hci, p, ⟨hp, ⟨h1, h2⟩, h3⟩, h4⟩
    exact ⟨ci, hci, p, hp, h1, h2, h3, h4⟩
  · rintro ⟨ci, hci, p, hp, h1, h2, h3, h4⟩
    exact ⟨ci, hci, p, ⟨hp, ⟨h1, h2⟩, h3⟩, h4⟩

/-- A run that answers 201 priced the cart rows and committed the order with
that subtotal. -/
theorem createOrderTry_created {fails : Oracle} {s : Db} {userId : Nat} {req : Request}
    {response : Response} {db : Db} {n : Nat}
    (h : createOrderTry fails s userId req = Tried.sent response db n)
    (hst : response.status = 201) :
    ∃ (subtotal : ℚ) (orderItems : List OrderLine) (c1 c2 : Connection),
      c1.db = s ∧
      priceItems fails (selectCartItems userId s) 0 [] c1 =
        Priced.priced subtotal orderItems c2 ∧
      createOrderTry fails s userId req =
        commitOrder fails userId req subtotal orderItems c2 := by
  have h0 := h
  unfold createOrderTry at h
  split at h
  · cases h
  · rename_i u0 c0 he0
    obtain ⟨_, _, hdb0, _⟩ := execute_returned he0
    have hs0 : c0.db = s := by rw [hdb0]; rfl
    split at h
    · cases h
      simp at hst
    · rename_i hv
      split at h
      · cases h
      · rename_i cartItems c1 he1
        obtain ⟨_, hrows, hdb1, _⟩ := execute_returned he1
        have hs1 : c1.db = s := by rw [hdb1, ← hs0]; rfl
        have hrows : cartItems = selectCartItems userId s := by rw [hrows, hs0]; rfl
        subst hrows
        split at h
        · obtain ⟨h1, _, _⟩ := rollbackAndSend_sent h
          rw [h1] at hst
          simp at hst
        · rename_i hlen
          split at h
          · cases h
          · obtain ⟨h1, _, _⟩ := rollbackAndSend_sent h
            rw [h1] at hst
            simp at hst
          · rename_i subtotal orderItems c2 hp
            split at h
            · obtain ⟨h1, _, _⟩ := rollbackAndSend_sent h
              rw [h1] at hst
              simp at hst
            · exact ⟨subtotal, orderItems, c1, c2, hs1, hp, h0.trans h.symm⟩

theorem createOrder_created {fails : Oracle} {s : Db} {userId : Nat} {req : Request}
    (h : (createOrder fails s userId req).response.status = 201) :
    (createOrder fails s userId req).response =
      ⟨201, Body.orderCreated (insertId s)
        (subtotalOf s (selectCartItems userId s) +
          subtotalOf s (selectCartItems userId s) * (8 / 100)) (paymentStatus req)⟩ ∧
    (createOrder fails s userId req).db = placedStore s userId req ∧
    paymentStatus req ≠ PaymentStatus.failed := by
  rcases createOrder_cases fails s userId req with ⟨_, hr, _⟩ | ⟨_, ha⟩
  · rw [hr] at h; simp at h
  · rcases ha with ⟨_, hr, _⟩ | ⟨_, _, hr, _⟩ | ⟨_, ⟨_, _, _, hr⟩, _⟩ | ⟨_, _, _, _, hr, _⟩ |
      ⟨_, _, _, hpay, hr, hdb⟩
    · rw [hr] at h; simp at h
    · rw [hr] at h; simp at h
    · rw [hr] at h; simp at h
    · rw [hr] at h; simp at h
    · exact ⟨hr, hdb, hpay⟩

theorem validationResult_eq_nil {req : Request}
    (h : req.payment_method = "card" ∨ req.payment_method = "cash") :
    validationResult req = [] := by
  simp [validationResult, h]

/-! ## The claims -/

/-- Claim C1: when order placement succeeds (201), the loop over the cart rows
the handler read (the caller's cart lines, joined with their active products)
ends with a subtotal which is the one the order is committed with, and that
subtotal is the sum over those rows of the unit price resolved on the store
of the call times the quantity of the row. -/
theorem createOrder_subtotal (fails : Oracle) (s : Db) (userId : Nat) (req : Request)
    (h : (createOrder fails s userId req).response.status = 201) :
    ∃ (subtotal : ℚ) (orderItems : List OrderLine) (c1 c2 : Connection),
      c1.db = s ∧
      priceItems fails (selectCartItems userId s) 0 [] c1 =
        Priced.priced subtotal orderItems c2 ∧
      createOrderTry fails s userId req =
        commitOrder fails userId req subtotal orderItems c2 ∧
      subtotal =
        ((selectCartItems userId s).map fun item => unitPrice s item * item.quantity).sum := by
  unfold createOrder at h
  cases ht : createOrderTry fails s userId req with
  | thrown n => rw [ht] at h; simp at h
  | sent response db n =>
    rw [ht] at h
    obtain ⟨subtotal, orderItems, c1, c2, hs, hp, hc⟩ := createOrderTry_created ht h
    obtain ⟨_, hsub, _, _, _⟩ := priceItems_priced _ _ _ _ _ _ _ hp
    refine ⟨subtotal, orderItems, c1, c2, hs, hp, ht ▸ hc, ?_⟩
    rw [hsub, hs]; simp

theorem createOrder_subtotal_witness :
    (createOrder noFailure exampleStore 7 cashRequest).response.status = 201 ∧
    ∃ (subtotal : ℚ) (orderItems : List OrderLine) (c1 c2 : Connection),
      c1.db = exampleStore ∧
      priceItems noFailure (selectCartItems 7 exampleStore) 0 [] c1 =
        Priced.priced subtotal orderItems c2 ∧
      createOrderTry noFailure exampleStore 7 cashRequest =
        commitOrder noFailure 7 cashRequest subtotal orderItems c2 ∧
      subtotal =
        ((selectCartItems 7 exampleStore).map fun item =>
          unitPrice exampleStore item * item.quantity).sum :=
  ⟨by decide, createOrder_subtotal noFailure exampleStore 7 cashRequest (by decide)⟩

/-- Claim C2, evaluated where it fails: user 1 orders one Mocha at 4.99 and
pays cash. The subtotal is 4.99, and 4.99 + 4.99 × 0.08 rounded half up to 2
decimal places is 5.39. The total amount returned to the caller and the one
handed to the insert into `orders` are the sum 4.99 + 4.99 × 0.08 as it is,
which is not 5.39. -/
theorem unrounded_totalAmount_example :
    (createOrder noFailure centsStore 1 cashRequest).response.status = 201 ∧
    subtotalOf centsStore (selectCartItems 1 centsStore) = 499 / 100 ∧
    roundHalfUp2 (499 / 100 + 499 / 100 * (8 / 100)) = 539 / 100 ∧
    (∃ totalAmount : ℚ,
      (createOrder noFailure centsStore 1 cashRequest).response.body =
        Body.orderCreated 1 totalAmount PaymentStatus.completed ∧
      (createOrder noFailure centsStore 1 cashRequest).db.orders.map
        (fun o => o.total_amount) = [totalAmount] ∧
      totalAmount = 499 / 100 + 499 / 100 * (8 / 100) ∧
      totalAmount ≠ roundHalfUp2 (499 / 100 + 499 / 100 * (8 / 100))) := by
  have hst : (createOrder noFailure centsStore 1 cashRequest).response.status = 201 := by decide
  obtain ⟨hr, hdb, _⟩ := createOrder_created hst
  have hrows : selectCartItems 1 centsStore =
      [⟨1, 1, 2, 1, none, "Mocha", 499 / 100, 3⟩] := by rfl
  have hsub : subtotalOf centsStore (selectCartItems 1 centsStore) = 499 / 100 := by
    rw [hrows]
    simp [subtotalOf, unitPrice_none]
  have hid : insertId centsStore = 1 := by decide
  have hpay : paymentStatus cashRequest = PaymentStatus.completed := by decide
  have hround : roundHalfUp2 (499 / 100 + 499 / 100 * (8 / 100)) = 539 / 100 := by
    unfold roundHalfUp2
    have hf : ⌊((499 : ℚ) / 100 + 499 / 100 * (8 / 100)) * 100 + 1 / 2⌋ = 539 := by
      rw [Int.floor_eq_iff]
      constructor <;> norm_num
    rw [hf]
    norm_num
  refine ⟨hst, hsub, hround, 499 / 100 + 499 / 100 * (8 / 100), ?_, ?_, rfl, ?_⟩
  · rw [hr, hsub, hid, hpay]
  · rw [hdb]
    show (centsStore.orders ++ [orderRow centsStore 1 cashRequest
      (subtotalOf centsStore (selectCartItems 1 centsStore))]).map (fun o => o.total_amount) = _
    rw [hsub]
    simp only [centsStore, List.nil_append, List.map_cons, List.map_nil, orderRow]
  · rw [hround]
    norm_num

/-- What a successful placement does with the total amount: the one returned
to the caller and the one handed to the insert into `orders` are both
subtotal + subtotal × 0.08, as computed. -/
theorem createOrder_totalAmount (fails : Oracle) (s : Db) (userId : Nat) (req : Request)
    (h : (createOrder fails s userId req).response.status = 201) :
    (createOrder fails s userId req).response.body =
      Body.orderCreated (insertId s)
        (subtotalOf s (selectCartItems userId s) +
          subtotalOf s (selectCartItems userId s) * (8 / 100)) (paymentStatus req) ∧
    ∃ order : Order,
      (createOrder fails s userId req).db.orders = s.orders ++ [order] ∧
      order.id = insertId s ∧
      order.total_amount =
        subtotalOf s (selectCartItems userId s) +
          subtotalOf s (selectCartItems userId s) * (8 / 100) := by
  obtain ⟨hr, hdb, _⟩ := createOrder_created h
  refine ⟨by rw [hr], orderRow s userId req (subtotalOf s (selectCartItems userId s)), ?_, rfl, rfl⟩
  rw [hdb]
  rfl

/-- Claim C3: when the caller's cart has no lines, a request with payment
method card or cash, whatever its payment details, is answered 400
'Cart is empty', and the store (orders, order lines, product stock and cart
included) is as before the call. -/
theorem createOrder_emptyCart (s : Db) (userId : Nat) (req : Request)
    (hmethod : req.payment_method = "card" ∨ req.payment_method = "cash")
    (hcart : ∀ ci ∈ s.cart_items, ci.user_id ≠ userId) :
    (createOrder noFailure s userId req).response =
      ⟨400, Body.error ErrorMessage.cartIsEmpty⟩ ∧
    (createOrder noFailure s userId req).db = s := by
  have hv := validationResult_eq_nil hmethod
  have hrows : selectCartItems userId s = [] := by
    apply List.eq_nil_iff_forall_not_mem.mpr
    intro row hrow
    obtain ⟨ci, hci, _, _, _, hu, _, _⟩ := (mem_selectCartItems userId s row).mp hrow
    exact hcart ci hci hu
  rcases createOrder_noFailure s userId req with ⟨hn, _⟩ | ⟨_, _, hr, hdb⟩ |
    ⟨_, ⟨item, hm, _⟩, _⟩ | ⟨_, hne, _⟩ | ⟨_, hne, _⟩
  · exact absurd hv hn
  · exact ⟨hr, hdb⟩
  · rw [hrows] at hm; cases hm
  · exact absurd hrows hne
  · exact absurd hrows hne

theorem createOrder_emptyCart_witness :
    (declinedCardRequest.payment_method = "card" ∨ declinedCardRequest.payment_method = "cash") ∧
    (∀ ci ∈ exampleStore.cart_items, ci.user_id ≠ 9) ∧
    (createOrder noFailure exampleStore 9 declinedCardRequest).response =
      ⟨400, Body.error ErrorMessage.cartIsEmpty⟩ ∧
    (createOrder noFailure exampleStore 9 declinedCardRequest).db = exampleStore :=
  ⟨Or.inl rfl, by decide,
    createOrder_emptyCart exampleStore 9 declinedCardRequest (Or.inl rfl) (by decide)⟩

/-- When a row of the cart the handler reads (the caller's cart lines, joined
with their active products) asks for more than the stock of its product, a
request with payment method card or cash is answered 400 with the
insufficient-stock error of such a row, and the store (product stock, cart,
orders and order lines included) is as before the call. -/
theorem createOrder_insufficientStock (s : Db) (userId : Nat) (req : Request)
    (hmethod : req.payment_method = "card" ∨ req.payment_method = "cash")
    (hshort : ∃ item ∈ selectCartItems userId s, item.stock_quantity < item.quantity) :
    (∃ item ∈ selectCartItems userId s, item.stock_quantity < item.quantity ∧
      (createOrder noFailure s userId req).response =
        ⟨400, Body.error
          (ErrorMessage.insufficientStock item.name item.stock_quantity item.quantity)⟩) ∧
    (createOrder noFailure s userId req).db = s := by
  have hv := validationResult_eq_nil hmethod
  obtain ⟨bad, hbad, hlt⟩ := hshort
  rcases createOrder_noFailure s userId req with ⟨hn, _⟩ | ⟨_, hnil, _, _⟩ |
    ⟨_, hex, hdb⟩ | ⟨_, _, hall, _⟩ | ⟨_, _, hall, _⟩
  · exact absurd hv hn
  · rw [hnil] at hbad; cases hbad
  · exact ⟨hex, hdb⟩
  · exact absurd (hall bad hbad) (not_le.mpr hlt)
  · exact absurd (hall bad hbad) (not_le.mpr hlt)

/-- When the cart the handler reads is not empty and every row of it is
within the stock of its product, a request with payment method card and
card number 4000000000000002 is answered 400 'Payment failed. Please try
again.', and the store is as before the call: no stock is decremented, no
order or order line is created and the cart is unchanged. -/
theorem createOrder_paymentDeclined (s : Db) (userId : Nat) (req : Request)
    (hmethod : req.payment_method = "card")
    (hcard : req.payment_details = some ⟨some "4000000000000002"⟩)
    (hne : selectCartItems userId s ≠ [])
    (hstock : ∀ item ∈ selectCartItems userId s, item.quantity ≤ item.stock_quantity) :
    (createOrder noFailure s userId req).response =
      ⟨400, Body.error ErrorMessage.paymentFailed⟩ ∧
    (createOrder noFailure s userId req).db = s := by
  have hv := validationResult_eq_nil (Or.inl hmethod)
  have hpay : paymentStatus req = PaymentStatus.failed := by
    simp [paymentStatus, hmethod, hcard]
  rcases createOrder_noFailure s userId req with ⟨hn, _⟩ | ⟨_, hnil, _, _⟩ |
    ⟨_, ⟨item, hm, hlt, _⟩, _⟩ | ⟨_, _, _, _, hr, hdb⟩ | ⟨_, _, _, hnp, _⟩
  · exact absurd hv hn
  · exact absurd hnil hne
  · exact absurd (hstock item hm) (not_le.mpr hlt)
  · exact ⟨hr, hdb⟩
  · exact absurd hpay hnp

/-- Claim C6, evaluated where it fails: every stock is non-negative, user 7
holds two lines of one product with different customizations, each within the
stock of 1; the placement succeeds and leaves the stock at -1. -/
theorem oversold_stock_example :
    (∀ p ∈ oversellStore.products, 0 ≤ p.stock_quantity) ∧
    (∀ item ∈ selectCartItems 7 oversellStore, item.quantity ≤ item.stock_quantity) ∧
    (createOrder noFailure oversellStore 7 cashRequest).response.status = 201 ∧
    (createOrder noFailure oversellStore 7 cashRequest).db.products.map
      (fun p => p.stock_quantity) = [-1] := by
  decide

theorem quantityOrdered_toOrderItem (orderId productId : Nat) (items : List OrderLine) :
    quantityOrdered productId (items.map (toOrderItem orderId)) =
      orderedQuantity productId items := by
  induction items with
  | nil => rfl
  | cons item rest ih =>
    unfold quantityOrdered orderedQuantity at *
    by_cases h : item.product_id = productId
    · simp [List.filter_cons, toOrderItem, h] at ih ⊢
      exact ih
    · simp [List.filter_cons, toOrderItem, h] at ih ⊢
      exact ih

/-- Claim C7: after a successful placement the table of products is the one
before the call in which every product some new order line names has its
stock reduced by the sum of the quantities of the new order lines that name
it, and every other product is unchanged. -/
theorem createOrder_stock (fails : Oracle) (s : Db) (userId : Nat) (req : Request)
    (h : (createOrder fails s userId req).response.status = 201) :
    (createOrder fails s userId req).db.order_items = s.order_items ++ newOrderItems s userId ∧
    (createOrder fails s userId req).db.products =
      s.products.map fun p =>
        if ∃ row ∈ newOrderItems s userId, row.product_id = p.id then
          { p with stock_quantity :=
              p.stock_quantity - quantityOrdered p.id (newOrderItems s userId) }
        else p := by
  obtain ⟨_, hdb, _⟩ := createOrder_created h
  rw [hdb]
  refine ⟨rfl, ?_⟩
  show s.products.map (applyLines ((selectCartItems userId s).map (toOrderLine s))) = _
  apply List.map_congr_left
  intro p _
  have hq := quantityOrdered_toOrderItem (insertId s) p.id
    ((selectCartItems userId s).map (toOrderLine s))
  split
  · unfold applyLines
    rw [← hq]
    rfl
  · rename_i hno
    have hz : quantityOrdered p.id (newOrderItems s userId) = 0 := by
      unfold quantityOrdered
      have : (newOrderItems s userId).filter (fun row => decide (row.product_id = p.id)) = [] := by
        apply List.filter_eq_nil_iff.mpr
        intro row hrow hd
        exact hno ⟨row, hrow, by simpa using hd⟩
      rw [this]
      rfl
    unfold applyLines
    rw [← hq]
    show ({ p with stock_quantity := p.stock_quantity -
      quantityOrdered p.id (newOrderItems s userId) } : Product) = p
    rw [hz]
    simp

theorem createOrder_stock_witness :
    (createOrder noFailure exampleStore 7 cashRequest).response.status = 201 ∧
    (createOrder noFailure exampleStore 7 cashRequest).db.order_items =
      exampleStore.order_items ++ newOrderItems exampleStore 7 ∧
    (createOrder noFailure exampleStore 7 cashRequest).db.products =
      exampleStore.products.map fun p =>
        if ∃ row ∈ newOrderItems exampleStore 7, row.product_id = p.id then
          { p with stock_quantity :=
              p.stock_quantity - quantityOrdered p.id (newOrderItems exampleStore 7) }
        else p :=
  ⟨by decide, createOrder_stock noFailure exampleStore 7 cashRequest (by decide)⟩

theorem foldl_price_modifier (variants : List ProductVariant) (init : ℚ) :
    variants.foldl (fun sum variant => sum + variant.price_modifier) init =
      init + (variants.map fun v => v.price_modifier).sum := by
  induction variants generalizing init with
  | nil => simp
  | cons v rest ih => simp [ih, add_assoc]

theorem unitPrice_variants (db : Db) (item : CartRow) (cz : Customizations)
    (h : item.customizations = some cz) :
    unitPrice db item =
      item.base_price +
        ((db.product_variants.filter fun v => decide (v.id ∈ cz.variants)).map fun v =>
          v.price_modifier).sum := by
  rw [unitPrice_some db item cz h]
  split
  · rw [foldl_price_modifier]
    simp [selectVariants]
  · rename_i hl
    have hnil : cz.variants = [] := by
      cases hv : cz.variants with
      | nil => rfl
      | cons a t => rw [hv] at hl; simp at hl
    simp [hnil]

/-- Claim C8, as stated, fails: the Latte line of user 7 lists variant 2, an
inactive variant of another product, and variant 99, which does not exist.
The placement succeeds; the line is ordered at 4.50 + 0.75, the listed id 99
adding nothing. -/
theorem unknownVariant_accepted_example :
    (∀ v ∈ unknownVariantStore.product_variants, v.id ≠ 99) ∧
    (∀ v ∈ unknownVariantStore.product_variants,
      v.id = 2 → v.product_id ≠ 1 ∧ v.is_active = false) ∧
    (selectCartItems 7 unknownVariantStore).map (fun item => (item.product_id, item.customizations)) =
      [(1, some ⟨[2, 99], ""⟩)] ∧
    (createOrder noFailure unknownVariantStore 7 cashRequest).response.status = 201 ∧
    (createOrder noFailure unknownVariantStore 7 cashRequest).db.order_items.map
      (fun row => row.unit_price) = [21 / 4] := by
  have hst : (createOrder noFailure unknownVariantStore 7 cashRequest).response.status = 201 := by
    decide
  obtain ⟨_, hdb, _⟩ := createOrder_created hst
  refine ⟨by decide, by decide, by decide, hst, ?_⟩
  rw [hdb]
  have hrows : selectCartItems 7 unknownVariantStore =
      [⟨1, 7, 1, 1, some ⟨[2, 99], ""⟩, "Latte", 9 / 2, 5⟩] := by rfl
  show (unknownVariantStore.order_items ++
    ((selectCartItems 7 unknownVariantStore).map (toOrderLine unknownVariantStore)).map
      (toOrderItem (insertId unknownVariantStore))).map (fun row => row.unit_price) = _
  rw [hrows]
  simp only [List.map_cons, List.map_nil, toOrderItem, toOrderLine]
  rw [unitPrice_variants unknownVariantStore _ ⟨[2, 99], ""⟩ rfl]
  simp [unknownVariantStore]
  norm_num

/-- Order placement does not check variant references, on the rows read.
With payment method card or cash, a cart read by the handler that is not empty
and whose rows are all within stock, a payment that is not declined and a
storage that does not throw, the placement succeeds whatever variants the
customizations list; and the unit price of a customized row is the base price
plus the price modifiers of the rows of `product_variants` whose id is
listed. -/
theorem createOrder_ignores_variant_validity (s : Db) (userId : Nat) (req : Request)
    (hmethod : req.payment_method = "card" ∨ req.payment_method = "cash")
    (hne : selectCartItems userId s ≠ [])
    (hstock : ∀ item ∈ selectCartItems userId s, item.quantity ≤ item.stock_quantity)
    (hpay : paymentStatus req ≠ PaymentStatus.failed) :
    (createOrder noFailure s userId req).response.status = 201 ∧
    ∀ item ∈ selectCartItems userId s, ∀ cz : Customizations,
      item.customizations = some cz →
      unitPrice s item =
        item.base_price +
          ((s.product_variants.filter fun v => decide (v.id ∈ cz.variants)).map fun v =>
            v.price_modifier).sum := by
  have hv := validationResult_eq_nil hmethod
  refine ⟨?_, fun item _ cz hcz => unitPrice_variants s item cz hcz⟩
  rcases createOrder_noFailure s userId req with ⟨hn, _⟩ | ⟨_, hnil, _, _⟩ |
    ⟨_, ⟨item, hm, hlt, _⟩, _⟩ | ⟨_, _, _, hf, _⟩ | ⟨_, _, _, _, hr, _⟩
  · exact absurd hv hn
  · exact absurd hnil hne
  · exact absurd (hstock item hm) (not_le.mpr hlt)
  · exact absurd hf hpay
  · rw [hr]

/-- Claim C9, as stated, fails: user 7 holds a line of the active Latte and a
line of the inactive Chai. The placement succeeds with an order line for the
Latte alone, and the cart of user 7 is emptied, the Chai line included. -/
theorem inactive_line_dropped_example :
    (∃ ci ∈ inactiveStore.cart_items, ci.user_id = 7 ∧
      ∀ p ∈ inactiveStore.products, p.id = ci.product_id → p.is_active = false) ∧
    (createOrder noFailure inactiveStore 7 cashRequest).response.status = 201 ∧
    (createOrder noFailure inactiveStore 7 cashRequest).db.order_items.map
      (fun row => row.product_id) = [1] ∧
    (createOrder noFailure inactiveStore 7 cashRequest).db.cart_items.map
      (fun ci => ci.id) = [3] := by
  decide

/-- Claim C9, amended: order placement leaves the cart lines of inactive
products out of what it reads. When every line of the caller's cart names an
inactive product, a request with payment method card or cash is answered 400
'Cart is empty' and the store is as before the call; and a successful
placement creates order lines for active products only. -/
theorem createOrder_skips_inactive (fails : Oracle) (s : Db) (userId : Nat) (req : Request) :
    ((req.payment_method = "card" ∨ req.payment_method = "cash") →
      (∀ ci ∈ s.cart_items, ci.user_id = userId →
        ∀ p ∈ s.products, p.id = ci.product_id → p.is_active = false) →
      (createOrder noFailure s userId req).response =
        ⟨400, Body.error ErrorMessage.cartIsEmpty⟩ ∧
      (createOrder noFailure s userId req).db = s) ∧
    ((createOrder fails s userId req).response.status = 201 →
      (createOrder fails s userId req).db.order_items =
        s.order_items ++ newOrderItems s userId ∧
      ∀ row ∈ newOrderItems s userId,
        ∃ p ∈ s.products, p.id = row.product_id ∧ p.is_active = true) := by
  constructor
  · intro hmethod hall
    have hv := validationResult_eq_nil hmethod
    have hrows : selectCartItems userId s = [] := by
      apply List.eq_nil_iff_forall_not_mem.mpr
      intro row hrow
      obtain ⟨ci, hci, p, hp, hid, hu, hact, _⟩ := (mem_selectCartItems userId s row).mp hrow
      have := hall ci hci hu p hp hid.symm
      rw [this] at hact
      cases hact
    rcases createOrder_noFailure s userId req with ⟨hn, _⟩ | ⟨_, _, hr, hdb⟩ |
      ⟨_, ⟨item, hm, _⟩, _⟩ | ⟨_, hne, _⟩ | ⟨_, hne, _⟩
    · exact absurd hv hn
    · exact ⟨hr, hdb⟩
    · rw [hrows] at hm; cases hm
    · exact absurd hrows hne
    · exact absurd hrows hne
  · intro h
    obtain ⟨_, hdb, _⟩ := createOrder_created h
    refine ⟨by rw [hdb]; rfl, ?_⟩
    intro row hrow
    unfold newOrderItems at hrow
    rw [List.map_map] at hrow
    obtain ⟨item, hitem, hrw⟩ := List.mem_map.mp hrow
    obtain ⟨ci, _, p, hp, hid, _, hact, hj⟩ := (mem_selectCartItems userId s item).mp hitem
    refine ⟨p, hp, ?_, hact⟩
    rw [← hrw, ← hj]
    exact hid.symm

theorem createOrder_skips_inactive_witness :
    ((cashRequest.payment_method = "card" ∨ cashRequest.payment_method = "cash") ∧
      (∀ ci ∈ inactiveStore.cart_items, ci.user_id = 8 →
        ∀ p ∈ inactiveStore.products, p.id = ci.product_id → p.is_active = false) ∧
      (createOrder noFailure inactiveStore 8 cashRequest).response =
        ⟨400, Body.error ErrorMessage.cartIsEmpty⟩ ∧
      (createOrder noFailure inactiveStore 8 cashRequest).db = inactiveStore) ∧
    ((createOrder noFailure inactiveStore 7 cashRequest).response.status = 201 ∧
      (createOrder noFailure inactiveStore 7 cashRequest).db.order_items =
        inactiveStore.order_items ++ newOrderItems inactiveStore 7 ∧
      ∀ row ∈ newOrderItems inactiveStore 7,
        ∃ p ∈ inactiveStore.products, p.id = row.product_id ∧ p.is_active = true) :=
  ⟨⟨Or.inr rfl, by decide,
      (createOrder_skips_inactive noFailure inactiveStore 8 cashRequest).1 (Or.inr rfl)
        (by decide)⟩,
    ⟨by decide,
      (createOrder_skips_inactive noFailure inactiveStore 7 cashRequest).2 (by decide)⟩⟩

/-- In the example of a throw at the seventh storage call, the connection had
by then written the order row, an order line and a stock update. -/
theorem createOrderTry_failsAtSix :
    (thrownOn (createOrderTry failsAtSix exampleStore 7 cashRequest)).map
      (fun cx => (cx.issued, cx.db.orders.length, cx.db.order_items.length,
        cx.db.products.map fun p => p.stock_quantity)) = some (7, 1, 1, [3, 1, 10]) := by
  decide

/-- Claim C10: when a storage call the handler issues throws, whichever it is,
also after the order row, order lines and stock updates were written on the
connection, the answer is 500 'Internal server error' and the store (orders,
order lines, product stock and cart included) is as before the call. -/
theorem createOrder_storage_failure (fails : Oracle) (s : Db) (userId : Nat) (req : Request)
    (h : ∃ k, k < (createOrder fails s userId req).issued ∧ fails k = true) :
    (createOrder fails s userId req).response =
      ⟨500, Body.error ErrorMessage.internalServerError⟩ ∧
    (createOrder fails s userId req).db = s := by
  rcases createOrder_cases fails s userId req with ⟨_, hr, hdb⟩ | ⟨hclean, _⟩
  · exact ⟨hr, hdb⟩
  · obtain ⟨k, hk, hf⟩ := h
    rw [hclean k hk] at hf
    cases hf

theorem createOrder_storage_failure_witness :
    (∃ k, k < (createOrder failsAtSix exampleStore 7 cashRequest).issued ∧
      failsAtSix k = true) ∧
    (createOrder failsAtSix exampleStore 7 cashRequest).response =
      ⟨500, Body.error ErrorMessage.internalServerError⟩ ∧
    (createOrder failsAtSix exampleStore 7 cashRequest).db = exampleStore :=
  ⟨⟨6, by decide, by decide⟩,
    createOrder_storage_failure failsAtSix exampleStore 7 cashRequest
      ⟨6, by decide, by decide⟩⟩

theorem unitPrice_eq_modifiersOf (db : Db) (item : CartRow) :
    unitPrice db item = item.base_price + modifiersOf db (selectedVariants item.customizations) := by
  cases hc : item.customizations with
  | none =>
    rw [unitPrice_none db item hc]
    simp [modifiersOf, selectedVariants]
  | some cz =>
    rw [unitPrice_variants db item cz hc]
    rfl

theorem modifiersOf_congr (db : Db) (ids ids2 : List Nat) (h : ∀ v, v ∈ ids ↔ v ∈ ids2) :
    modifiersOf db ids = modifiersOf db ids2 := by
  unfold modifiersOf
  have hf : (fun v : ProductVariant => decide (v.id ∈ ids)) =
      fun v : ProductVariant => decide (v.id ∈ ids2) := by
    funext v
    simp [h v.id]
  rw [hf]

/-- Claim C11: the unit price order placement resolves for a cart row, on any
connection and whatever storage calls throw, is the base price plus the sum
of the price modifiers of the variant rows whose id the customization lists
(unless the variants query throws; it returns when the storage does not
throw). The sum depends on the set of listed ids only, and a row with no
customization or with an empty variants list is priced at the base price. -/
theorem resolveUnitPrice_price (fails : Oracle) (item : CartRow) (c : Connection) :
    ((∃ cx, resolveUnitPrice fails item c = Call.thrown cx) ∨
      ∃ c1, resolveUnitPrice fails item c =
        Call.returned
          (item.base_price + modifiersOf c.db (selectedVariants item.customizations)) c1) ∧
    (∃ c1, resolveUnitPrice noFailure item c =
        Call.returned
          (item.base_price + modifiersOf c.db (selectedVariants item.customizations)) c1) ∧
    (∀ ids ids2 : List Nat, (∀ v, v ∈ ids ↔ v ∈ ids2) →
      modifiersOf c.db ids = modifiersOf c.db ids2) ∧
    item.base_price + modifiersOf c.db (selectedVariants none) = item.base_price ∧
    ∀ rest : String,
      item.base_price + modifiersOf c.db (selectedVariants (some ⟨[], rest⟩)) =
        item.base_price := by
  refine ⟨?_, ?_, modifiersOf_congr c.db, ?_, ?_⟩
  · cases hr : resolveUnitPrice fails item c with
    | thrown cx => exact Or.inl ⟨cx, rfl⟩
    | returned p c1 =>
      refine Or.inr ⟨c1, ?_⟩
      rw [(resolveUnitPrice_returned hr).2.1, unitPrice_eq_modifiersOf]
  · obtain ⟨c1, h1⟩ := resolveUnitPrice_noFailure item c
    exact ⟨c1, by rw [h1, unitPrice_eq_modifiersOf]⟩
  · simp [modifiersOf, selectedVariants]
  · intro rest
    simp [modifiersOf, selectedVariants]

theorem resolveUnitPrice_price_witness :
    (∃ c1, resolveUnitPrice noFailure ⟨1, 7, 1, 2, some ⟨[1], ""⟩, "Latte", 9 / 2, 5⟩
        ⟨exampleStore, 2⟩ =
      Call.returned (9 / 2 + modifiersOf exampleStore [1]) c1) ∧
    modifiersOf exampleStore [1, 2] = modifiersOf exampleStore [2, 1, 1] :=
  ⟨(resolveUnitPrice_price noFailure ⟨1, 7, 1, 2, some ⟨[1], ""⟩, "Latte", 9 / 2, 5⟩
      ⟨exampleStore, 2⟩).2.1,
    (resolveUnitPrice_price noFailure ⟨1, 7, 1, 2, some ⟨[1], ""⟩, "Latte", 9 / 2, 5⟩
      ⟨exampleStore, 2⟩).2.2.1 [1, 2] [2, 1, 1]
      (fun v => by simp only [List.mem_cons, List.mem_singleton]; tauto)⟩

/-- Claim C12: when order placement succeeds, the order row it adds has a tax
amount of 8% of the subtotal and a total amount of the subtotal plus that tax
amount. -/
theorem createOrder_tax (fails : Oracle) (s : Db) (userId : Nat) (req : Request)
    (h : (createOrder fails s userId req).response.status = 201) :
    ∃ order : Order,
      (createOrder fails s userId req).db.orders = s.orders ++ [order] ∧
      order.tax_amount = subtotalOf s (selectCartItems userId s) * (8 / 100) ∧
      order.total_amount = subtotalOf s (selectCartItems userId s) + order.tax_amount := by
  obtain ⟨_, hdb, _⟩ := createOrder_created h
  refine ⟨orderRow s userId req (subtotalOf s (selectCartItems userId s)), ?_, rfl, rfl⟩
  rw [hdb]
  rfl

theorem createOrder_tax_witness :
    (createOrder noFailure exampleStore 7 cashRequest).response.status = 201 ∧
    ∃ order : Order,
      (createOrder noFailure exampleStore 7 cashRequest).db.orders =
        exampleStore.orders ++ [order] ∧
      order.tax_amount = subtotalOf exampleStore (selectCartItems 7 exampleStore) * (8 / 100) ∧
      order.total_amount =
        subtotalOf exampleStore (selectCartItems 7 exampleStore) + order.tax_amount :=
  ⟨by decide, createOrder_tax noFailure exampleStore 7 cashRequest (by decide)⟩

/-- Claim C13: the mock payment processing yields failed exactly when the
payment method is card and the payment details carry the card number
4000000000000002, and yields completed in every other case: another card
number, no card number, no payment details, or a method other than card. -/
theorem paymentStatus_failed_iff (req : Request) :
    (paymentStatus req = PaymentStatus.failed ↔
      req.payment_method = "card" ∧
        ∃ details, req.payment_details = some details ∧
          details.card_number = some "4000000000000002") ∧
    (paymentStatus req = PaymentStatus.failed ∨ paymentStatus req = PaymentStatus.completed) := by
  unfold paymentStatus
  by_cases hm : req.payment_method = "card"
  · cases hd : req.payment_details with
    | none => simp [hm]
    | some details =>
      by_cases hn : details.card_number = some "4000000000000002"
      · simp [hm, hn]
      · simp [hm, hn]
  · simp [hm]

theorem paymentStatus_completed_of_ne {req : Request}
    (h : paymentStatus req ≠ PaymentStatus.failed) :
    paymentStatus req = PaymentStatus.completed := by
  unfold paymentStatus at h ⊢
  by_cases hm : req.payment_method = "card"
  · cases hd : req.payment_details with
    | none => simp [hm]
    | some details =>
      by_cases hn : details.card_number = some "4000000000000002"
      · simp [hm, hd, hn] at h
      · simp [hm, hn]
  · simp [hm]

/-- The stages on the rows read: for a request with payment method card or
cash, also one that carries the declined card number, and a storage that does not throw: an empty
cart read by the handler is answered with the empty-cart error; a cart with a
row over its stock is answered with the insufficient-stock error of such a
row; the payment-failed error is the answer exactly when the cart is not
empty, every row is within stock and the payment is declined; and the order
is committed (201) exactly when the cart is not empty, every row is within
stock and the payment is not declined. -/
theorem createOrder_stage_order (s : Db) (userId : Nat) (req : Request)
    (hmethod : req.payment_method = "card" ∨ req.payment_method = "cash") :
    (selectCartItems userId s = [] →
      (createOrder noFailure s userId req).response =
        ⟨400, Body.error ErrorMessage.cartIsEmpty⟩) ∧
    ((∃ item ∈ selectCartItems userId s, item.stock_quantity < item.quantity) →
      ∃ item ∈ selectCartItems userId s, item.stock_quantity < item.quantity ∧
        (createOrder noFailure s userId req).response =
          ⟨400, Body.error
            (ErrorMessage.insufficientStock item.name item.stock_quantity item.quantity)⟩) ∧
    ((createOrder noFailure s userId req).response =
        ⟨400, Body.error ErrorMessage.paymentFailed⟩ ↔
      selectCartItems userId s ≠ [] ∧
        (∀ item ∈ selectCartItems userId s, item.quantity ≤ item.stock_quantity) ∧
        paymentStatus req = PaymentStatus.failed) ∧
    ((createOrder noFailure s userId req).response.status = 201 ↔
      selectCartItems userId s ≠ [] ∧
        (∀ item ∈ selectCartItems userId s, item.quantity ≤ item.stock_quantity) ∧
        paymentStatus req ≠ PaymentStatus.failed) := by
  have hv := validationResult_eq_nil hmethod
  rcases createOrder_noFailure s userId req with ⟨hn, _⟩ | ⟨_, hnil, hr, _⟩ |
    ⟨_, ⟨bad, hbad, hlt, hr⟩, _⟩ | ⟨_, hne, hall, hpay, hr, _⟩ | ⟨_, hne, hall, hpay, hr, _⟩
  · exact absurd hv hn
  · refine ⟨fun _ => hr, ?_, ?_, ?_⟩
    · rintro ⟨item, hm, _⟩
      rw [hnil] at hm; cases hm
    · rw [hr]
      constructor
      · intro h; simp at h
      · rintro ⟨hne, _⟩; exact absurd hnil hne
    · rw [hr]
      constructor
      · intro h; simp at h
      · rintro ⟨hne, _⟩; exact absurd hnil hne
  · refine ⟨?_, fun _ => ⟨bad, hbad, hlt, hr⟩, ?_, ?_⟩
    · intro hnil
      rw [hnil] at hbad; cases hbad
    · rw [hr]
      constructor
      · intro h; simp at h
      · rintro ⟨_, hall, _⟩; exact absurd (hall bad hbad) (not_le.mpr hlt)
    · rw [hr]
      constructor
      · intro h; simp at h
      · rintro ⟨_, hall, _⟩; exact absurd (hall bad hbad) (not_le.mpr hlt)
  · refine ⟨fun hnil => absurd hnil hne, ?_, ?_, ?_⟩
    · rintro ⟨item, hm, hlt⟩
      exact absurd (hall item hm) (not_le.mpr hlt)
    · exact ⟨fun _ => ⟨hne, hall, hpay⟩, fun _ => hr⟩
    · rw [hr]
      constructor
      · intro h; simp at h
      · rintro ⟨_, _, hnp⟩; exact absurd hpay hnp
  · refine ⟨fun hnil => absurd hnil hne, ?_, ?_, ?_⟩
    · rintro ⟨item, hm, hlt⟩
      exact absurd (hall item hm) (not_le.mpr hlt)
    · rw [hr]
      constructor
      · intro h; simp at h
      · rintro ⟨_, _, hf⟩; exact absurd hf hpay
    · rw [hr]
      exact ⟨fun _ => ⟨hne, hall, hpay⟩, fun _ => rfl⟩

/-- On the rows read: a successful placement appends exactly one row to `orders`,
owned by the caller and keyed by a fresh id, and appends to `order_items` one
row per cart row the handler read, in order, each with the id of the new
order and the product id, quantity and customization of the cart row and the
unit price resolved on the store of the call. The earlier rows of both tables
are unchanged. -/
theorem createOrder_creates (fails : Oracle) (s : Db) (userId : Nat) (req : Request)
    (h : (createOrder fails s userId req).response.status = 201) :
    (∃ order : Order,
      (createOrder fails s userId req).db.orders = s.orders ++ [order] ∧
      order.user_id = userId ∧ order.id = insertId s ∧
      ∀ o ∈ s.orders, o.id ≠ order.id) ∧
    (createOrder fails s userId req).db.order_items =
      s.order_items ++ (selectCartItems userId s).map fun item =>
        { order_id := insertId s, product_id := item.product_id, quantity := item.quantity,
          unit_price := unitPrice s item, customizations := item.customizations } := by
  obtain ⟨_, hdb, _⟩ := createOrder_created h
  rw [hdb]
  refine ⟨⟨orderRow s userId req (subtotalOf s (selectCartItems userId s)), rfl, rfl, rfl,
    fun o ho => Nat.ne_of_lt (insertId_fresh s o ho)⟩, ?_⟩
  show s.order_items ++ ((selectCartItems userId s).map (toOrderLine s)).map
    (toOrderItem (insertId s)) = _
  rw [List.map_map]
  rfl

/-- Claim C16: after a successful placement no row of `cart_items` belongs to
the caller. -/
theorem createOrder_clears_cart (fails : Oracle) (s : Db) (userId : Nat) (req : Request)
    (h : (createOrder fails s userId req).response.status = 201) :
    ∀ ci ∈ (createOrder fails s userId req).db.cart_items, ci.user_id ≠ userId := by
  obtain ⟨_, hdb, _⟩ := createOrder_created h
  rw [hdb]
  intro ci hci
  have hci : ci ∈ s.cart_items.filter fun ci => !decide (ci.user_id = userId) := hci
  simpa using (List.mem_filter.mp hci).2

theorem createOrder_clears_cart_witness :
    (createOrder noFailure exampleStore 7 cashRequest).response.status = 201 ∧
    ∀ ci ∈ (createOrder noFailure exampleStore 7 cashRequest).db.cart_items, ci.user_id ≠ 7 :=
  ⟨by decide, createOrder_clears_cart noFailure exampleStore 7 cashRequest (by decide)⟩

/-- Claim C17: a placement that passes every stage (payment method card or
cash, a cart read by the handler that is not empty and within stock, a payment
that is not declined, a storage that does not throw) is answered 201 with the
id of the new order, the total amount and the payment status completed, and
the new order is stored with that id and total, payment status completed and
status processing. -/
theorem createOrder_success (s : Db) (userId : Nat) (req : Request)
    (hmethod : req.payment_method = "card" ∨ req.payment_method = "cash")
    (hne : selectCartItems userId s ≠ [])
    (hstock : ∀ item ∈ selectCartItems userId s, item.quantity ≤ item.stock_quantity)
    (hpay : paymentStatus req ≠ PaymentStatus.failed) :
    ∃ order : Order,
      (createOrder noFailure s userId req).db.orders = s.orders ++ [order] ∧
      (createOrder noFailure s userId req).response =
        ⟨201, Body.orderCreated order.id order.total_amount PaymentStatus.completed⟩ ∧
      order.payment_status = PaymentStatus.completed ∧
      order.status = OrderStatus.processing := by
  have hv := validationResult_eq_nil hmethod
  have hc := paymentStatus_completed_of_ne hpay
  rcases createOrder_noFailure s userId req with ⟨hn, _⟩ | ⟨_, hnil, _, _⟩ |
    ⟨_, ⟨item, hm, hlt, _⟩, _⟩ | ⟨_, _, _, hf, _⟩ | ⟨_, _, _, _, hr, hdb⟩
  · exact absurd hv hn
  · exact absurd hnil hne
  · exact absurd (hstock item hm) (not_le.mpr hlt)
  · exact absurd hf hpay
  · refine ⟨orderRow s userId req (subtotalOf s (selectCartItems userId s)), ?_, ?_, ?_, ?_⟩
    · rw [hdb]; rfl
    · rw [hr, hc]; rfl
    · exact hc
    · simp [orderRow, hc]

theorem createOrder_success_witness :
    (cashRequest.payment_method = "card" ∨ cashRequest.payment_method = "cash") ∧
    selectCartItems 7 exampleStore ≠ [] ∧
    (∀ item ∈ selectCartItems 7 exampleStore, item.quantity ≤ item.stock_quantity) ∧
    paymentStatus cashRequest ≠ PaymentStatus.failed ∧
    ∃ order : Order,
      (createOrder noFailure exampleStore 7 cashRequest).db.orders =
        exampleStore.orders ++ [order] ∧
      (createOrder noFailure exampleStore 7 cashRequest).response =
        ⟨201, Body.orderCreated order.id order.total_amount PaymentStatus.completed⟩ ∧
      order.payment_status = PaymentStatus.completed ∧
      order.status = OrderStatus.processing :=
  ⟨Or.inr rfl, by decide, by decide, by decide,
    createOrder_success exampleStore 7 cashRequest (Or.inr rfl) (by decide) (by decide)
      (by decide)⟩

/-! ## Adding to the cart -/

theorem exists_cons_of_mem_filter {α : Type} (p : α → Bool) (l : List α) (a : α)
    (h : a ∈ l.filter p) : ∃ b rest, l.filter p = b :: rest := by
  cases hl : l.filter p with
  | nil => rw [hl] at h; cases h
  | cons b rest => exact ⟨b, rest, rfl⟩

theorem mem_selectExistingItems (userId productId : Nat) (customizations : Option Customizations)
    (db : Db) (ci : CartItem) :
    ci ∈ selectExistingItems userId productId customizations db ↔
      ci ∈ db.cart_items ∧ ci.user_id = userId ∧ ci.product_id = productId ∧
        ∃ cz, ci.customizations = some cz ∧ customizations = some cz := by
  unfold selectExistingItems sqlEq
  cases hc : ci.customizations <;> cases hv : customizations <;>
    simp [List.mem_filter, hc, and_assoc]
  · intro _ _ _
    exact eq_comm

/-- Claim C18, as stated, fails: user 7 holds a Latte with variants 1 and 2
and a Latte with no customization. Adding a Latte with variants 2 and 1, the
same set listed in the other order, creates a third line; so does adding a
Latte with variants 1 and 2 whose text differs in what it holds besides the
ids; and so does adding a Latte with no customization. No quantity is
summed. -/
theorem cartAdd_not_merged_example :
    (cartAdd noFailure mergeStore 7 ⟨1, Quantity.number 1, some ⟨[2, 1], ""⟩⟩).response.status =
      200 ∧
    (cartAdd noFailure mergeStore 7 ⟨1, Quantity.number 1, some ⟨[2, 1], ""⟩⟩).db.cart_items =
      [⟨1, 7, 1, 1, some ⟨[1, 2], ""⟩⟩, ⟨2, 7, 1, 1, none⟩, ⟨3, 7, 1, 1, some ⟨[2, 1], ""⟩⟩] ∧
    (cartAdd noFailure mergeStore 7
      ⟨1, Quantity.number 1, some ⟨[1, 2], "Large, Oat"⟩⟩).response.status = 200 ∧
    (cartAdd noFailure mergeStore 7
      ⟨1, Quantity.number 1, some ⟨[1, 2], "Large, Oat"⟩⟩).db.cart_items =
      [⟨1, 7, 1, 1, some ⟨[1, 2], ""⟩⟩, ⟨2, 7, 1, 1, none⟩,
       ⟨3, 7, 1, 1, some ⟨[1, 2], "Large, Oat"⟩⟩] ∧
    (cartAdd noFailure mergeStore 7 ⟨1, Quantity.number 1, none⟩).response.status = 200 ∧
    (cartAdd noFailure mergeStore 7 ⟨1, Quantity.number 1, none⟩).db.cart_items =
      [⟨1, 7, 1, 1, some ⟨[1, 2], ""⟩⟩, ⟨2, 7, 1, 1, none⟩, ⟨3, 7, 1, 1, none⟩] := by
  decide

/-- Claim C18, amended: adding, with the quantity sent as a JSON number, a
product with a customization whose text is identical (the same variants,
listed in the same order, and the same text besides) to that of a cart line
of the same user and product merges into such a line: its quantity becomes
the sum and no line is added, provided the product is active and its stock
covers the requested and the summed quantity. -/
theorem cartAdd_merges (s : Db) (userId productId : Nat) (quantity : Int) (cz : Customizations)
    (hpid : 1 ≤ productId) (hqty : 1 ≤ quantity)
    (hproduct : ∃ p ∈ s.products, p.id = productId ∧ p.is_active = true)
    (hline : ∃ ci ∈ s.cart_items, ci.user_id = userId ∧ ci.product_id = productId ∧
      ci.customizations = some cz)
    (hstock : ∀ p ∈ s.products, p.id = productId → p.is_active = true →
      quantity ≤ p.stock_quantity ∧
      ∀ ci ∈ s.cart_items, ci.user_id = userId → ci.product_id = productId →
        ci.customizations = some cz → ci.quantity + quantity ≤ p.stock_quantity) :
    ∃ existing ∈ s.cart_items,
      existing.user_id = userId ∧ existing.product_id = productId ∧
      existing.customizations = some cz ∧
      (cartAdd noFailure s userId ⟨productId, Quantity.number quantity, some cz⟩).response =
        ⟨200, Body.message "Item added to cart successfully"⟩ ∧
      (cartAdd noFailure s userId ⟨productId, Quantity.number quantity, some cz⟩).db =
        { s with cart_items := s.cart_items.map fun ci =>
            if ci.id = existing.id then
              { ci with quantity := existing.quantity + quantity }
            else ci } ∧
      ((cartAdd noFailure s userId
        ⟨productId, Quantity.number quantity, some cz⟩).db.cart_items.map fun ci => ci.id) =
        s.cart_items.map fun ci => ci.id := by
  obtain ⟨p, hp, hpid2, hact⟩ := hproduct
  obtain ⟨ci, hci, hu, hpr, hcc⟩ := hline
  have hpm : p ∈ selectActiveProduct productId s := by
    simp [selectActiveProduct, List.mem_filter, hp, hpid2, hact]
  obtain ⟨product, others, hproducts⟩ := exists_cons_of_mem_filter _ _ _ hpm
  have hprod : product ∈ selectActiveProduct productId s := by
    unfold selectActiveProduct
    rw [show List.filter (fun p => decide (p.id = productId) && p.is_active) s.products =
      product :: others from hproducts]
    exact List.mem_cons_self _ _
  have hprod2 : product ∈ s.products ∧ product.id = productId ∧ product.is_active = true := by
    simpa [selectActiveProduct, List.mem_filter, and_assoc] using hprod
  have hcm : ci ∈ selectExistingItems userId productId (some cz) s :=
    (mem_selectExistingItems _ _ _ _ _).mpr ⟨hci, hu, hpr, cz, hcc, rfl⟩
  obtain ⟨existing, more, hexisting⟩ := exists_cons_of_mem_filter _ _ _ hcm
  have hem : existing ∈ selectExistingItems userId productId (some cz) s := by
    unfold selectExistingItems
    rw [hexisting]
    exact List.mem_cons_self _ _
  obtain ⟨he1, he2, he3, cz2, he4, he5⟩ := (mem_selectExistingItems _ _ _ _ _).mp hem
  have hczeq : cz2 = cz := (Option.some.inj he5).symm
  subst hczeq
  obtain ⟨hs1, hs2⟩ := hstock product hprod2.1 hprod2.2.1 hprod2.2.2
  have hs3 := hs2 existing he1 he2 he3 he4
  have hv : addValidationResult ⟨productId, Quantity.number quantity, some cz2⟩ = [] := by
    simp [addValidationResult, Quantity.toNumber, hpid, hqty]
  have hsel : selectExistingItems userId productId (some cz2) s = existing :: more := hexisting
  have hselp : selectActiveProduct productId s = product :: others := hproducts
  have hr : cartAdd noFailure s userId ⟨productId, Quantity.number quantity, some cz2⟩ =
      ⟨⟨200, Body.message "Item added to cart successfully"⟩,
        (updateCartItemQuantity (existing.quantity + quantity) existing.id s).2, 3⟩ := by
    simp [cartAdd, cartAddTry, catchOnPool, hv, execute_noFailure, query, hselp, hsel,
      Quantity.toNumber, plusQuantity, not_lt.mpr hs1, not_lt.mpr hs3]
  refine ⟨existing, he1, he2, he3, he4, ?_⟩
  rw [hr]
  refine ⟨rfl, rfl, ?_⟩
  simp only [updateCartItemQuantity, List.map_map]
  apply List.map_congr_left
  intro a _
  by_cases ha : a.id = existing.id <;> simp [ha]

theorem cartAdd_merges_witness :
    ∃ existing ∈ mergeStore.cart_items,
      existing.user_id = 7 ∧ existing.product_id = 1 ∧
      existing.customizations = some ⟨[1, 2], ""⟩ ∧
      (cartAdd noFailure mergeStore 7 ⟨1, Quantity.number 2, some ⟨[1, 2], ""⟩⟩).response =
        ⟨200, Body.message "Item added to cart successfully"⟩ ∧
      (cartAdd noFailure mergeStore 7 ⟨1, Quantity.number 2, some ⟨[1, 2], ""⟩⟩).db =
        { mergeStore with cart_items := mergeStore.cart_items.map fun ci =>
            if ci.id = existing.id then
              { ci with quantity := existing.quantity + (2 : Int) }
            else ci } ∧
      ((cartAdd noFailure mergeStore 7
        ⟨1, Quantity.number 2, some ⟨[1, 2], ""⟩⟩).db.cart_items.map fun ci => ci.id) =
        mergeStore.cart_items.map fun ci => ci.id :=
  cartAdd_merges mergeStore 7 1 2 ⟨[1, 2], ""⟩ (by decide) (by decide)
    (by decide) (by decide) (by decide)

/-! ## Reordering -/

theorem reorderItems_noFailure_returned (userId : Nat) :
    ∀ (rows : List ReorderRow) (c : Connection),
      ∃ c2, reorderItems noFailure userId rows c = Call.returned () c2 := by
  intro rows
  induction rows with
  | nil => intro c; exact ⟨c, rfl⟩
  | cons item rest ih =>
    intro c
    simp only [reorderItems, execute_noFailure, query]
    split
    · split
      · split
        · exact ih _
        · exact ih _
      · exact ih _
    · exact ih _

theorem reorder_noFailure_sent (s : Db) (userId orderId : Nat)
    (howner : ∃ o ∈ s.orders, o.id = orderId ∧ o.user_id = userId)
    (hne : selectOrderItems orderId s ≠ []) :
    ∃ c2, reorderItems noFailure userId (selectOrderItems orderId s) ⟨s, 2⟩ =
        Call.returned () c2 ∧
      reorder noFailure s userId orderId =
        ⟨⟨200, Body.message "Items added to cart successfully"⟩, c2.db, c2.issued⟩ := by
  obtain ⟨c2, hc2⟩ := reorderItems_noFailure_returned userId (selectOrderItems orderId s) ⟨s, 2⟩
  refine ⟨c2, hc2, ?_⟩
  obtain ⟨o, ho, hid, hu⟩ := howner
  have hsel : selectOrder orderId userId s ≠ [] := by
    intro hnil
    have hm : o.id ∈ selectOrder orderId userId s := by
      unfold selectOrder
      exact List.mem_map.mpr ⟨o, by simp [List.mem_filter, ho, hid, hu], rfl⟩
    rw [hnil] at hm
    cases hm
  simp [reorder, reorderTry, catchOnPool, execute_noFailure, query, hsel, hne, hc2]

/-- Claim C20, as stated, fails: order 1 of user 7 has a line of five Lattes,
with three in stock, and a line of two Mochas that match a cart line of two,
with three in stock. The reorder is answered 200 and leaves the cart as it
was: no Latte line of quantity 3 is added, and the Mocha line stays at 2. -/
theorem reorder_not_capped_example :
    (selectOrderItems 1 reorderStore).map
      (fun item => (item.product_id, item.quantity, item.stock_quantity)) =
      [(1, 5, 3), (2, 2, 3)] ∧
    (reorder noFailure reorderStore 7 1).response.status = 200 ∧
    (reorder noFailure reorderStore 7 1).db.cart_items = [⟨1, 7, 2, 2, some ⟨[3], ""⟩⟩] := by
  decide

/-- Claim C20, amended: reorder never raises because of stock and does not
cap. With the order owned by the caller, a line of it naming an active
product and a storage that does not throw, the answer is 200; an order line
whose quantity exceeds the stock adds nothing to the cart; an order line
whose quantity, added to that of the matching cart line, exceeds the stock
leaves the cart as it was; and when every line exceeds the stock the store is
unchanged. -/
theorem reorder_does_not_cap (s : Db) (userId orderId : Nat)
    (howner : ∃ o ∈ s.orders, o.id = orderId ∧ o.user_id = userId)
    (hne : selectOrderItems orderId s ≠ []) :
    (reorder noFailure s userId orderId).response =
      ⟨200, Body.message "Items added to cart successfully"⟩ ∧
    (∀ (item : ReorderRow) (rest : List ReorderRow) (c : Connection),
      item.stock_quantity < item.quantity →
      reorderItems noFailure userId (item :: rest) c = reorderItems noFailure userId rest c) ∧
    (∀ (item : ReorderRow) (rest : List ReorderRow) (c : Connection)
      (existing : CartItem) (more : List CartItem),
      selectExistingItems userId item.product_id item.customizations c.db = existing :: more →
      item.stock_quantity < existing.quantity + item.quantity →
      ∃ c1, c1.db = c.db ∧
        reorderItems noFailure userId (item :: rest) c =
          reorderItems noFailure userId rest c1) ∧
    ((∀ item ∈ selectOrderItems orderId s, item.stock_quantity < item.quantity) →
      (reorder noFailure s userId orderId).db = s) := by
  obtain ⟨c2, hc2, hr⟩ := reorder_noFailure_sent s userId orderId howner hne
  have hskip : ∀ (item : ReorderRow) (rest : List ReorderRow) (c : Connection),
      item.stock_quantity < item.quantity →
      reorderItems noFailure userId (item :: rest) c = reorderItems noFailure userId rest c := by
    intro item rest c hlt
    simp [reorderItems, not_le.mpr hlt]
  refine ⟨by rw [hr], hskip, ?_, ?_⟩
  · intro item rest c existing more hsel hlt
    by_cases hq : item.stock_quantity < item.quantity
    · exact ⟨c, rfl, hskip item rest c hq⟩
    · refine ⟨⟨c.db, c.issued + 1⟩, rfl, ?_⟩
      simp [reorderItems, execute_noFailure, query, hsel, not_lt.mp hq, not_le.mpr hlt]
  · intro hall
    have hsame : ∀ (rows : List ReorderRow) (c : Connection),
        (∀ item ∈ rows, item.stock_quantity < item.quantity) →
        reorderItems noFailure userId rows c = Call.returned () c := by
      intro rows
      induction rows with
      | nil => intro c _; rfl
      | cons item rest ih =>
        intro c h
        rw [hskip item rest c (h item (List.mem_cons_self _ _))]
        exact ih c fun it hit => h it (List.mem_cons_of_mem _ hit)
    rw [hsame _ _ hall] at hc2
    cases hc2
    rw [hr]

theorem reorder_does_not_cap_witness :
    (reorder noFailure reorderStore 7 1).response =
      ⟨200, Body.message "Items added to cart successfully"⟩ ∧
    (∀ (item : ReorderRow) (rest : List ReorderRow) (c : Connection),
      item.stock_quantity < item.quantity →
      reorderItems noFailure 7 (item :: rest) c = reorderItems noFailure 7 rest c) ∧
    (∀ (item : ReorderRow) (rest : List ReorderRow) (c : Connection)
      (existing : CartItem) (more : List CartItem),
      selectExistingItems 7 item.product_id item.customizations c.db = existing :: more →
      item.stock_quantity < existing.quantity + item.quantity →
      ∃ c1, c1.db = c.db ∧
        reorderItems noFailure 7 (item :: rest) c = reorderItems noFailure 7 rest c1) ∧
    ((∀ item ∈ selectOrderItems 1 reorderStore, item.stock_quantity < item.quantity) →
      (reorder noFailure reorderStore 7 1).db = reorderStore) :=
  reorder_does_not_cap reorderStore 7 1 (by decide) (by decide)

theorem cartInsertId_fresh (db : Db) (ci : CartItem) (h : ci ∈ db.cart_items) :
    ci.id < cartInsertId db := by
  unfold cartInsertId
  have key : ∀ (l : List CartItem), ci ∈ l → ci.id ≤ (l.map fun c => c.id).foldr max 0 := by
    intro l
    induction l with
    | nil => intro h; cases h
    | cons a t ih =>
      intro h
      rcases List.mem_cons.mp h with h1 | h1
      · rw [h1]; simp
      · have := ih h1
        simp only [List.map_cons, List.foldr_cons]
        exact le_trans this (le_max_right _ _)
  exact Nat.lt_succ_of_le (key _ h)

theorem reorderItems_cons_insert (userId : Nat) (item : ReorderRow) (rest : List ReorderRow)
    (c : Connection) (hq : item.quantity ≤ item.stock_quantity)
    (hsel : selectExistingItems userId item.product_id item.customizations c.db = []) :
    reorderItems noFailure userId (item :: rest) c =
      reorderItems noFailure userId rest
        ⟨(insertCartItem userId item.product_id item.quantity item.customizations c.db).2,
          c.issued + 1 + 1⟩ := by
  simp [reorderItems, execute_noFailure, query, hsel, hq]

theorem reorderItems_cons_update (userId : Nat) (item : ReorderRow) (rest : List ReorderRow)
    (c : Connection) (existing : CartItem) (more : List CartItem)
    (hq : item.quantity ≤ item.stock_quantity)
    (hsel : selectExistingItems userId item.product_id item.customizations c.db =
      existing :: more)
    (hsum : existing.quantity + item.quantity ≤ item.stock_quantity) :
    reorderItems noFailure userId (item :: rest) c =
      reorderItems noFailure userId rest
        ⟨(updateCartItemQuantity (existing.quantity + item.quantity) existing.id c.db).2,
          c.issued + 1 + 1⟩ := by
  simp [reorderItems, execute_noFailure, query, hsel, hq, hsum]

theorem mem_specMergeLine_of_match (acc : List Line) (l a : Line) (ha : a ∈ acc)
    (hk : sameKey l a = true) :
    ({ a with quantity := a.quantity + l.quantity } : Line) ∈ specMergeLine acc l := by
  unfold specMergeLine
  have hany : acc.any (sameKey l) = true := List.any_eq_true.mpr ⟨a, ha, hk⟩
  rw [if_pos hany]
  exact List.mem_map.mpr ⟨a, ha, by rw [if_pos hk]⟩

theorem ReorderInv.insert {userId : Nat} {base new : List CartItem}
    (inv : ReorderInv userId base new) (db : Db) (hdb : db.cart_items = base ++ new)
    (productId : Nat) (quantity : Int) (customizations : Option Customizations)
    (hnokey : ∀ a ∈ new, a.product_id = productId → a.customizations ≠ customizations) :
    ReorderInv userId base
      (new ++ [{ id := cartInsertId db, user_id := userId, product_id := productId,
                 quantity := quantity, customizations := customizations }]) := by
  have hfresh : ∀ a ∈ base ++ new, a.id < cartInsertId db := by
    intro a ha
    exact cartInsertId_fresh db a (by rw [hdb]; exact ha)
  constructor
  · exact inv.user_base
  · intro a ha
    rcases List.mem_append.mp ha with h | h
    · exact inv.user_new a h
    · rw [List.mem_singleton.mp h]
  · intro a ha b hb hab
    rcases List.mem_append.mp ha with h1 | h1 <;> rcases List.mem_append.mp hb with h2 | h2
    · exact inv.ids a h1 b h2 hab
    · have := hfresh a (List.mem_append_right _ h1)
      rw [List.mem_singleton.mp h2] at hab
      simp only at hab
      omega
    · have := hfresh b (List.mem_append_right _ h2)
      rw [List.mem_singleton.mp h1] at hab
      simp only at hab
      omega
    · rw [List.mem_singleton.mp h1, List.mem_singleton.mp h2]
  · intro b hb a ha
    rcases List.mem_append.mp ha with h | h
    · exact inv.base_ids b hb a h
    · have := hfresh b (List.mem_append_left _ hb)
      rw [List.mem_singleton.mp h]
      simp only
      omega
  · intro a ha b hb hp hc
    rcases List.mem_append.mp ha with h1 | h1 <;> rcases List.mem_append.mp hb with h2 | h2
    · exact inv.keys a h1 b h2 hp hc
    · rw [List.mem_singleton.mp h2] at hp hc
      exact absurd hc (hnokey a h1 hp)
    · rw [List.mem_singleton.mp h1] at hp hc
      exact absurd hc.symm (hnokey b h2 hp.symm)
    · rw [List.mem_singleton.mp h1, List.mem_singleton.mp h2]

theorem ReorderInv.update {userId : Nat} {base new : List CartItem}
    (inv : ReorderInv userId base new) (id : Nat) (quantity : Int) :
    ReorderInv userId base
      (new.map fun ci => if ci.id = id then { ci with quantity := quantity } else ci) := by
  have hpres : ∀ a : CartItem,
      (if a.id = id then { a with quantity := quantity } else a).id = a.id ∧
      (if a.id = id then { a with quantity := quantity } else a).user_id = a.user_id ∧
      (if a.id = id then { a with quantity := quantity } else a).product_id = a.product_id ∧
      (if a.id = id then { a with quantity := quantity } else a).customizations =
        a.customizations := by
    intro a
    by_cases h : a.id = id <;> simp [h]
  constructor
  · exact inv.user_base
  · intro a ha
    obtain ⟨a0, ha0, rfl⟩ := List.mem_map.mp ha
    rw [(hpres a0).2.1]
    exact inv.user_new a0 ha0
  · intro a ha b hb hab
    obtain ⟨a0, ha0, rfl⟩ := List.mem_map.mp ha
    obtain ⟨b0, hb0, rfl⟩ := List.mem_map.mp hb
    rw [(hpres a0).1, (hpres b0).1] at hab
    rw [inv.ids a0 ha0 b0 hb0 hab]
  · intro b hb a ha
    obtain ⟨a0, ha0, rfl⟩ := List.mem_map.mp ha
    rw [(hpres a0).1]
    exact inv.base_ids b hb a0 ha0
  · intro a ha b hb hp hc
    obtain ⟨a0, ha0, rfl⟩ := List.mem_map.mp ha
    obtain ⟨b0, hb0, rfl⟩ := List.mem_map.mp hb
    rw [(hpres a0).2.2.1, (hpres b0).2.2.1] at hp
    rw [(hpres a0).2.2.2, (hpres b0).2.2.2] at hc
    rw [(hpres a0).1, (hpres b0).1]
    exact inv.keys a0 ha0 b0 hb0 hp hc

theorem sameKey_toLine (item : ReorderRow) (a : CartItem) :
    sameKey item.toLine a.toLine = true ↔
      a.product_id = item.product_id ∧ a.customizations = item.customizations := by
  simp [sameKey, ReorderRow.toLine, CartItem.toLine]

theorem reorderItems_merge (userId : Nat) :
    ∀ (rows : List ReorderRow) (c : Connection) (base new : List CartItem),
      c.db.cart_items = base ++ new → ReorderInv userId base new → NullApart new rows →
      NullOnce rows → mergedWithinStock (new.map CartItem.toLine) rows = true →
      ∃ c2 new2, reorderItems noFailure userId rows c = Call.returned () c2 ∧
        c2.db = { c.db with cart_items := base ++ new2 } ∧
        (∀ a ∈ new2, a.user_id = userId) ∧
        new2.map CartItem.toLine =
          (rows.map ReorderRow.toLine).foldl specMergeLine (new.map CartItem.toLine) := by
  intro rows
  induction rows with
  | nil =>
    intro c base new hdb inv _ _ _
    refine ⟨c, new, rfl, ?_, inv.user_new, rfl⟩
    rw [← hdb]
  | cons item rest ih =>
    intro c base new hdb inv hnull honce hws
    simp only [mergedWithinStock, Bool.and_eq_true, decide_eq_true_eq] at hws
    obtain ⟨⟨hq, hall⟩, hrest⟩ := hws
    have honce2 := List.pairwise_cons.mp honce
    have hmem : ∀ a, a ∈ selectExistingItems userId item.product_id item.customizations c.db ↔
        a ∈ new ∧ a.product_id = item.product_id ∧
          ∃ cz, a.customizations = some cz ∧ item.customizations = some cz := by
      intro a
      rw [mem_selectExistingItems, hdb]
      constructor
      · rintro ⟨hm, hu, hp, hc⟩
        rcases List.mem_append.mp hm with h | h
        · exact absurd hu (inv.user_base a h)
        · exact ⟨h, hp, hc⟩
      · rintro ⟨hm, hp, hc⟩
        exact ⟨List.mem_append_right _ hm, inv.user_new a hm, hp, hc⟩
    cases hsel : selectExistingItems userId item.product_id item.customizations c.db with
    | nil =>
      have hnokey : ∀ a ∈ new, a.product_id = item.product_id →
          a.customizations ≠ item.customizations := by
        intro a ha hp hc
        cases hic : item.customizations with
        | none =>
          exact hnull item (List.mem_cons_self _ _) hic a ha hp (by rw [hc, hic])
        | some cz =>
          have hin : a ∈ selectExistingItems userId item.product_id item.customizations c.db :=
            (hmem a).mpr ⟨ha, hp, cz, by rw [hc, hic], hic⟩
          rw [hsel] at hin
          cases hin
      have hany : (new.map CartItem.toLine).any (sameKey item.toLine) = false := by
        rw [List.any_eq_false]
        intro l hl hk
        obtain ⟨a, ha, rfl⟩ := List.mem_map.mp hl
        obtain ⟨hp, hc⟩ := (sameKey_toLine item a).mp hk
        exact hnokey a ha hp hc
      have hspec : specMergeLine (new.map CartItem.toLine) item.toLine =
          (new ++ [(⟨cartInsertId c.db, userId, item.product_id, item.quantity,
                     item.customizations⟩ : CartItem)]).map CartItem.toLine := by
        unfold specMergeLine
        rw [hany]
        simp [CartItem.toLine, ReorderRow.toLine]
      have hnull2 : NullApart
          (new ++ [(⟨cartInsertId c.db, userId, item.product_id, item.quantity,
                     item.customizations⟩ : CartItem)]) rest := by
        intro r hr hrc a ha hp
        rcases List.mem_append.mp ha with h | h
        · exact hnull r (List.mem_cons_of_mem _ hr) hrc a h hp
        · rw [List.mem_singleton.mp h] at hp ⊢
          exact honce2.1 r hr hp hrc
      rw [reorderItems_cons_insert userId item rest c hq hsel]
      obtain ⟨c2, new2, h1, h2, h3, h4⟩ := ih
        ⟨(insertCartItem userId item.product_id item.quantity item.customizations c.db).2,
          c.issued + 1 + 1⟩ base _
        (by simp [insertCartItem, hdb])
        (inv.insert c.db hdb item.product_id item.quantity item.customizations hnokey)
        hnull2 honce2.2 (by rw [← hspec]; exact hrest)
      refine ⟨c2, new2, h1, ?_, h3, ?_⟩
      · rw [h2]
        simp [insertCartItem]
      · rw [h4, ← hspec]
        rfl
    | cons existing more =>
      have hex : existing ∈ selectExistingItems userId item.product_id item.customizations c.db := by
        rw [hsel]
        exact List.mem_cons_self _ _
      obtain ⟨hen, hep, cz, hec, hic⟩ := (hmem existing).mp hex
      have hek : sameKey item.toLine existing.toLine = true :=
        (sameKey_toLine item existing).mpr ⟨hep, by rw [hec, hic]⟩
      have hsum : existing.quantity + item.quantity ≤ item.stock_quantity := by
        have hin := mem_specMergeLine_of_match (new.map CartItem.toLine) item.toLine
          existing.toLine (List.mem_map.mpr ⟨existing, hen, rfl⟩) hek
        have := List.all_eq_true.mp hall _ hin
        simpa [sameKey, CartItem.toLine, ReorderRow.toLine, hep, hec, hic] using this
      have hany : (new.map CartItem.toLine).any (sameKey item.toLine) = true :=
        List.any_eq_true.mpr ⟨existing.toLine, List.mem_map.mpr ⟨existing, hen, rfl⟩, hek⟩
      have hspec : specMergeLine (new.map CartItem.toLine) item.toLine =
          (new.map fun ci => if ci.id = existing.id then
            { ci with quantity := existing.quantity + item.quantity } else ci).map
            CartItem.toLine := by
        unfold specMergeLine
        rw [if_pos hany, List.map_map, List.map_map]
        apply List.map_congr_left
        intro a ha
        simp only [Function.comp]
        by_cases hid : a.id = existing.id
        · have hae := inv.ids a ha existing hen hid
          subst hae
          rw [if_pos hek, if_pos rfl]
          rfl
        · rw [if_neg hid]
          have hnk : ¬ sameKey item.toLine a.toLine = true := by
            intro hk
            obtain ⟨hp, hc⟩ := (sameKey_toLine item a).mp hk
            exact hid (inv.keys a ha existing hen (by rw [hp, hep]) (by rw [hc, hec, hic]))
          rw [if_neg hnk]
      have hnull2 : NullApart
          (new.map fun ci => if ci.id = existing.id then
            { ci with quantity := existing.quantity + item.quantity } else ci) rest := by
        intro r hr hrc a ha hp
        obtain ⟨a0, ha0, rfl⟩ := List.mem_map.mp ha
        by_cases hid : a0.id = existing.id
        · simp only [if_pos hid] at hp ⊢
          exact hnull r (List.mem_cons_of_mem _ hr) hrc a0 ha0 hp
        · simp only [if_neg hid] at hp ⊢
          exact hnull r (List.mem_cons_of_mem _ hr) hrc a0 ha0 hp
      have hbase : base.map (fun ci => if ci.id = existing.id then
          { ci with quantity := existing.quantity + item.quantity } else ci) = base := by
        conv_rhs => rw [← List.map_id base]
        apply List.map_congr_left
        intro b hb
        rw [if_neg (inv.base_ids b hb existing hen)]
        rfl
      rw [reorderItems_cons_update userId item rest c existing more hq hsel hsum]
      obtain ⟨c2, new2, h1, h2, h3, h4⟩ := ih
        ⟨(updateCartItemQuantity (existing.quantity + item.quantity) existing.id c.db).2,
          c.issued + 1 + 1⟩ base _
        (by simp [updateCartItemQuantity, hdb, hbase])
        (inv.update existing.id (existing.quantity + item.quantity))
        hnull2 honce2.2 (by rw [← hspec]; exact hrest)
      refine ⟨c2, new2, h1, ?_, h3, ?_⟩
      · rw [h2]
        simp [updateCartItemQuantity]
      · rw [h4, ← hspec]
        rfl

theorem mem_selectOrderItems (orderId : Nat) (s : Db) (item : ReorderRow)
    (h : item ∈ selectOrderItems orderId s) :
    ∃ oi ∈ s.order_items, ∃ p ∈ s.products,
      oi.order_id = orderId ∧ p.id = oi.product_id ∧ p.is_active = true ∧
      item = ⟨oi.product_id, oi.quantity, oi.customizations, p.stock_quantity⟩ := by
  simp only [selectOrderItems, List.mem_flatMap, List.mem_map, List.mem_filter,
    Bool.and_eq_true, decide_eq_true_eq] at h
  obtain ⟨oi, hoi, p, ⟨hp, ⟨h1, h2⟩, h3⟩, h4⟩ := h
  exact ⟨oi, hoi, p, hp, h2, h1.symm, h3, h4.symm⟩

/-- Claim C19, as stated, fails on a store where the cart of user 7 is empty
and every product named is in stock for each line. Order 2 has two Latte
lines without customization: the reorder yields two cart lines of quantity 1,
where the merged lines of the spec are one line of quantity 2. Order 3 has a
line of an inactive product only: the reorder is answered with the error 400
'No available items to reorder'. Order 4 has two lines of two Mochas with the
same customization and three in stock: the reorder yields one line of
quantity 2, not 4. -/
theorem reorder_not_merged_example :
    (∀ ci ∈ reorderSplitStore.cart_items, ci.user_id ≠ 7) ∧
    (∀ orderId ∈ [2, 4], ∀ item ∈ selectOrderItems orderId reorderSplitStore,
      item.quantity ≤ item.stock_quantity) ∧
    (reorder noFailure reorderSplitStore 7 2).response.status = 200 ∧
    (reorder noFailure reorderSplitStore 7 2).db.cart_items =
      [⟨1, 7, 1, 1, none⟩, ⟨2, 7, 1, 1, none⟩] ∧
    specMergedLines ((selectOrderItems 2 reorderSplitStore).map ReorderRow.toLine) =
      [⟨1, none, 2⟩] ∧
    (reorder noFailure reorderSplitStore 7 3).response =
      ⟨400, Body.error ErrorMessage.noAvailableItems⟩ ∧
    (reorder noFailure reorderSplitStore 7 4).response.status = 200 ∧
    (reorder noFailure reorderSplitStore 7 4).db.cart_items = [⟨1, 7, 2, 2, some ⟨[3], ""⟩⟩] ∧
    specMergedLines ((selectOrderItems 4 reorderSplitStore).map ReorderRow.toLine) =
      [⟨2, some ⟨[3], ""⟩, 4⟩] := by
  decide

/-- The merge of a reorder, on the rows read: reordering an order of the
caller into the caller's empty cart, when a line of the order names an active
product and the storage
does not throw, is answered 200 and appends to the cart lines of the caller
that are the merged lines of the order lines of active products: exactly
their product ids and customizations, with quantities summed for the lines
that share product and customization. This holds provided each line, and each
sum at the moment it is made, is within the stock of the product, and no two
of the lines name the same product without customization. The order lines of
inactive products are not among the lines read. -/
theorem reorder_merges (s : Db) (userId orderId : Nat)
    (howner : ∃ o ∈ s.orders, o.id = orderId ∧ o.user_id = userId)
    (hempty : ∀ ci ∈ s.cart_items, ci.user_id ≠ userId)
    (hne : selectOrderItems orderId s ≠ [])
    (hstock : mergedWithinStock [] (selectOrderItems orderId s) = true)
    (hnull : NullOnce (selectOrderItems orderId s)) :
    (reorder noFailure s userId orderId).response =
      ⟨200, Body.message "Items added to cart successfully"⟩ ∧
    (∃ newLines : List CartItem,
      (reorder noFailure s userId orderId).db =
        { s with cart_items := s.cart_items ++ newLines } ∧
      (∀ ci ∈ newLines, ci.user_id = userId) ∧
      newLines.map CartItem.toLine =
        specMergedLines ((selectOrderItems orderId s).map ReorderRow.toLine)) ∧
    ∀ item ∈ selectOrderItems orderId s,
      ∃ p ∈ s.products, p.id = item.product_id ∧ p.is_active = true := by
  obtain ⟨c2, hc2, hr⟩ := reorder_noFailure_sent s userId orderId howner hne
  have inv : ReorderInv userId s.cart_items [] :=
    { user_base := hempty
      user_new := fun a ha => by cases ha
      ids := fun a ha => by cases ha
      base_ids := fun _ _ a ha => by cases ha
      keys := fun a ha => by cases ha }
  obtain ⟨c3, new2, h1, h2, h3, h4⟩ := reorderItems_merge userId (selectOrderItems orderId s)
    ⟨s, 2⟩ s.cart_items [] (by simp) inv (fun _ _ _ a ha => by cases ha) hnull hstock
  rw [hc2] at h1
  cases h1
  refine ⟨by rw [hr], ⟨new2, by rw [hr]; exact h2, h3, h4⟩, ?_⟩
  intro item hitem
  obtain ⟨oi, _, p, hp, _, hid, hact, hrow⟩ := mem_selectOrderItems orderId s item hitem
  exact ⟨p, hp, by rw [hrow]; exact hid, hact⟩

/-! ## The admin status update -/

theorem orderStatusOf_eq_none_iff (status : String) :
    orderStatusOf status = none ↔
      status ∉ ["pending", "processing", "completed", "cancelled"] := by
  unfold orderStatusOf
  by_cases h1 : status = "pending"
  · simp [h1]
  · by_cases h2 : status = "processing"
    · simp [h2]
    · by_cases h3 : status = "completed"
      · simp [h3]
      · by_cases h4 : status = "cancelled"
        · simp [h4]
        · simp [h1, h2, h3, h4]

theorem updateStatus_cases (fails : Oracle) (s : Db) (orderId : Nat) (status : String) :
    (orderStatusOf status = none ∧
      (updateStatus fails s orderId status).response =
        ⟨400, Body.errors ["Valid status required"]⟩ ∧
      (updateStatus fails s orderId status).db = s) ∨
    (∃ value, orderStatusOf status = some value ∧ fails 0 = true ∧
      (updateStatus fails s orderId status).response =
        ⟨500, Body.error ErrorMessage.internalServerError⟩ ∧
      (updateStatus fails s orderId status).db = s) ∨
    (∃ value, orderStatusOf status = some value ∧ fails 0 = false ∧
      (updateStatus fails s orderId status).response =
        ⟨200, Body.message "Order status updated successfully"⟩ ∧
      (updateStatus fails s orderId status).db =
        { s with orders := s.orders.map fun o =>
            if o.id = orderId then { o with status := value } else o }) := by
  cases hv : orderStatusOf status with
  | none =>
    left
    simp [updateStatus, updateStatusTry, catchOnPool, hv]
  | some value =>
    right
    by_cases hf : fails 0 = true
    · left
      refine ⟨value, rfl, hf, ?_⟩
      simp [updateStatus, updateStatusTry, catchOnPool, hv, Connection.execute, hf]
    · right
      have hf2 : fails 0 = false := by simpa using hf
      refine ⟨value, rfl, hf2, ?_⟩
      simp [updateStatus, updateStatusTry, catchOnPool, hv, Connection.execute, hf2,
        updateOrderStatus]

theorem map_content_setStatus (orders : List Order) (orderId : Nat) (value : OrderStatus) :
    (orders.map fun o => if o.id = orderId then { o with status := value } else o).map
        Order.content = orders.map Order.content := by
  rw [List.map_map]
  apply List.map_congr_left
  intro o _
  by_cases h : o.id = orderId <;> simp [h, Order.content]

theorem filter_other_setStatus (orders : List Order) (orderId : Nat) (value : OrderStatus) :
    (orders.map fun o => if o.id = orderId then { o with status := value } else o).filter
        (fun o => !decide (o.id = orderId)) =
      orders.filter fun o => !decide (o.id = orderId) := by
  induction orders with
  | nil => rfl
  | cons o rest ih =>
    by_cases h : o.id = orderId
    · simp [List.filter_cons, h, ih]
    · simp [List.filter_cons, h, ih]

/-- Claim C22: the admin status update answers 200 only for the statuses
pending, processing, completed and cancelled, and answers 400 and changes
nothing for any other; whatever the status and whatever storage call throws,
every order keeps its id, owner, amounts, payment method, payment status and
notes, the orders other than the addressed one are unchanged, and so are the
order lines, the products and the carts; with an accepted status and a
storage that does not throw, the addressed order has the new status. -/
theorem updateStatus_frame (fails : Oracle) (s : Db) (orderId : Nat) (status : String) :
    ((updateStatus fails s orderId status).response.status = 200 →
      status ∈ ["pending", "processing", "completed", "cancelled"]) ∧
    (status ∉ ["pending", "processing", "completed", "cancelled"] →
      (updateStatus fails s orderId status).response =
        ⟨400, Body.errors ["Valid status required"]⟩ ∧
      (updateStatus fails s orderId status).db = s) ∧
    (∀ value, orderStatusOf status = some value →
      (updateStatus noFailure s orderId status).response =
        ⟨200, Body.message "Order status updated successfully"⟩ ∧
      (updateStatus noFailure s orderId status).db.orders =
        s.orders.map fun o => if o.id = orderId then { o with status := value } else o) ∧
    (updateStatus fails s orderId status).db.orders.map Order.content =
      s.orders.map Order.content ∧
    (updateStatus fails s orderId status).db.orders.filter (fun o => !decide (o.id = orderId)) =
      s.orders.filter (fun o => !decide (o.id = orderId)) ∧
    (updateStatus fails s orderId status).db.order_items = s.order_items ∧
    (updateStatus fails s orderId status).db.products = s.products ∧
    (updateStatus fails s orderId status).db.cart_items = s.cart_items := by
  refine ⟨?_, ?_, ?_, ?_⟩
  · intro h200
    rcases updateStatus_cases fails s orderId status with ⟨_, hr, _⟩ | ⟨_, _, _, hr, _⟩ |
      ⟨value, hv, _, _, _⟩
    · rw [hr] at h200; simp at h200
    · rw [hr] at h200; simp at h200
    · by_contra hnot
      rw [(orderStatusOf_eq_none_iff status).mpr hnot] at hv
      cases hv
  · intro hnot
    have hnone := (orderStatusOf_eq_none_iff status).mpr hnot
    rcases updateStatus_cases fails s orderId status with ⟨_, hr, hdb⟩ | ⟨_, hv, _⟩ |
      ⟨_, hv, _⟩
    · exact ⟨hr, hdb⟩
    · rw [hnone] at hv; cases hv
    · rw [hnone] at hv; cases hv
  · intro value hvalue
    rcases updateStatus_cases noFailure s orderId status with ⟨hn, _⟩ | ⟨_, _, hf, _⟩ |
      ⟨v2, hv, _, hr, hdb⟩
    · rw [hn] at hvalue; cases hvalue
    · simp [noFailure] at hf
    · rw [hvalue] at hv
      cases hv
      exact ⟨hr, by rw [hdb]⟩
  · rcases updateStatus_cases fails s orderId status with ⟨_, _, hdb⟩ | ⟨_, _, _, _, hdb⟩ |
      ⟨value, _, _, _, hdb⟩
    · rw [hdb]; exact ⟨rfl, rfl, rfl, rfl, rfl⟩
    · rw [hdb]; exact ⟨rfl, rfl, rfl, rfl, rfl⟩
    · rw [hdb]
      exact ⟨map_content_setStatus _ _ _, filter_other_setStatus _ _ _, rfl, rfl, rfl⟩

theorem updateStatus_frame_witness :
    ((updateStatus noFailure statusStore 1 "shipped").response =
        ⟨400, Body.errors ["Valid status required"]⟩ ∧
      (updateStatus noFailure statusStore 1 "shipped").db = statusStore) ∧
    ((updateStatus noFailure statusStore 1 "cancelled").response =
        ⟨200, Body.message "Order status updated successfully"⟩ ∧
      (updateStatus noFailure statusStore 1 "cancelled").db.orders =
        statusStore.orders.map fun o =>
          if o.id = 1 then { o with status := OrderStatus.cancelled } else o) :=
  ⟨(updateStatus_frame noFailure statusStore 1 "shipped").2.1 (by decide),
    (updateStatus_frame noFailure statusStore 1 "cancelled").2.2.1 OrderStatus.cancelled
      (by decide)⟩

/-! ## Determinism of the unit price -/

/-- Claim C26: resolving the unit price is deterministic in the product's base
price, the customization and the catalog of variants: two resolutions that
return, for rows with the same base price and customization on stores with
the same `product_variants`, return the same price, whatever else differs
between the two calls. -/
theorem resolveUnitPrice_deterministic (fails fails2 : Oracle) (item item2 : CartRow)
    (c c2 c1 c3 : Connection) (price price2 : ℚ)
    (hbase : item.base_price = item2.base_price)
    (hcust : item.customizations = item2.customizations)
    (hcatalog : c.db.product_variants = c2.db.product_variants)
    (h1 : resolveUnitPrice fails item c = Call.returned price c1)
    (h2 : resolveUnitPrice fails2 item2 c2 = Call.returned price2 c3) :
    price = price2 := by
  rw [(resolveUnitPrice_returned h1).2.1, (resolveUnitPrice_returned h2).2.1,
    unitPrice_eq_modifiersOf, unitPrice_eq_modifiersOf, hbase, hcust]
  unfold modifiersOf
  rw [hcatalog]

theorem resolveUnitPrice_deterministic_witness :
    resolveUnitPrice noFailure ⟨1, 7, 1, 2, some ⟨[1], ""⟩, "Latte", 9 / 2, 5⟩ ⟨exampleStore, 2⟩ =
      Call.returned (unitPrice exampleStore ⟨1, 7, 1, 2, some ⟨[1], ""⟩, "Latte", 9 / 2, 5⟩)
        ⟨exampleStore, 3⟩ ∧
    resolveUnitPrice noFailure ⟨4, 8, 1, 1, some ⟨[1], ""⟩, "Latte", 9 / 2, 5⟩
        ⟨{ exampleStore with cart_items := [] }, 0⟩ =
      Call.returned (9 / 2 + (0 + 1 / 2)) ⟨{ exampleStore with cart_items := [] }, 1⟩ ∧
    unitPrice exampleStore ⟨1, 7, 1, 2, some ⟨[1], ""⟩, "Latte", 9 / 2, 5⟩ = 9 / 2 + (0 + 1 / 2) :=
  ⟨rfl, rfl,
    resolveUnitPrice_deterministic noFailure noFailure
      ⟨1, 7, 1, 2, some ⟨[1], ""⟩, "Latte", 9 / 2, 5⟩ ⟨4, 8, 1, 1, some ⟨[1], ""⟩, "Latte", 9 / 2, 5⟩
      ⟨exampleStore, 2⟩ ⟨{ exampleStore with cart_items := [] }, 0⟩ ⟨exampleStore, 3⟩
      ⟨{ exampleStore with cart_items := [] }, 1⟩ _ _ rfl rfl rfl rfl rfl⟩

/-! ## Stock checks of cart add -/

/-- The stock checks of cart add for a quantity sent as a JSON number, with a
storage that does not throw and the stock of the product row the handler
reads: when no cart line matches, the answer is 200 exactly when the stock is
at least the requested quantity, and the line is appended; when a line
matches (of quantity not below 0), the answer is 200 exactly when the stock
is at least the quantity of that line plus the requested one, and that line
gets the sum. Otherwise the answer is 400 with an insufficient-stock error
and the store is unchanged. -/
theorem cartAdd_number_stock (s : Db) (userId : Nat) (req : AddRequest) (quantity : Int)
    (product : Product) (others : List Product)
    (hnumber : req.quantity = Quantity.number quantity)
    (hpid : 1 ≤ req.product_id) (hqty : 1 ≤ quantity)
    (hproduct : selectActiveProduct req.product_id s = product :: others) :
    (selectExistingItems userId req.product_id req.customizations s = [] →
      ((cartAdd noFailure s userId req).response.status = 200 ↔
        quantity ≤ product.stock_quantity) ∧
      (quantity ≤ product.stock_quantity →
        (cartAdd noFailure s userId req).db =
          (insertCartItem userId req.product_id quantity req.customizations s).2) ∧
      (product.stock_quantity < quantity →
        (cartAdd noFailure s userId req).response =
          ⟨400, Body.error ErrorMessage.insufficientStockToAdd⟩ ∧
        (cartAdd noFailure s userId req).db = s)) ∧
    (∀ (existing : CartItem) (more : List CartItem),
      selectExistingItems userId req.product_id req.customizations s = existing :: more →
      0 ≤ existing.quantity →
      ((cartAdd noFailure s userId req).response.status = 200 ↔
        existing.quantity + quantity ≤ product.stock_quantity) ∧
      (existing.quantity + quantity ≤ product.stock_quantity →
        (cartAdd noFailure s userId req).db =
          (updateCartItemQuantity (existing.quantity + quantity) existing.id s).2) ∧
      (product.stock_quantity < existing.quantity + quantity →
        (cartAdd noFailure s userId req).response.status = 400 ∧
        ((cartAdd noFailure s userId req).response.body =
            Body.error ErrorMessage.insufficientStockToAdd ∨
          (cartAdd noFailure s userId req).response.body =
            Body.error ErrorMessage.insufficientStockForQuantity) ∧
        (cartAdd noFailure s userId req).db = s)) := by
  have hv : addValidationResult req = [] := by
    simp [addValidationResult, hnumber, Quantity.toNumber, hpid, hqty]
  constructor
  · intro hnil
    by_cases hq : quantity ≤ product.stock_quantity
    · have hr : cartAdd noFailure s userId req =
          ⟨⟨200, Body.message "Item added to cart successfully"⟩,
            (insertCartItem userId req.product_id quantity req.customizations s).2, 3⟩ := by
        simp [cartAdd, cartAddTry, catchOnPool, hv, execute_noFailure, query, hproduct, hnumber,
          Quantity.toNumber, plusQuantity, hnil,
          not_lt.mpr hq]
      rw [hr]
      exact ⟨⟨fun _ => hq, fun _ => rfl⟩, fun _ => rfl, fun hlt => absurd hq (not_le.mpr hlt)⟩
    · have hlt : product.stock_quantity < quantity := not_le.mp hq
      have hr : cartAdd noFailure s userId req =
          ⟨⟨400, Body.error ErrorMessage.insufficientStockToAdd⟩, s, 1⟩ := by
        simp [cartAdd, cartAddTry, catchOnPool, hv, execute_noFailure, query, hproduct, hnumber,
          Quantity.toNumber, plusQuantity, hlt]
      rw [hr]
      refine ⟨⟨fun h => ?_, fun h => absurd h hq⟩, fun h => absurd h hq, fun _ => ⟨rfl, rfl⟩⟩
      simp at h
  · intro existing more hex hnonneg
    by_cases hq : quantity ≤ product.stock_quantity
    · by_cases hsum : existing.quantity + quantity ≤ product.stock_quantity
      · have hr : cartAdd noFailure s userId req =
            ⟨⟨200, Body.message "Item added to cart successfully"⟩,
              (updateCartItemQuantity (existing.quantity + quantity) existing.id s).2,
              3⟩ := by
          simp [cartAdd, cartAddTry, catchOnPool, hv, execute_noFailure, query, hproduct, hnumber,
          Quantity.toNumber, plusQuantity, hex,
            not_lt.mpr hq, not_lt.mpr hsum]
        rw [hr]
        exact ⟨⟨fun _ => hsum, fun _ => rfl⟩, fun _ => rfl,
          fun hlt => absurd hsum (not_le.mpr hlt)⟩
      · have hlt : product.stock_quantity < existing.quantity + quantity := not_le.mp hsum
        have hr : cartAdd noFailure s userId req =
            ⟨⟨400, Body.error ErrorMessage.insufficientStockForQuantity⟩, s, 2⟩ := by
          simp [cartAdd, cartAddTry, catchOnPool, hv, execute_noFailure, query, hproduct, hnumber,
          Quantity.toNumber, plusQuantity, hex,
            not_lt.mpr hq, hlt]
        rw [hr]
        refine ⟨⟨fun h => ?_, fun h => absurd h hsum⟩, fun h => absurd h hsum,
          fun _ => ⟨rfl, Or.inr rfl, rfl⟩⟩
        simp at h
    · have hlt : product.stock_quantity < quantity := not_le.mp hq
      have hlt2 : product.stock_quantity < existing.quantity + quantity := by omega
      have hr : cartAdd noFailure s userId req =
          ⟨⟨400, Body.error ErrorMessage.insufficientStockToAdd⟩, s, 1⟩ := by
        simp [cartAdd, cartAddTry, catchOnPool, hv, execute_noFailure, query, hproduct, hnumber,
          Quantity.toNumber, plusQuantity, hlt]
      rw [hr]
      refine ⟨⟨fun h => ?_, fun h => absurd h (not_le.mpr hlt2)⟩,
        fun h => absurd h (not_le.mpr hlt2), fun _ => ⟨rfl, Or.inl rfl, rfl⟩⟩
      simp at h

/-- Claim C24, evaluated where it fails: user 7 holds one Latte with variants
1 and 2 and adds the same Latte with the quantity sent as the string "2",
which the validator accepts. The handler forms "12" from 1 and "2": with 5 in
stock the request is refused although 1 + 2 is within the stock, and with 20
in stock it is accepted and the line is left with a quantity of 12. -/
theorem cartAdd_text_quantity_example :
    addValidationResult ⟨1, Quantity.text [2], some ⟨[1, 2], ""⟩⟩ = [] ∧
    (mergeStore.products.map fun p => (p.id, p.stock_quantity, p.is_active)) = [(1, 5, true)] ∧
    (1 : Int) + 2 ≤ 5 ∧
    (cartAdd noFailure mergeStore 7 ⟨1, Quantity.text [2], some ⟨[1, 2], ""⟩⟩).response =
      ⟨400, Body.error ErrorMessage.insufficientStockForQuantity⟩ ∧
    (roomyStore.products.map fun p => (p.id, p.stock_quantity, p.is_active)) = [(1, 20, true)] ∧
    (cartAdd noFailure roomyStore 7 ⟨1, Quantity.text [2], some ⟨[1, 2], ""⟩⟩).response.status =
      200 ∧
    (cartAdd noFailure roomyStore 7 ⟨1, Quantity.text [2], some ⟨[1, 2], ""⟩⟩).db.cart_items =
      [⟨1, 7, 1, 12, some ⟨[1, 2], ""⟩⟩] := by
  decide

/-! ## What the cart handlers write -/

theorem execute_cases {α : Type} (fails : Oracle) (c : Connection) (stmt : Db → α × Db) :
    (fails c.issued = true ∧
      c.execute fails stmt = Call.thrown ⟨c.db, c.issued + 1⟩) ∨
    (fails c.issued = false ∧
      c.execute fails stmt = Call.returned (stmt c.db).1 ⟨(stmt c.db).2, c.issued + 1⟩) := by
  unfold Connection.execute
  by_cases h : fails c.issued = true
  · left; simp [h]
  · right
    have h2 : fails c.issued = false := by simpa using h
    simp [h2]

theorem cartAdd_db_cases (fails : Oracle) (s : Db) (userId : Nat) (req : AddRequest) :
    (cartAdd fails s userId req).db = s ∨
    (1 ≤ req.quantity.toNumber ∧
      ∃ existing ∈ selectExistingItems userId req.product_id req.customizations s,
        (cartAdd fails s userId req).db =
          (updateCartItemQuantity (plusQuantity existing.quantity req.quantity) existing.id s).2) ∨
    (1 ≤ req.quantity.toNumber ∧
      (cartAdd fails s userId req).db =
        (insertCartItem userId req.product_id req.quantity.toNumber req.customizations s).2) := by
  unfold cartAdd cartAddTry
  by_cases hv : addValidationResult req = []
  · have hq : 1 ≤ req.quantity.toNumber := by
      by_contra hn
      simp [addValidationResult, hn] at hv
    rw [if_neg (by simpa using hv)]
    rcases execute_cases fails ⟨s, 0⟩ (query (selectActiveProduct req.product_id)) with
      ⟨_, h1⟩ | ⟨_, h1⟩
    · left; rw [h1]; rfl
    · rw [h1]
      simp only [query]
      cases hp : selectActiveProduct req.product_id s with
      | nil => left; rfl
      | cons product others =>
        simp only []
        by_cases hs : product.stock_quantity < req.quantity.toNumber
        · left; rw [if_pos hs]; rfl
        · rw [if_neg hs]
          rcases execute_cases fails ⟨s, 0 + 1⟩
            (query (selectExistingItems userId req.product_id req.customizations)) with
            ⟨_, h2⟩ | ⟨_, h2⟩
          · left; rw [h2]; rfl
          · rw [h2]
            simp only [query]
            cases he : selectExistingItems userId req.product_id req.customizations s with
            | nil =>
              simp only []
              rcases execute_cases fails ⟨s, 0 + 1 + 1⟩
                (insertCartItem userId req.product_id req.quantity.toNumber req.customizations) with
                ⟨_, h3⟩ | ⟨_, h3⟩
              · left; rw [h3]; rfl
              · right; right
                rw [h3]
                exact ⟨hq, rfl⟩
            | cons existing more =>
              simp only []
              by_cases hs2 : product.stock_quantity < plusQuantity existing.quantity req.quantity
              · left; rw [if_pos hs2]; rfl
              · rw [if_neg hs2]
                rcases execute_cases fails ⟨s, 0 + 1 + 1⟩
                  (updateCartItemQuantity (plusQuantity existing.quantity req.quantity) existing.id) with
                  ⟨_, h3⟩ | ⟨_, h3⟩
                · left; rw [h3]; rfl
                · right; left
                  rw [h3]
                  exact ⟨hq, existing, List.mem_cons_self _ _, rfl⟩
  · left
    rw [if_pos (by simpa using hv)]
    rfl

theorem mem_selectOwnedItem (itemId userId : Nat) (s : Db) (row : OwnedRow)
    (h : row ∈ selectOwnedItem itemId userId s) :
    ∃ ci ∈ s.cart_items, ci.id = itemId ∧ ci.user_id = userId := by
  simp only [selectOwnedItem, List.mem_flatMap, List.mem_map, List.mem_filter,
    Bool.and_eq_true, decide_eq_true_eq] at h
  obtain ⟨ci, hci, p, ⟨_, ⟨_, h2⟩, h3⟩, _⟩ := h
  exact ⟨ci, hci, h2, h3⟩

theorem cartUpdate_db_cases (fails : Oracle) (s : Db) (userId itemId : Nat) (quantity : Int) :
    (cartUpdate fails s userId itemId quantity).db = s ∨
    (1 ≤ quantity ∧ (∃ ci ∈ s.cart_items, ci.id = itemId ∧ ci.user_id = userId) ∧
      (cartUpdate fails s userId itemId quantity).db =
        (updateCartItemQuantity quantity itemId s).2) := by
  unfold cartUpdate cartUpdateTry
  by_cases hv : updateValidationResult quantity = []
  · have hq : 1 ≤ quantity := by
      by_contra hn
      simp [updateValidationResult, hn] at hv
    rw [if_neg (by simpa using hv)]
    rcases execute_cases fails ⟨s, 0⟩ (query (selectOwnedItem itemId userId)) with
      ⟨_, h1⟩ | ⟨_, h1⟩
    · left; rw [h1]; rfl
    · rw [h1]
      simp only [query]
      cases hp : selectOwnedItem itemId userId s with
      | nil => left; rfl
      | cons cartItem others =>
        simp only []
        by_cases hs : cartItem.stock_quantity < quantity
        · left; rw [if_pos hs]; rfl
        · rw [if_neg hs]
          rcases execute_cases fails ⟨s, 0 + 1⟩ (updateCartItemQuantity quantity itemId) with
            ⟨_, h2⟩ | ⟨_, h2⟩
          · left; rw [h2]; rfl
          · right
            rw [h2]
            exact ⟨hq, mem_selectOwnedItem itemId userId s cartItem
              (by rw [hp]; exact List.mem_cons_self _ _), rfl⟩
  · left
    rw [if_pos (by simpa using hv)]
    rfl

theorem cartRemove_db_cases (fails : Oracle) (s : Db) (userId itemId : Nat) :
    (cartRemove fails s userId itemId).db = s ∨
    (cartRemove fails s userId itemId).db = (deleteCartItem itemId userId s).2 := by
  unfold cartRemove cartRemoveTry
  rcases execute_cases fails ⟨s, 0⟩ (deleteCartItem itemId userId) with ⟨_, h1⟩ | ⟨_, h1⟩
  · left; rw [h1]; rfl
  · right
    rw [h1]
    simp only []
    split <;> rfl

theorem cartClear_db_cases (fails : Oracle) (s : Db) (userId : Nat) :
    (cartClear fails s userId).db = s ∨
    (cartClear fails s userId).db = (deleteCartItems userId s).2 := by
  unfold cartClear cartClearTry
  rcases execute_cases fails ⟨s, 0⟩ (deleteCartItems userId) with ⟨_, h1⟩ | ⟨_, h1⟩
  · left; rw [h1]; rfl
  · right; rw [h1]; rfl

theorem createOrder_db_cases (fails : Oracle) (s : Db) (userId : Nat) (req : Request) :
    (createOrder fails s userId req).db = s ∨
    (createOrder fails s userId req).db = placedStore s userId req := by
  rcases createOrder_cases fails s userId req with ⟨_, _, hdb⟩ | ⟨_, ha⟩
  · exact Or.inl hdb
  · rcases ha with ⟨_, _, hdb⟩ | ⟨_, _, _, hdb⟩ | ⟨_, _, hdb⟩ | ⟨_, _, _, _, _, hdb⟩ |
      ⟨_, _, _, _, _, hdb⟩
    · exact Or.inl hdb
    · exact Or.inl hdb
    · exact Or.inl hdb
    · exact Or.inl hdb
    · exact Or.inr hdb

theorem reorderItems_writes (fails : Oracle) (userId : Nat) (rows : List ReorderRow) (s : Db) :
    ∀ (todo : List ReorderRow) (c : Connection),
      (∀ item ∈ todo, item ∈ rows) → ReorderWrites userId rows s c.db →
      ReorderWrites userId rows s (reorderItems fails userId todo c).store := by
  intro todo
  induction todo with
  | nil => intro c _ h; exact h
  | cons item rest ih =>
    intro c hsub h
    have hitem : item ∈ rows := hsub item (List.mem_cons_self _ _)
    have hrest : ∀ x ∈ rest, x ∈ rows := fun x hx => hsub x (List.mem_cons_of_mem _ hx)
    simp only [reorderItems]
    by_cases hq : item.stock_quantity ≥ item.quantity
    · rw [if_pos hq]
      rcases execute_cases fails c
        (query (selectExistingItems userId item.product_id item.customizations)) with
        ⟨_, h1⟩ | ⟨_, h1⟩
      · rw [h1]; exact h
      · rw [h1]
        simp only [query]
        cases he : selectExistingItems userId item.product_id item.customizations c.db with
        | nil =>
          simp only []
          rcases execute_cases fails ⟨c.db, c.issued + 1⟩
            (insertCartItem userId item.product_id item.quantity item.customizations) with
            ⟨_, h2⟩ | ⟨_, h2⟩
          · rw [h2]; exact h
          · rw [h2]
            exact ih _ hrest (ReorderWrites.insert c.db item h hitem hq)
        | cons existing more =>
          simp only []
          by_cases hs : item.stock_quantity ≥ existing.quantity + item.quantity
          · rw [if_pos hs]
            rcases execute_cases fails ⟨c.db, c.issued + 1⟩
              (updateCartItemQuantity (existing.quantity + item.quantity) existing.id) with
              ⟨_, h2⟩ | ⟨_, h2⟩
            · rw [h2]; exact h
            · rw [h2]
              exact ih _ hrest (ReorderWrites.update c.db item existing h hitem
                (by rw [he]; exact List.mem_cons_self _ _) hq hs)
          · rw [if_neg hs]
            exact ih _ hrest h
    · rw [if_neg hq]
      exact ih _ hrest h

theorem reorder_writes (fails : Oracle) (s : Db) (userId orderId : Nat) :
    ReorderWrites userId (selectOrderItems orderId s) s (reorder fails s userId orderId).db := by
  unfold reorder reorderTry
  rcases execute_cases fails ⟨s, 0⟩ (query (selectOrder orderId userId)) with ⟨_, h1⟩ | ⟨_, h1⟩
  · rw [h1]; exact ReorderWrites.refl
  · rw [h1]
    simp only [query]
    split
    · exact ReorderWrites.refl
    · rcases execute_cases fails ⟨s, 0 + 1⟩ (query (selectOrderItems orderId)) with
        ⟨_, h2⟩ | ⟨_, h2⟩
      · rw [h2]; exact ReorderWrites.refl
      · rw [h2]
        simp only [query]
        split
        · exact ReorderWrites.refl
        · have hw := reorderItems_writes fails userId (selectOrderItems orderId s) s
            (selectOrderItems orderId s) ⟨s, 0 + 1 + 1⟩ (fun _ h => h) ReorderWrites.refl
          cases hr : reorderItems fails userId (selectOrderItems orderId s) ⟨s, 0 + 1 + 1⟩ with
          | returned u c3 =>
            rw [hr] at hw
            exact hw
          | thrown cx =>
            rw [hr] at hw
            exact hw

/-! ## Quantities of cart lines -/

theorem quantitiesPositive_update {d : Db} (h : QuantitiesPositive d) (quantity : Int)
    (id : Nat) (hq : 1 ≤ quantity) :
    QuantitiesPositive (updateCartItemQuantity quantity id d).2 := by
  refine ⟨?_, h.2⟩
  intro ci hci
  simp only [updateCartItemQuantity] at hci
  obtain ⟨a, ha, rfl⟩ := List.mem_map.mp hci
  by_cases hid : a.id = id
  · rw [if_pos hid]; exact hq
  · rw [if_neg hid]; exact h.1 a ha

theorem quantitiesPositive_insert {d : Db} (h : QuantitiesPositive d) (userId productId : Nat)
    (quantity : Int) (customizations : Option Customizations) (hq : 1 ≤ quantity) :
    QuantitiesPositive (insertCartItem userId productId quantity customizations d).2 := by
  refine ⟨?_, h.2⟩
  intro ci hci
  simp only [insertCartItem] at hci
  rcases List.mem_append.mp hci with h1 | h1
  · exact h.1 ci h1
  · rw [List.mem_singleton.mp h1]; exact hq

theorem quantitiesPositive_filter {d : Db} (h : QuantitiesPositive d) (p : CartItem → Bool) :
    QuantitiesPositive { d with cart_items := d.cart_items.filter p } :=
  ⟨fun ci hci => h.1 ci (List.mem_filter.mp hci).1, h.2⟩

theorem quantitiesPositive_placedStore {s : Db} (h : QuantitiesPositive s) (userId : Nat)
    (req : Request) : QuantitiesPositive (placedStore s userId req) := by
  constructor
  · intro ci hci
    exact h.1 ci (List.mem_filter.mp hci).1
  · intro oi hoi
    simp only [placedStore] at hoi
    rcases List.mem_append.mp hoi with h1 | h1
    · exact h.2 oi h1
    · rw [List.map_map] at h1
      obtain ⟨item, hitem, rfl⟩ := List.mem_map.mp h1
      obtain ⟨ci, hci, _, _, _, _, _, hj⟩ := (mem_selectCartItems userId s item).mp hitem
      have : item.quantity = ci.quantity := by rw [← hj]; rfl
      simp only [Function.comp, toOrderItem, toOrderLine]
      rw [this]
      exact h.1 ci hci

theorem reorderWrites_frame {userId : Nat} {rows : List ReorderRow} {s d : Db}
    (h : ReorderWrites userId rows s d) :
    d.products = s.products ∧ d.order_items = s.order_items ∧ d.orders = s.orders ∧
      d.product_variants = s.product_variants := by
  induction h with
  | refl => exact ⟨rfl, rfl, rfl, rfl⟩
  | update d item existing _ _ _ _ _ ih => exact ih
  | insert d item _ _ _ ih => exact ih

theorem quantitiesPositive_reorder {userId orderId : Nat} {s d : Db}
    (hs : QuantitiesPositive s)
    (h : ReorderWrites userId (selectOrderItems orderId s) s d) : QuantitiesPositive d := by
  have hrow : ∀ item ∈ selectOrderItems orderId s, 1 ≤ item.quantity := by
    intro item hitem
    obtain ⟨oi, hoi, _, _, _, _, _, hrw⟩ := mem_selectOrderItems orderId s item hitem
    rw [hrw]
    exact hs.2 oi hoi
  induction h with
  | refl => exact hs
  | update d item existing _ hitem hex _ _ ih =>
    have he : 1 ≤ existing.quantity :=
      ih.1 existing ((mem_selectExistingItems _ _ _ _ _).mp hex).1
    have hi := hrow item hitem
    exact quantitiesPositive_update ih _ _ (by omega)
  | insert d item _ hitem _ ih =>
    exact quantitiesPositive_insert ih _ _ _ _ (hrow item hitem)

/-- What `existing + quantity` leaves in a line of quantity at least 1 is at
least 1, for a number and for a string of digits alike. -/
theorem plusQuantity_pos (existing : Int) (quantity : Quantity) (he : 1 ≤ existing)
    (hq : 1 ≤ quantity.toNumber) : 1 ≤ plusQuantity existing quantity := by
  cases quantity with
  | number n =>
    simp only [Quantity.toNumber] at hq
    simp only [plusQuantity]
    omega
  | text digits =>
    simp only [Quantity.toNumber] at hq
    simp only [plusQuantity]
    rw [if_neg (by omega)]
    have hp : (0 : Int) < 10 ^ digits.length := by positivity
    nlinarith

theorem handle_quantitiesPositive (fails : Oracle) (s : Db) (request : ShopRequest)
    (hs : QuantitiesPositive s) : QuantitiesPositive (handle fails s request).db := by
  cases request with
  | cartAdd userId req =>
    rcases cartAdd_db_cases fails s userId req with h | ⟨hq, e, he, h⟩ | ⟨hq, h⟩
    · simp only [handle]; rw [h]; exact hs
    · simp only [handle]; rw [h]
      have h1 : 1 ≤ e.quantity := hs.1 e ((mem_selectExistingItems _ _ _ _ _).mp he).1
      exact quantitiesPositive_update hs _ _ (plusQuantity_pos _ _ h1 hq)
    · simp only [handle]; rw [h]
      exact quantitiesPositive_insert hs _ _ _ _ hq
  | cartUpdate userId itemId quantity =>
    rcases cartUpdate_db_cases fails s userId itemId quantity with h | ⟨hq, _, h⟩
    · simp only [handle]; rw [h]; exact hs
    · simp only [handle]; rw [h]
      exact quantitiesPositive_update hs _ _ hq
  | cartRemove userId itemId =>
    rcases cartRemove_db_cases fails s userId itemId with h | h
    · simp only [handle]; rw [h]; exact hs
    · simp only [handle]; rw [h]
      exact quantitiesPositive_filter hs _
  | cartClear userId =>
    rcases cartClear_db_cases fails s userId with h | h
    · simp only [handle]; rw [h]; exact hs
    · simp only [handle]; rw [h]
      exact quantitiesPositive_filter hs _
  | reorder userId orderId =>
    exact quantitiesPositive_reorder hs (reorder_writes fails s userId orderId)
  | createOrder userId req =>
    rcases createOrder_db_cases fails s userId req with h | h
    · simp only [handle]; rw [h]; exact hs
    · simp only [handle]; rw [h]
      exact quantitiesPositive_placedStore hs userId req

theorem runRequests_quantitiesPositive :
    ∀ (requests : List (Oracle × ShopRequest)) (s : Db),
      QuantitiesPositive s → QuantitiesPositive (runRequests s requests) := by
  intro requests
  induction requests with
  | nil => intro s hs; exact hs
  | cons head rest ih =>
    intro s hs
    obtain ⟨fails, request⟩ := head
    exact ih _ (handle_quantitiesPositive fails s request hs)

/-- Claim C21: from a store with no cart line and no order line (as when
carts and orders are empty), after any sequence of requests to cart add, cart
update, cart remove, cart clear, reorder and order placement, by any users,
whether or not they pass validation and whatever storage calls throw, every
cart line has a quantity of at least 1. -/
theorem cart_quantities_at_least_one (s : Db) (requests : List (Oracle × ShopRequest))
    (hcart : s.cart_items = []) (hitems : s.order_items = []) :
    ∀ ci ∈ (runRequests s requests).cart_items, 1 ≤ ci.quantity := by
  have hs : QuantitiesPositive s := by
    constructor
    · intro ci hci; rw [hcart] at hci; cases hci
    · intro oi hoi; rw [hitems] at hoi; cases hoi
  exact (runRequests_quantitiesPositive requests s hs).1

theorem cart_quantities_at_least_one_witness :
    (runRequests emptyShop exampleRequests).cart_items =
      [⟨1, 8, 1, 1, none⟩, ⟨2, 7, 1, 3, none⟩, ⟨3, 7, 2, 1, some ⟨[1], ""⟩⟩] ∧
    ∀ ci ∈ (runRequests emptyShop exampleRequests).cart_items, 1 ≤ ci.quantity :=
  ⟨by decide, cart_quantities_at_least_one emptyShop exampleRequests rfl rfl⟩

/-! ## Carts of other users -/

theorem filter_others_update (l : List CartItem) (userId id : Nat) (quantity : Int)
    (h : ∀ a ∈ l, a.id = id → a.user_id = userId) :
    (l.map fun ci => if ci.id = id then { ci with quantity := quantity } else ci).filter
        (fun ci => !decide (ci.user_id = userId)) =
      l.filter fun ci => !decide (ci.user_id = userId) := by
  induction l with
  | nil => rfl
  | cons a t ih =>
    have iht := ih fun b hb => h b (List.mem_cons_of_mem _ hb)
    by_cases hid : a.id = id
    · have hu := h a (List.mem_cons_self _ _) hid
      simp only [List.map_cons, if_pos hid, List.filter_cons, hu, decide_True, Bool.not_true]
      exact iht
    · simp only [List.map_cons, if_neg hid, List.filter_cons]
      rw [iht]

theorem otherCarts_update {d : Db} (hkey : CartKeyed d) (userId : Nat) (e : CartItem)
    (he : e ∈ d.cart_items) (hu : e.user_id = userId) (quantity : Int) :
    otherCarts userId (updateCartItemQuantity quantity e.id d).2 = otherCarts userId d := by
  unfold otherCarts updateCartItemQuantity
  exact filter_others_update d.cart_items userId e.id quantity
    fun a ha hid => by rw [(hkey a ha e he hid).1, hu]

theorem otherCarts_insert (d : Db) (userId productId : Nat) (quantity : Int)
    (customizations : Option Customizations) :
    otherCarts userId (insertCartItem userId productId quantity customizations d).2 =
      otherCarts userId d := by
  simp [otherCarts, insertCartItem, List.filter_append, List.filter_cons]

theorem otherCarts_filter (d : Db) (userId : Nat) (p : CartItem → Bool)
    (h : ∀ ci ∈ d.cart_items, ci.user_id ≠ userId → p ci = true) :
    otherCarts userId { d with cart_items := d.cart_items.filter p } = otherCarts userId d := by
  unfold otherCarts
  simp only [List.filter_filter]
  apply List.filter_congr
  intro ci hci
  by_cases hu : ci.user_id = userId
  · simp [hu]
  · simp [hu, h ci hci hu]

theorem cartKeyed_update {d : Db} (hkey : CartKeyed d) (quantity : Int) (id : Nat) :
    CartKeyed (updateCartItemQuantity quantity id d).2 := by
  intro a ha b hb hab
  simp only [updateCartItemQuantity] at ha hb
  obtain ⟨a0, ha0, rfl⟩ := List.mem_map.mp ha
  obtain ⟨b0, hb0, rfl⟩ := List.mem_map.mp hb
  have hpres : ∀ x : CartItem,
      (if x.id = id then { x with quantity := quantity } else x).id = x.id ∧
      (if x.id = id then { x with quantity := quantity } else x).user_id = x.user_id ∧
      (if x.id = id then { x with quantity := quantity } else x).product_id = x.product_id := by
    intro x
    by_cases h : x.id = id <;> simp [h]
  rw [(hpres a0).1, (hpres b0).1] at hab
  rw [(hpres a0).2.1, (hpres b0).2.1, (hpres a0).2.2, (hpres b0).2.2]
  exact hkey a0 ha0 b0 hb0 hab

theorem cartKeyed_insert {d : Db} (hkey : CartKeyed d) (userId productId : Nat)
    (quantity : Int) (customizations : Option Customizations) :
    CartKeyed (insertCartItem userId productId quantity customizations d).2 := by
  intro a ha b hb hab
  simp only [insertCartItem] at ha hb
  rcases List.mem_append.mp ha with h1 | h1 <;> rcases List.mem_append.mp hb with h2 | h2
  · exact hkey a h1 b h2 hab
  · have := cartInsertId_fresh d a h1
    rw [List.mem_singleton.mp h2] at hab
    simp only at hab
    omega
  · have := cartInsertId_fresh d b h2
    rw [List.mem_singleton.mp h1] at hab
    simp only at hab
    omega
  · rw [List.mem_singleton.mp h1, List.mem_singleton.mp h2]
    exact ⟨rfl, rfl⟩

theorem otherCarts_reorder {userId : Nat} {rows : List ReorderRow} {s d : Db}
    (hkey : CartKeyed s) (h : ReorderWrites userId rows s d) :
    CartKeyed d ∧ otherCarts userId d = otherCarts userId s := by
  induction h with
  | refl => exact ⟨hkey, rfl⟩
  | update d item existing _ _ hex _ _ ih =>
    obtain ⟨he1, he2, _⟩ := (mem_selectExistingItems _ _ _ _ _).mp hex
    exact ⟨cartKeyed_update ih.1 _ _, by rw [otherCarts_update ih.1 userId existing he1 he2, ih.2]⟩
  | insert d item _ _ _ ih =>
    exact ⟨cartKeyed_insert ih.1 _ _ _ _, by rw [otherCarts_insert, ih.2]⟩

theorem otherCarts_placedStore (s : Db) (userId : Nat) (req : Request) :
    otherCarts userId (placedStore s userId req) = otherCarts userId s := by
  unfold otherCarts placedStore
  simp only [List.filter_filter, Bool.and_self]

theorem handle_otherCarts (fails : Oracle) (s : Db) (request : ShopRequest)
    (hkey : CartKeyed s) :
    otherCarts request.userId (handle fails s request).db = otherCarts request.userId s := by
  cases request with
  | cartAdd userId req =>
    simp only [handle, ShopRequest.userId]
    rcases cartAdd_db_cases fails s userId req with h | ⟨_, e, he, h⟩ | ⟨_, h⟩
    · rw [h]
    · rw [h]
      obtain ⟨he1, he2, _⟩ := (mem_selectExistingItems _ _ _ _ _).mp he
      exact otherCarts_update hkey userId e he1 he2 _
    · rw [h]
      exact otherCarts_insert _ _ _ _ _
  | cartUpdate userId itemId quantity =>
    simp only [handle, ShopRequest.userId]
    rcases cartUpdate_db_cases fails s userId itemId quantity with h | ⟨_, ⟨ci, hci, hid, hu⟩, h⟩
    · rw [h]
    · rw [h, ← hid]
      exact otherCarts_update hkey userId ci hci hu _
  | cartRemove userId itemId =>
    simp only [handle, ShopRequest.userId]
    rcases cartRemove_db_cases fails s userId itemId with h | h
    · rw [h]
    · rw [h]
      exact otherCarts_filter s userId _ fun ci _ hu => by simp [hu]
  | cartClear userId =>
    simp only [handle, ShopRequest.userId]
    rcases cartClear_db_cases fails s userId with h | h
    · rw [h]
    · rw [h]
      exact otherCarts_filter s userId _ fun ci _ hu => by simp [hu]
  | reorder userId orderId =>
    simp only [handle, ShopRequest.userId]
    exact (otherCarts_reorder hkey (reorder_writes fails s userId orderId)).2
  | createOrder userId req =>
    simp only [handle, ShopRequest.userId]
    rcases createOrder_db_cases fails s userId req with h | h
    · rw [h]
    · rw [h]
      exact otherCarts_placedStore s userId req

theorem cartKeyed_filter {d : Db} (hkey : CartKeyed d) (p : CartItem → Bool) :
    CartKeyed { d with cart_items := d.cart_items.filter p } :=
  fun a ha b hb hab => hkey a (List.mem_filter.mp ha).1 b (List.mem_filter.mp hb).1 hab

theorem handle_cartKeyed (fails : Oracle) (s : Db) (request : ShopRequest)
    (hkey : CartKeyed s) : CartKeyed (handle fails s request).db := by
  cases request with
  | cartAdd userId req =>
    simp only [handle]
    rcases cartAdd_db_cases fails s userId req with h | ⟨_, e, _, h⟩ | ⟨_, h⟩
    · rw [h]; exact hkey
    · rw [h]; exact cartKeyed_update hkey _ _
    · rw [h]; exact cartKeyed_insert hkey _ _ _ _
  | cartUpdate userId itemId quantity =>
    simp only [handle]
    rcases cartUpdate_db_cases fails s userId itemId quantity with h | ⟨_, _, h⟩
    · rw [h]; exact hkey
    · rw [h]; exact cartKeyed_update hkey _ _
  | cartRemove userId itemId =>
    simp only [handle]
    rcases cartRemove_db_cases fails s userId itemId with h | h
    · rw [h]; exact hkey
    · rw [h]; exact cartKeyed_filter hkey _
  | cartClear userId =>
    simp only [handle]
    rcases cartClear_db_cases fails s userId with h | h
    · rw [h]; exact hkey
    · rw [h]; exact cartKeyed_filter hkey _
  | reorder userId orderId =>
    simp only [handle]
    exact (otherCarts_reorder hkey (reorder_writes fails s userId orderId)).1
  | createOrder userId req =>
    simp only [handle]
    rcases createOrder_db_cases fails s userId req with h | h
    · rw [h]; exact hkey
    · rw [h]; exact cartKeyed_filter hkey _

/-- Claim C29: on a store where the id of a cart line tells its owner, a
request to cart add, update, remove or clear, to reorder or to order
placement, whatever storage calls throw, leaves the cart lines of every user
other than the caller as they were, and leaves a store where the id of a cart
line tells its owner; and a valid update, or a removal, of a line id that no
cart line of the caller has is answered 404 'Cart item not found' and leaves
the store as it was. -/
theorem carts_isolated (fails : Oracle) (s : Db) (request : ShopRequest) (userId itemId : Nat)
    (quantity : Int) (hkey : CartKeyed s) (hqty : 1 ≤ quantity)
    (hforeign : ∀ ci ∈ s.cart_items, ci.id = itemId → ci.user_id ≠ userId) :
    otherCarts request.userId (handle fails s request).db = otherCarts request.userId s ∧
    CartKeyed (handle fails s request).db ∧
    (cartUpdate noFailure s userId itemId quantity).response =
      ⟨404, Body.error ErrorMessage.cartItemNotFound⟩ ∧
    (cartUpdate noFailure s userId itemId quantity).db = s ∧
    (cartRemove noFailure s userId itemId).response =
      ⟨404, Body.error ErrorMessage.cartItemNotFound⟩ ∧
    (cartRemove noFailure s userId itemId).db = s := by
  refine ⟨handle_otherCarts fails s request hkey, handle_cartKeyed fails s request hkey, ?_⟩
  have hnone : selectOwnedItem itemId userId s = [] := by
    apply List.eq_nil_iff_forall_not_mem.mpr
    intro row hrow
    obtain ⟨ci, hci, hid, hu⟩ := mem_selectOwnedItem itemId userId s row hrow
    exact hforeign ci hci hid hu
  have hv : updateValidationResult quantity = [] := by
    simp [updateValidationResult, hqty]
  have hfilter : s.cart_items.filter
      (fun ci => decide (ci.id = itemId) && decide (ci.user_id = userId)) = [] := by
    apply List.filter_eq_nil_iff.mpr
    intro ci hci
    by_cases hid : ci.id = itemId
    · simp [hid, hforeign ci hci hid]
    · simp [hid]
  have hkeep : s.cart_items.filter
      (fun ci => !(decide (ci.id = itemId) && decide (ci.user_id = userId))) =
      s.cart_items := by
    apply List.filter_eq_self.mpr
    intro ci hci
    by_cases hid : ci.id = itemId
    · simp [hid, hforeign ci hci hid]
    · simp [hid]
  have hdel : deleteCartItem itemId userId s = (0, s) := by
    unfold deleteCartItem
    rw [hfilter, hkeep]
    rfl
  refine ⟨?_, ?_, ?_, ?_⟩
  · simp [cartUpdate, cartUpdateTry, catchOnPool, hv, execute_noFailure, query, hnone]
  · simp [cartUpdate, cartUpdateTry, catchOnPool, hv, execute_noFailure, query, hnone]
  · simp [cartRemove, cartRemoveTry, catchOnPool, execute_noFailure, hdel]
  · simp [cartRemove, cartRemoveTry, catchOnPool, execute_noFailure, hdel]

theorem carts_isolated_witness :
    otherCarts 7 (handle noFailure sharedStore (ShopRequest.reorder 7 1)).db =
      otherCarts 7 sharedStore ∧
    CartKeyed (handle noFailure sharedStore (ShopRequest.reorder 7 1)).db ∧
    (cartUpdate noFailure sharedStore 7 2 1).response =
      ⟨404, Body.error ErrorMessage.cartItemNotFound⟩ ∧
    (cartUpdate noFailure sharedStore 7 2 1).db = sharedStore ∧
    (cartRemove noFailure sharedStore 7 2).response =
      ⟨404, Body.error ErrorMessage.cartItemNotFound⟩ ∧
    (cartRemove noFailure sharedStore 7 2).db = sharedStore :=
  carts_isolated noFailure sharedStore (ShopRequest.reorder 7 1) 7 2 1
    (by unfold CartKeyed; decide) (by decide) (by decide)

/-! ## Reorder and the stock -/

theorem reorderItems_over_stock (fails : Oracle) (userId : Nat) (item : ReorderRow)
    (rest : List ReorderRow) (c : Connection) (h : item.stock_quantity < item.quantity) :
    reorderItems fails userId (item :: rest) c = reorderItems fails userId rest c := by
  simp [reorderItems, not_le.mpr h]

theorem reorderItems_over_sum (fails : Oracle) (userId : Nat) (item : ReorderRow)
    (rest : List ReorderRow) (c : Connection) (existing : CartItem) (more : List CartItem)
    (hsel : selectExistingItems userId item.product_id item.customizations c.db =
      existing :: more)
    (h : item.stock_quantity < existing.quantity + item.quantity) :
    ∃ c1, c1.db = c.db ∧
      (reorderItems fails userId (item :: rest) c = Call.thrown c1 ∨
        reorderItems fails userId (item :: rest) c = reorderItems fails userId rest c1) := by
  by_cases hq : item.stock_quantity < item.quantity
  · exact ⟨c, rfl, Or.inr (reorderItems_over_stock fails userId item rest c hq)⟩
  · rcases execute_cases fails c
      (query (selectExistingItems userId item.product_id item.customizations)) with
      ⟨_, h1⟩ | ⟨_, h1⟩
    · refine ⟨⟨c.db, c.issued + 1⟩, rfl, Or.inl ?_⟩
      simp [reorderItems, not_lt.mp hq, h1]
    · refine ⟨⟨c.db, c.issued + 1⟩, rfl, Or.inr ?_⟩
      simp [reorderItems, not_lt.mp hq, h1, query, hsel, not_le.mpr h]

theorem reorderWrites_within_stock {userId orderId : Nat} {s d : Db} (hkey : CartKeyed s)
    (h : ReorderWrites userId (selectOrderItems orderId s) s d) :
    CartKeyed d ∧
    ∀ line ∈ d.cart_items, line ∈ s.cart_items ∨
      (line.user_id = userId ∧
        ∃ p ∈ s.products, p.id = line.product_id ∧ p.is_active = true ∧
          line.quantity ≤ p.stock_quantity) := by
  have hrow : ∀ item ∈ selectOrderItems orderId s,
      ∃ p ∈ s.products, p.id = item.product_id ∧ p.is_active = true ∧
        item.stock_quantity = p.stock_quantity := by
    intro item hitem
    obtain ⟨oi, _, p, hp, _, hid, hact, hrw⟩ := mem_selectOrderItems orderId s item hitem
    exact ⟨p, hp, by rw [hrw]; exact hid, hact, by rw [hrw]⟩
  induction h with
  | refl => exact ⟨hkey, fun line hl => Or.inl hl⟩
  | update d item existing _ hitem hex _ hsum ih =>
    obtain ⟨he1, he2, he3, _⟩ := (mem_selectExistingItems _ _ _ _ _).mp hex
    refine ⟨cartKeyed_update ih.1 _ _, ?_⟩
    intro line hl
    simp only [updateCartItemQuantity] at hl
    obtain ⟨a, ha, rfl⟩ := List.mem_map.mp hl
    by_cases hid : a.id = existing.id
    · right
      rw [if_pos hid]
      obtain ⟨hu, hp⟩ := ih.1 a ha existing he1 hid
      obtain ⟨p, hp1, hp2, hp3, hp4⟩ := hrow item hitem
      refine ⟨by simpa using hu.trans he2, p, hp1, ?_, hp3, ?_⟩
      · simp only
        rw [hp2, hp, he3]
      · simp only
        rw [← hp4]
        exact hsum
    · rw [if_neg hid]
      exact ih.2 a ha
  | insert d item _ hitem hq ih =>
    refine ⟨cartKeyed_insert ih.1 _ _ _ _, ?_⟩
    intro line hl
    simp only [insertCartItem] at hl
    rcases List.mem_append.mp hl with h1 | h1
    · exact ih.2 line h1
    · right
      rw [List.mem_singleton.mp h1]
      obtain ⟨p, hp1, hp2, hp3, hp4⟩ := hrow item hitem
      exact ⟨rfl, p, hp1, hp2, hp3, by simp only; rw [← hp4]; exact hq⟩

/-- Claim C30: on a store where the id of a cart line tells its owner and
product, after a reorder, whatever storage calls throw, every cart line is a
line of the store before the call, unchanged, or is a line of the caller with
a quantity of at most the stock of an active product it names: what reorder
inserts or updates ends within the stock read at the call. In the loop, a row
whose quantity exceeds the stock passes without a write, and a row whose
quantity added to that of the matching cart line exceeds the stock passes
with the store as it was. -/
theorem reorder_within_stock (fails : Oracle) (s : Db) (userId orderId : Nat)
    (hkey : CartKeyed s) :
    (∀ line ∈ (reorder fails s userId orderId).db.cart_items, line ∈ s.cart_items ∨
      (line.user_id = userId ∧
        ∃ p ∈ s.products, p.id = line.product_id ∧ p.is_active = true ∧
          line.quantity ≤ p.stock_quantity)) ∧
    (reorder fails s userId orderId).db.products = s.products ∧
    (∀ (item : ReorderRow) (rest : List ReorderRow) (c : Connection),
      item.stock_quantity < item.quantity →
      reorderItems fails userId (item :: rest) c = reorderItems fails userId rest c) ∧
    (∀ (item : ReorderRow) (rest : List ReorderRow) (c : Connection)
      (existing : CartItem) (more : List CartItem),
      selectExistingItems userId item.product_id item.customizations c.db = existing :: more →
      item.stock_quantity < existing.quantity + item.quantity →
      ∃ c1, c1.db = c.db ∧
        (reorderItems fails userId (item :: rest) c = Call.thrown c1 ∨
          reorderItems fails userId (item :: rest) c =
            reorderItems fails userId rest c1)) :=
  ⟨(reorderWrites_within_stock hkey (reorder_writes fails s userId orderId)).2,
    (reorderWrites_frame (reorder_writes fails s userId orderId)).1,
    reorderItems_over_stock fails userId,
    reorderItems_over_sum fails userId⟩

theorem reorder_within_stock_witness :
    (reorder noFailure reorderMergeStore 7 1).db.cart_items =
      [⟨4, 8, 1, 1, none⟩, ⟨5, 7, 1, 3, some ⟨[1], ""⟩⟩, ⟨6, 7, 2, 1, none⟩] ∧
    ∀ line ∈ (reorder noFailure reorderMergeStore 7 1).db.cart_items,
      line ∈ reorderMergeStore.cart_items ∨
      (line.user_id = 7 ∧
        ∃ p ∈ reorderMergeStore.products, p.id = line.product_id ∧ p.is_active = true ∧
          line.quantity ≤ p.stock_quantity) :=
  ⟨by decide,
    (reorder_within_stock noFailure reorderMergeStore 7 1 (by unfold CartKeyed; decide)).1⟩

/-! ## The cart view -/

theorem resolveTotalPrice_eq (fails : Oracle) (item : CartViewRow) (c : Connection) :
    resolveTotalPrice fails item c = resolveUnitPrice fails item.toCartRow c := rfl

theorem priceCartView_noFailure :
    ∀ (rows : List CartViewRow) (c : Connection),
      ∃ c2, priceCartView noFailure rows c =
          Call.returned (rows.map fun row => toViewItem row (unitPrice c.db row.toCartRow)) c2 ∧
        c2.db = c.db := by
  intro rows
  induction rows with
  | nil => intro c; exact ⟨c, rfl, rfl⟩
  | cons row rest ih =>
    intro c
    obtain ⟨c1, h1⟩ := resolveUnitPrice_noFailure row.toCartRow c
    have hdb : c1.db = c.db := (resolveUnitPrice_returned h1).1
    obtain ⟨c2, h2, hdb2⟩ := ih c1
    refine ⟨c2, ?_, hdb2.trans hdb⟩
    simp only [priceCartView, resolveTotalPrice_eq, h1, h2, List.map_cons, hdb]

theorem getCart_noFailure (cols : ViewColumns) (s : Db) (userId : Nat) :
    ∃ n, getCart noFailure cols s userId =
      ⟨⟨200, Body.cart (viewItems cols s userId) (summaryOf (viewItems cols s userId))⟩, s, n⟩ := by
  obtain ⟨c2, h2, hdb⟩ := priceCartView_noFailure (selectCartView cols userId s) ⟨s, 0 + 1⟩
  refine ⟨c2.issued, ?_⟩
  have hdb2 : c2.db = s := hdb
  simp only [getCart, getCartTry, catchOnPool, execute_noFailure, query, h2, viewItems, hdb2]

theorem foldl_total_price (items : List CartViewItem) (init : ℚ) :
    items.foldl (fun sum item => sum + item.total_price) init =
      init + (items.map fun item => item.total_price).sum := by
  induction items generalizing init with
  | nil => simp
  | cons item rest ih => simp [ih, add_assoc]

theorem summaryOf_viewItems (cols : ViewColumns) (s : Db) (userId : Nat) :
    (summaryOf (viewItems cols s userId)).subtotal = toFixed2 (viewSubtotal cols s userId) ∧
    (summaryOf (viewItems cols s userId)).tax =
      toFixed2 (viewSubtotal cols s userId * (8 / 100)) ∧
    (summaryOf (viewItems cols s userId)).total =
      toFixed2 (viewSubtotal cols s userId + viewSubtotal cols s userId * (8 / 100)) := by
  refine ⟨?_, ?_, ?_⟩ <;> simp only [summaryOf, foldl_total_price, zero_add, viewSubtotal]

theorem toFixed2_of_nonneg {x : ℚ} (h : 0 ≤ x) : toFixed2 x = roundHalfUp2 x := by
  unfold toFixed2
  rw [if_neg (not_lt.mpr h)]

theorem roundHalfUp2_eq (x : ℚ) (n : ℤ) (h1 : (n : ℚ) ≤ x * 100 + 1 / 2)
    (h2 : x * 100 + 1 / 2 < n + 1) : roundHalfUp2 x = n / 100 := by
  unfold roundHalfUp2
  rw [Int.floor_eq_iff.mpr ⟨h1, h2⟩]

/-- Claim C23: with a storage that does not throw, the cart view answers with
items whose unit price is the base price plus the modifiers of the listed
variants and whose line total is that unit price times the quantity, neither
rounded, and with a summary whose subtotal, tax and total are the 2-decimal
values of the sum of the line totals, of 8% of that sum and of that sum plus
8% of it; for a sum that is not negative these are the values rounded half
up. -/
theorem getCart_summary (cols : ViewColumns) (s : Db) (userId : Nat) :
    (getCart noFailure cols s userId).response =
      ⟨200, Body.cart (viewItems cols s userId) (summaryOf (viewItems cols s userId))⟩ ∧
    (∀ item ∈ viewItems cols s userId,
      item.unit_price =
        item.base_price + modifiersOf s (selectedVariants item.customizations) ∧
      item.total_price = item.unit_price * item.quantity) ∧
    (summaryOf (viewItems cols s userId)).subtotal = toFixed2 (viewSubtotal cols s userId) ∧
    (summaryOf (viewItems cols s userId)).tax =
      toFixed2 (viewSubtotal cols s userId * (8 / 100)) ∧
    (summaryOf (viewItems cols s userId)).total =
      toFixed2 (viewSubtotal cols s userId + viewSubtotal cols s userId * (8 / 100)) ∧
    (0 ≤ viewSubtotal cols s userId →
      (summaryOf (viewItems cols s userId)).subtotal =
        roundHalfUp2 (viewSubtotal cols s userId) ∧
      (summaryOf (viewItems cols s userId)).tax =
        roundHalfUp2 (viewSubtotal cols s userId * (8 / 100)) ∧
      (summaryOf (viewItems cols s userId)).total =
        roundHalfUp2 (viewSubtotal cols s userId + viewSubtotal cols s userId * (8 / 100))) := by
  obtain ⟨n, hn⟩ := getCart_noFailure cols s userId
  obtain ⟨h1, h2, h3⟩ := summaryOf_viewItems cols s userId
  refine ⟨by rw [hn], ?_, h1, h2, h3, ?_⟩
  · intro item hitem
    obtain ⟨row, _, rfl⟩ := List.mem_map.mp hitem
    exact ⟨unitPrice_eq_modifiersOf s row.toCartRow, rfl⟩
  · intro hpos
    have ht : 0 ≤ viewSubtotal cols s userId * (8 / 100) := mul_nonneg hpos (by norm_num)
    rw [h1, h2, h3, toFixed2_of_nonneg hpos, toFixed2_of_nonneg ht,
      toFixed2_of_nonneg (add_nonneg hpos ht)]
    exact ⟨rfl, rfl, rfl⟩

theorem viewSubtotal_centsStore : viewSubtotal exampleColumns centsStore 1 = 499 / 100 := by
  have hrows : selectCartView exampleColumns 1 centsStore =
      [⟨1, 1, 2, 1, none, "Mocha", 499 / 100, 3, "Coffee"⟩] := by rfl
  simp [viewSubtotal, viewItems, hrows, toViewItem, CartViewRow.toCartRow, unitPrice_none]

theorem getCart_summary_witness :
    0 ≤ viewSubtotal exampleColumns centsStore 1 ∧
    (summaryOf (viewItems exampleColumns centsStore 1)).subtotal = 499 / 100 ∧
    (summaryOf (viewItems exampleColumns centsStore 1)).tax = 40 / 100 ∧
    (summaryOf (viewItems exampleColumns centsStore 1)).total = 539 / 100 := by
  have hpos : 0 ≤ viewSubtotal exampleColumns centsStore 1 := by
    rw [viewSubtotal_centsStore]; norm_num
  obtain ⟨h1, h2, h3⟩ := (getCart_summary exampleColumns centsStore 1).2.2.2.2.2 hpos
  rw [viewSubtotal_centsStore] at h1 h2 h3
  refine ⟨hpos, ?_, ?_, ?_⟩
  · rw [h1]
    have := roundHalfUp2_eq (499 / 100) 499 (by norm_num) (by norm_num)
    rw [this]; norm_num
  · rw [h2]
    have := roundHalfUp2_eq (499 / 100 * (8 / 100)) 40 (by norm_num) (by norm_num)
    rw [this]; norm_num
  · rw [h3]
    have := roundHalfUp2_eq (499 / 100 + 499 / 100 * (8 / 100)) 539 (by norm_num) (by norm_num)
    rw [this]; norm_num

theorem map_eq_singleton_of_length_one {α β : Type} (l : List α) (g : α → β) (b : β)
    (h : l.length = 1) (hg : ∀ a, g a = b) : l.map g = [b] := by
  match l, h with
  | [a], _ => simp [hg]

theorem flatMap_singleton_map {α β : Type} (l : List α) (f : α → β) :
    (l.flatMap fun a => [f a]) = l.map f := by
  induction l with
  | nil => rfl
  | cons a t ih => simp [List.flatMap_cons, ih]

theorem selectCartView_toCartRow (cols : ViewColumns) (s : Db) (userId : Nat)
    (hcat : ∀ ci ∈ s.cart_items, ci.user_id = userId →
      ∀ p ∈ s.products, p.id = ci.product_id → p.is_active = true →
        (cols.categories.filter fun c => decide (cols.category_id p = some c.id)).length = 1) :
    (selectCartView cols userId s).map CartViewRow.toCartRow =
      (s.cart_items.insertionSort fun a b => cols.created_at b ≤ cols.created_at a).flatMap
        fun ci =>
          (s.products.filter fun p =>
            decide (ci.product_id = p.id) && decide (ci.user_id = userId) && p.is_active).map
            (joinRow ci) := by
  unfold selectCartView
  rw [List.map_flatMap]
  apply List.flatMap_congr
  intro ci hci
  have hci2 : ci ∈ s.cart_items := (List.perm_insertionSort _ _).mem_iff.mp hci
  rw [List.map_flatMap, ← flatMap_singleton_map]
  apply List.flatMap_congr
  intro p hp
  obtain ⟨hp1, hp2⟩ := List.mem_filter.mp hp
  simp only [Bool.and_eq_true, decide_eq_true_eq] at hp2
  rw [List.map_map]
  exact map_eq_singleton_of_length_one _ _ (joinRow ci p)
    (hcat ci hci2 hp2.1.2 p hp1 hp2.1.1.symm hp2.2) fun _ => rfl

theorem selectCartView_perm (cols : ViewColumns) (s : Db) (userId : Nat)
    (hcat : ∀ ci ∈ s.cart_items, ci.user_id = userId →
      ∀ p ∈ s.products, p.id = ci.product_id → p.is_active = true →
        (cols.categories.filter fun c => decide (cols.category_id p = some c.id)).length = 1) :
    List.Perm ((selectCartView cols userId s).map CartViewRow.toCartRow)
      (selectCartItems userId s) := by
  rw [selectCartView_toCartRow cols s userId hcat]
  exact List.Perm.flatMap_right _ (List.perm_insertionSort _ _)

theorem viewSubtotal_eq_subtotalOf (cols : ViewColumns) (s : Db) (userId : Nat)
    (hcat : ∀ ci ∈ s.cart_items, ci.user_id = userId →
      ∀ p ∈ s.products, p.id = ci.product_id → p.is_active = true →
        (cols.categories.filter fun c => decide (cols.category_id p = some c.id)).length = 1) :
    viewSubtotal cols s userId = subtotalOf s (selectCartItems userId s) := by
  have hperm := selectCartView_perm cols s userId hcat
  have h1 : viewSubtotal cols s userId =
      (((selectCartView cols userId s).map CartViewRow.toCartRow).map fun item =>
        unitPrice s item * item.quantity).sum := by
    simp only [viewSubtotal, viewItems, List.map_map]
    rfl
  rw [h1]
  exact (hperm.map _).sum_eq

theorem roundHalfUp2_zero : roundHalfUp2 0 = 0 := by
  have := roundHalfUp2_eq 0 0 (by norm_num) (by norm_num)
  rw [this]; norm_num

/-- Why the agreement of the cart view with order placement asks for the
category rows: were the `category_id` of a product `NULL`, the join with
`categories` would leave its lines out of the view. User 1 holds one Mocha at
4.99; with no category the view would answer with no item and a summary total
of 0, while order placement prices the line. -/
theorem getCart_without_category_example :
    (getCart noFailure noCategoryColumns centsStore 1).response =
      ⟨200, Body.cart [] ⟨0, 0, 0, 0⟩⟩ ∧
    (createOrder noFailure centsStore 1 cashRequest).response.body =
      Body.orderCreated 1 (499 / 100 + 499 / 100 * (8 / 100)) PaymentStatus.completed ∧
    toFixed2 (499 / 100 + 499 / 100 * (8 / 100)) = 539 / 100 := by
  have hrows : selectCartView noCategoryColumns 1 centsStore = [] := by rfl
  have hitems : viewItems noCategoryColumns centsStore 1 = [] := by
    simp [viewItems, hrows]
  have hzero : toFixed2 0 = 0 := by
    rw [toFixed2_of_nonneg (le_refl 0), roundHalfUp2_zero]
  obtain ⟨n, hn⟩ := getCart_noFailure noCategoryColumns centsStore 1
  have hst : (createOrder noFailure centsStore 1 cashRequest).response.status = 201 := by decide
  obtain ⟨hr, _, _⟩ := createOrder_created hst
  have hsel : selectCartItems 1 centsStore = [⟨1, 1, 2, 1, none, "Mocha", 499 / 100, 3⟩] := by
    rfl
  have hsub : subtotalOf centsStore (selectCartItems 1 centsStore) = 499 / 100 := by
    rw [hsel]
    simp [subtotalOf, unitPrice_none]
  refine ⟨?_, ?_, ?_⟩
  · rw [hn, hitems]
    simp [summaryOf, hzero]
  · rw [hr, hsub]
    have hid : insertId centsStore = 1 := by decide
    have hpay : paymentStatus cashRequest = PaymentStatus.completed := by decide
    rw [hid, hpay]
  · rw [toFixed2_of_nonneg (by norm_num)]
    have := roundHalfUp2_eq (499 / 100 + 499 / 100 * (8 / 100)) 539 (by norm_num) (by norm_num)
    rw [this]; norm_num

/-- Claim C27: on a store where every active product that a cart line of the
caller names has its row of `categories` (the foreign key of
`products.category_id`), the cart view and order placement agree. The view
resolves the price of a row by the computation order placement uses; its rows
are, up to their order, the rows order placement reads, with the same unit
price for each line; its summary total is the 2-decimal value of
subtotal + subtotal × 0.08 for the subtotal of order placement, that is, of
the total amount of any placement that succeeds on that store. -/
theorem getCart_agrees_with_createOrder (cols : ViewColumns) (s : Db) (userId : Nat)
    (hcat : ∀ ci ∈ s.cart_items, ci.user_id = userId →
      ∀ p ∈ s.products, p.id = ci.product_id → p.is_active = true →
        (cols.categories.filter fun c => decide (cols.category_id p = some c.id)).length = 1) :
    (∀ (fails : Oracle) (row : CartViewRow) (c : Connection),
      resolveTotalPrice fails row c = resolveUnitPrice fails row.toCartRow c) ∧
    List.Perm ((selectCartView cols userId s).map CartViewRow.toCartRow)
      (selectCartItems userId s) ∧
    List.Perm ((viewItems cols s userId).map fun item => (item.id, item.unit_price))
      ((selectCartItems userId s).map fun row => (row.id, unitPrice s row)) ∧
    (summaryOf (viewItems cols s userId)).total =
      toFixed2 (subtotalOf s (selectCartItems userId s) +
        subtotalOf s (selectCartItems userId s) * (8 / 100)) ∧
    ∀ (fails : Oracle) (req : Request),
      (createOrder fails s userId req).response.status = 201 →
      ∃ orderId totalAmount status,
        (createOrder fails s userId req).response.body =
          Body.orderCreated orderId totalAmount status ∧
        (summaryOf (viewItems cols s userId)).total = toFixed2 totalAmount := by
  have hperm := selectCartView_perm cols s userId hcat
  have htotal : (summaryOf (viewItems cols s userId)).total =
      toFixed2 (subtotalOf s (selectCartItems userId s) +
        subtotalOf s (selectCartItems userId s) * (8 / 100)) := by
    rw [(summaryOf_viewItems cols s userId).2.2, viewSubtotal_eq_subtotalOf cols s userId hcat]
  refine ⟨resolveTotalPrice_eq, hperm, ?_, htotal, ?_⟩
  · have h1 : (viewItems cols s userId).map (fun item => (item.id, item.unit_price)) =
        ((selectCartView cols userId s).map CartViewRow.toCartRow).map
          fun row => (row.id, unitPrice s row) := by
      simp only [viewItems, List.map_map]
      rfl
    rw [h1]
    exact hperm.map _
  · intro fails req h201
    obtain ⟨hr, _, _⟩ := createOrder_created h201
    exact ⟨_, _, _, by rw [hr], htotal⟩

theorem getCart_agrees_with_createOrder_witness :
    (createOrder noFailure exampleStore 7 cashRequest).response.status = 201 ∧
    ∃ orderId totalAmount status,
      (createOrder noFailure exampleStore 7 cashRequest).response.body =
        Body.orderCreated orderId totalAmount status ∧
      (summaryOf (viewItems exampleColumns exampleStore 7)).total = toFixed2 totalAmount :=
  ⟨by decide,
    (getCart_agrees_with_createOrder exampleColumns exampleStore 7 (by decide)).2.2.2.2
      noFailure cashRequest (by decide)⟩

/-! ## Whole cents -/

theorem isCents_add {x y : ℚ} (hx : IsCents x) (hy : IsCents y) : IsCents (x + y) := by
  obtain ⟨a, rfl⟩ := hx
  obtain ⟨b, rfl⟩ := hy
  exact ⟨a + b, by push_cast; ring⟩

theorem isCents_mul_int {x : ℚ} (hx : IsCents x) (n : ℤ) : IsCents (x * n) := by
  obtain ⟨a, rfl⟩ := hx
  exact ⟨a * n, by push_cast; ring⟩

theorem isCents_sum (l : List ℚ) (h : ∀ x ∈ l, IsCents x) : IsCents l.sum := by
  induction l with
  | nil => exact ⟨0, by simp⟩
  | cons a t ih =>
    rw [List.sum_cons]
    exact isCents_add (h a (List.mem_cons_self _ _))
      (ih fun x hx => h x (List.mem_cons_of_mem _ hx))

theorem roundHalfUp2_cents_add (k : ℤ) (t : ℚ) :
    roundHalfUp2 ((k : ℚ) / 100 + t) = (k : ℚ) / 100 + roundHalfUp2 t := by
  unfold roundHalfUp2
  have h : ((k : ℚ) / 100 + t) * 100 + 1 / 2 = (k : ℚ) + (t * 100 + 1 / 2) := by ring
  rw [h, Int.floor_int_add]
  push_cast
  ring

theorem roundHalfUp2_cents (k : ℤ) : roundHalfUp2 ((k : ℚ) / 100) = (k : ℚ) / 100 := by
  have := roundHalfUp2_cents_add k 0
  rw [add_zero, roundHalfUp2_zero, add_zero] at this
  exact this

theorem toFixed2_cents_total (x : ℚ) (hx : IsCents x) :
    toFixed2 (x + x * (8 / 100)) = toFixed2 x + toFixed2 (x * (8 / 100)) := by
  obtain ⟨k, rfl⟩ := hx
  by_cases hneg : (k : ℚ) / 100 < 0
  · have ht : (k : ℚ) / 100 * (8 / 100) < 0 := mul_neg_of_neg_of_pos hneg (by norm_num)
    have hs : (k : ℚ) / 100 + (k : ℚ) / 100 * (8 / 100) < 0 := add_neg hneg ht
    unfold toFixed2
    rw [if_pos hs, if_pos hneg, if_pos ht]
    have h1 : -((k : ℚ) / 100 + (k : ℚ) / 100 * (8 / 100)) =
        ((-k : ℤ) : ℚ) / 100 + -((k : ℚ) / 100 * (8 / 100)) := by push_cast; ring
    have h2 : -((k : ℚ) / 100) = ((-k : ℤ) : ℚ) / 100 := by push_cast; ring
    rw [h1, roundHalfUp2_cents_add, h2, roundHalfUp2_cents]
    ring
  · have hpos : 0 ≤ (k : ℚ) / 100 := not_lt.mp hneg
    have ht : 0 ≤ (k : ℚ) / 100 * (8 / 100) := mul_nonneg hpos (by norm_num)
    rw [toFixed2_of_nonneg hpos, toFixed2_of_nonneg ht, toFixed2_of_nonneg (add_nonneg hpos ht),
      roundHalfUp2_cents_add, roundHalfUp2_cents]

theorem mem_selectCartView_product (cols : ViewColumns) (s : Db) (userId : Nat)
    (row : CartViewRow) (h : row ∈ selectCartView cols userId s) :
    ∃ p ∈ s.products, row.base_price = p.base_price := by
  simp only [selectCartView, List.mem_flatMap, List.mem_map, List.mem_filter] at h
  obtain ⟨ci, _, p, ⟨hp, _⟩, c, _, rfl⟩ := h
  exact ⟨p, hp, rfl⟩

theorem isCents_viewSubtotal (cols : ViewColumns) (s : Db) (userId : Nat)
    (hprice : ∀ p ∈ s.products, IsCents p.base_price)
    (hmod : ∀ v ∈ s.product_variants, IsCents v.price_modifier) :
    IsCents (viewSubtotal cols s userId) := by
  unfold viewSubtotal viewItems
  apply isCents_sum
  intro x hx
  simp only [List.map_map, List.mem_map, Function.comp] at hx
  obtain ⟨row, hrow, rfl⟩ := hx
  obtain ⟨p, hp, hbase⟩ := mem_selectCartView_product cols s userId row hrow
  have hunit : IsCents (unitPrice s row.toCartRow) := by
    rw [unitPrice_eq_modifiersOf]
    apply isCents_add
    · show IsCents row.base_price
      rw [hbase]; exact hprice p hp
    · unfold modifiersOf
      apply isCents_sum
      intro y hy
      obtain ⟨v, hv, rfl⟩ := List.mem_map.mp hy
      exact hmod v (List.mem_filter.mp hv).1
  exact isCents_mul_int hunit _

/-- Claim C28: when the base price of every product and the price modifier of
every variant is a whole number of cents, the summary the cart view answers
with, when the storage does not throw, satisfies total = subtotal + tax in
exact arithmetic. -/
theorem getCart_summary_consistent (cols : ViewColumns) (s : Db) (userId : Nat)
    (hprice : ∀ p ∈ s.products, IsCents p.base_price)
    (hmod : ∀ v ∈ s.product_variants, IsCents v.price_modifier) :
    ∃ items summary,
      (getCart noFailure cols s userId).response = ⟨200, Body.cart items summary⟩ ∧
      summary.total = summary.subtotal + summary.tax := by
  obtain ⟨n, hn⟩ := getCart_noFailure cols s userId
  obtain ⟨h1, h2, h3⟩ := summaryOf_viewItems cols s userId
  refine ⟨viewItems cols s userId, summaryOf (viewItems cols s userId), by rw [hn], ?_⟩
  rw [h1, h2, h3]
  exact toFixed2_cents_total _ (isCents_viewSubtotal cols s userId hprice hmod)

theorem getCart_summary_consistent_witness :
    ∃ items summary,
      (getCart noFailure exampleColumns centsStore 1).response =
        ⟨200, Body.cart items summary⟩ ∧
      summary.total = summary.subtotal + summary.tax :=
  getCart_summary_consistent exampleColumns centsStore 1
    (fun p hp => by
      simp only [centsStore, List.mem_singleton] at hp
      subst hp
      exact ⟨499, by norm_num⟩)
    (fun v hv => by
      simp only [centsStore, List.not_mem_nil] at hv)

/-! ## Order placement, stated on the tables

The cart query of order placement joins the cart lines of the caller with
their active products. The statements below speak of the rows of `cart_items`
and `products` themselves. -/

theorem selectCartItems_ne_nil_iff (userId : Nat) (s : Db) :
    selectCartItems userId s ≠ [] ↔
      ∃ ci ∈ s.cart_items, ci.user_id = userId ∧
        ∃ p ∈ s.products, p.id = ci.product_id ∧ p.is_active = true := by
  constructor
  · intro h
    obtain ⟨row, hrow⟩ := List.exists_mem_of_ne_nil _ h
    obtain ⟨ci, hci, p, hp, hid, hu, hact, _⟩ := (mem_selectCartItems userId s row).mp hrow
    exact ⟨ci, hci, hu, p, hp, hid.symm, hact⟩
  · rintro ⟨ci, hci, hu, p, hp, hid, hact⟩ hnil
    have hmem : joinRow ci p ∈ selectCartItems userId s :=
      (mem_selectCartItems userId s _).mpr ⟨ci, hci, p, hp, hid.symm, hu, hact, rfl⟩
    rw [hnil] at hmem
    cases hmem

theorem selectCartItems_eq_nil_iff (userId : Nat) (s : Db) :
    selectCartItems userId s = [] ↔
      ∀ ci ∈ s.cart_items, ci.user_id = userId →
        ∀ p ∈ s.products, p.id = ci.product_id → p.is_active = false := by
  constructor
  · intro hnil ci hci hu p hp hid
    by_contra hact
    have hact2 : p.is_active = true := by simpa using hact
    exact (selectCartItems_ne_nil_iff userId s).mpr ⟨ci, hci, hu, p, hp, hid, hact2⟩ hnil
  · intro hall
    by_contra hne
    obtain ⟨ci, hci, hu, p, hp, hid, hact⟩ := (selectCartItems_ne_nil_iff userId s).mp hne
    rw [hall ci hci hu p hp hid] at hact
    cases hact

theorem selectCartItems_within_stock_iff (userId : Nat) (s : Db) :
    (∀ item ∈ selectCartItems userId s, item.quantity ≤ item.stock_quantity) ↔
      ∀ ci ∈ s.cart_items, ci.user_id = userId →
        ∀ p ∈ s.products, p.id = ci.product_id → p.is_active = true →
          ci.quantity ≤ p.stock_quantity := by
  constructor
  · intro h ci hci hu p hp hid hact
    exact h (joinRow ci p)
      ((mem_selectCartItems userId s _).mpr ⟨ci, hci, p, hp, hid.symm, hu, hact, rfl⟩)
  · intro h item hitem
    obtain ⟨ci, hci, p, hp, hid, hu, hact, rfl⟩ := (mem_selectCartItems userId s item).mp hitem
    exact h ci hci hu p hp hid.symm hact

theorem selectCartItems_over_stock_iff (userId : Nat) (s : Db) (response : Response) :
    (∃ item ∈ selectCartItems userId s, item.stock_quantity < item.quantity ∧
      response = ⟨400, Body.error
        (ErrorMessage.insufficientStock item.name item.stock_quantity item.quantity)⟩) ↔
      ∃ ci ∈ s.cart_items, ci.user_id = userId ∧
        ∃ p ∈ s.products, p.id = ci.product_id ∧ p.is_active = true ∧
          p.stock_quantity < ci.quantity ∧
          response = ⟨400, Body.error
            (ErrorMessage.insufficientStock p.name p.stock_quantity ci.quantity)⟩ := by
  constructor
  · rintro ⟨item, hitem, hlt, hr⟩
    obtain ⟨ci, hci, p, hp, hid, hu, hact, rfl⟩ := (mem_selectCartItems userId s item).mp hitem
    exact ⟨ci, hci, hu, p, hp, hid.symm, hact, hlt, hr⟩
  · rintro ⟨ci, hci, hu, p, hp, hid, hact, hlt, hr⟩
    exact ⟨joinRow ci p,
      (mem_selectCartItems userId s _).mpr ⟨ci, hci, p, hp, hid.symm, hu, hact, rfl⟩, hlt, hr⟩

theorem selectCartItems_some_over_stock_iff (userId : Nat) (s : Db) :
    (∃ item ∈ selectCartItems userId s, item.stock_quantity < item.quantity) ↔
      ∃ ci ∈ s.cart_items, ci.user_id = userId ∧
        ∃ p ∈ s.products, p.id = ci.product_id ∧ p.is_active = true ∧
          p.stock_quantity < ci.quantity := by
  constructor
  · rintro ⟨item, hitem, hlt⟩
    obtain ⟨ci, hci, p, hp, hid, hu, hact, rfl⟩ := (mem_selectCartItems userId s item).mp hitem
    exact ⟨ci, hci, hu, p, hp, hid.symm, hact, hlt⟩
  · rintro ⟨ci, hci, hu, p, hp, hid, hact, hlt⟩
    exact ⟨joinRow ci p,
      (mem_selectCartItems userId s _).mpr ⟨ci, hci, p, hp, hid.symm, hu, hact, rfl⟩, hlt⟩

/-- Claim C4, as stated, fails: user 7 holds one Latte, an active product, and
fifty Chai, an inactive product with ten in stock. The cart has a line whose
quantity exceeds the stock of its product, yet the placement succeeds: the
stock of the Latte goes from 5 to 4, an order with one order line is created
and the cart of user 7 is emptied. -/
theorem over_stock_inactive_line_example :
    (∃ ci ∈ mixedStore.cart_items, ci.user_id = 7 ∧
      ∃ p ∈ mixedStore.products, p.id = ci.product_id ∧ p.stock_quantity < ci.quantity) ∧
    (createOrder noFailure mixedStore 7 cashRequest).response.status = 201 ∧
    (createOrder noFailure mixedStore 7 cashRequest).db.products.map
      (fun p => (p.id, p.stock_quantity)) = [(1, 4), (3, 10)] ∧
    (createOrder noFailure mixedStore 7 cashRequest).db.cart_items = [] ∧
    (createOrder noFailure mixedStore 7 cashRequest).db.orders.map (fun o => o.id) = [1] ∧
    (createOrder noFailure mixedStore 7 cashRequest).db.order_items.map
      (fun row => (row.order_id, row.product_id, row.quantity)) = [(1, 1, 1)] := by
  decide

/-- Claim C4, amended: when a cart line of the caller whose product is active
asks for more than the stock of that product, a request with payment method
card or cash is answered 400 with the insufficient-stock error of such a
line, and the store (product stock, cart, orders and order lines included) is
as before the call. -/
theorem createOrder_over_stock (s : Db) (userId : Nat) (req : Request)
    (hmethod : req.payment_method = "card" ∨ req.payment_method = "cash")
    (hshort : ∃ ci ∈ s.cart_items, ci.user_id = userId ∧
      ∃ p ∈ s.products, p.id = ci.product_id ∧ p.is_active = true ∧
        p.stock_quantity < ci.quantity) :
    (∃ ci ∈ s.cart_items, ci.user_id = userId ∧
      ∃ p ∈ s.products, p.id = ci.product_id ∧ p.is_active = true ∧
        p.stock_quantity < ci.quantity ∧
        (createOrder noFailure s userId req).response =
          ⟨400, Body.error
            (ErrorMessage.insufficientStock p.name p.stock_quantity ci.quantity)⟩) ∧
    (createOrder noFailure s userId req).db = s := by
  obtain ⟨h1, h2⟩ := createOrder_insufficientStock s userId req hmethod
    ((selectCartItems_some_over_stock_iff userId s).mpr hshort)
  exact ⟨(selectCartItems_over_stock_iff userId s _).mp h1, h2⟩

theorem createOrder_over_stock_witness :
    (∃ ci ∈ shortStore.cart_items, ci.user_id = 7 ∧
      ∃ p ∈ shortStore.products, p.id = ci.product_id ∧ p.is_active = true ∧
        p.stock_quantity < ci.quantity ∧
        (createOrder noFailure shortStore 7 cashRequest).response =
          ⟨400, Body.error
            (ErrorMessage.insufficientStock p.name p.stock_quantity ci.quantity)⟩) ∧
    (createOrder noFailure shortStore 7 cashRequest).db = shortStore :=
  createOrder_over_stock shortStore 7 cashRequest (Or.inr rfl) (by decide)

/-- Claim C5, as stated, fails: the cart of user 8 holds one Chai, of which
ten are in stock, so the cart is not empty and fully in stock. The Chai is
inactive, and the request with the declined card number is answered
'Cart is empty', not with the payment-declined error. -/
theorem declined_card_inactive_cart_example :
    (∃ ci ∈ inactiveStore.cart_items, ci.user_id = 8) ∧
    (∀ ci ∈ inactiveStore.cart_items, ci.user_id = 8 →
      ∀ p ∈ inactiveStore.products, p.id = ci.product_id → ci.quantity ≤ p.stock_quantity) ∧
    (createOrder noFailure inactiveStore 8 declinedCardRequest).response =
      ⟨400, Body.error ErrorMessage.cartIsEmpty⟩ := by
  decide

/-- Claim C5, amended: when the cart of the caller holds a line of an active
product and every line of an active product is within the stock of that
product, a request with payment method card and card number 4000000000000002
is answered 400 'Payment failed. Please try again.', and the store is as
before the call: no stock is decremented, no order or order line is created
and the cart is unchanged. -/
theorem createOrder_declined (s : Db) (userId : Nat) (req : Request)
    (hmethod : req.payment_method = "card")
    (hcard : req.payment_details = some ⟨some "4000000000000002"⟩)
    (hline : ∃ ci ∈ s.cart_items, ci.user_id = userId ∧
      ∃ p ∈ s.products, p.id = ci.product_id ∧ p.is_active = true)
    (hstock : ∀ ci ∈ s.cart_items, ci.user_id = userId →
      ∀ p ∈ s.products, p.id = ci.product_id → p.is_active = true →
        ci.quantity ≤ p.stock_quantity) :
    (createOrder noFailure s userId req).response =
      ⟨400, Body.error ErrorMessage.paymentFailed⟩ ∧
    (createOrder noFailure s userId req).db = s :=
  createOrder_paymentDeclined s userId req hmethod hcard
    ((selectCartItems_ne_nil_iff userId s).mpr hline)
    ((selectCartItems_within_stock_iff userId s).mpr hstock)

theorem createOrder_declined_witness :
    (createOrder noFailure exampleStore 7 declinedCardRequest).response =
      ⟨400, Body.error ErrorMessage.paymentFailed⟩ ∧
    (createOrder noFailure exampleStore 7 declinedCardRequest).db = exampleStore :=
  createOrder_declined exampleStore 7 declinedCardRequest rfl rfl (by decide) (by decide)

/-- Claim C14, as stated, fails: user 7 holds one Latte, an active product,
and fifty Chai, an inactive product with ten in stock. The cart has a line
exceeding stock, yet the request with the declined card number is answered
with the payment-declined error, not with the insufficient-stock error. -/
theorem declined_card_over_stock_example :
    (∃ ci ∈ mixedStore.cart_items, ci.user_id = 7 ∧
      ∃ p ∈ mixedStore.products, p.id = ci.product_id ∧ p.stock_quantity < ci.quantity) ∧
    (createOrder noFailure mixedStore 7 declinedCardRequest).response =
      ⟨400, Body.error ErrorMessage.paymentFailed⟩ := by
  decide

/-- Claim C14, amended: the stages run in the order empty-cart check,
per-line validation, payment, commit, over the cart lines of the caller whose
product is active. For a request with payment method card or cash, also one
that carries the declined card number, and a storage that does not throw: a
cart with no line of an active product is answered with the empty-cart error;
a cart with a line of an active product over its stock is answered with the
insufficient-stock error of such a line; the payment-failed error is the
answer exactly when the cart has a line of an active product, every such line
is within stock and the payment is declined; and the order is committed (201)
exactly when the cart has such a line, every such line is within stock and
the payment is not declined. -/
theorem createOrder_stages (s : Db) (userId : Nat) (req : Request)
    (hmethod : req.payment_method = "card" ∨ req.payment_method = "cash") :
    ((∀ ci ∈ s.cart_items, ci.user_id = userId →
        ∀ p ∈ s.products, p.id = ci.product_id → p.is_active = false) →
      (createOrder noFailure s userId req).response =
        ⟨400, Body.error ErrorMessage.cartIsEmpty⟩) ∧
    ((∃ ci ∈ s.cart_items, ci.user_id = userId ∧
        ∃ p ∈ s.products, p.id = ci.product_id ∧ p.is_active = true ∧
          p.stock_quantity < ci.quantity) →
      ∃ ci ∈ s.cart_items, ci.user_id = userId ∧
        ∃ p ∈ s.products, p.id = ci.product_id ∧ p.is_active = true ∧
          p.stock_quantity < ci.quantity ∧
          (createOrder noFailure s userId req).response =
            ⟨400, Body.error
              (ErrorMessage.insufficientStock p.name p.stock_quantity ci.quantity)⟩) ∧
    ((createOrder noFailure s userId req).response =
        ⟨400, Body.error ErrorMessage.paymentFailed⟩ ↔
      (∃ ci ∈ s.cart_items, ci.user_id = userId ∧
        ∃ p ∈ s.products, p.id = ci.product_id ∧ p.is_active = true) ∧
      (∀ ci ∈ s.cart_items, ci.user_id = userId →
        ∀ p ∈ s.products, p.id = ci.product_id → p.is_active = true →
          ci.quantity ≤ p.stock_quantity) ∧
      paymentStatus req = PaymentStatus.failed) ∧
    ((createOrder noFailure s userId req).response.status = 201 ↔
      (∃ ci ∈ s.cart_items, ci.user_id = userId ∧
        ∃ p ∈ s.products, p.id = ci.product_id ∧ p.is_active = true) ∧
      (∀ ci ∈ s.cart_items, ci.user_id = userId →
        ∀ p ∈ s.products, p.id = ci.product_id → p.is_active = true →
          ci.quantity ≤ p.stock_quantity) ∧
      paymentStatus req ≠ PaymentStatus.failed) := by
  obtain ⟨h1, h2, h3, h4⟩ := createOrder_stage_order s userId req hmethod
  refine ⟨fun h => h1 ((selectCartItems_eq_nil_iff userId s).mpr h), ?_, ?_, ?_⟩
  · intro h
    exact (selectCartItems_over_stock_iff userId s _).mp
      (h2 ((selectCartItems_some_over_stock_iff userId s).mpr h))
  · rw [h3, selectCartItems_ne_nil_iff, selectCartItems_within_stock_iff]
  · rw [h4, selectCartItems_ne_nil_iff, selectCartItems_within_stock_iff]

theorem createOrder_stages_witness :
    (createOrder noFailure exampleStore 9 declinedCardRequest).response =
      ⟨400, Body.error ErrorMessage.cartIsEmpty⟩ ∧
    (∃ ci ∈ shortStore.cart_items, ci.user_id = 7 ∧
      ∃ p ∈ shortStore.products, p.id = ci.product_id ∧ p.is_active = true ∧
        p.stock_quantity < ci.quantity ∧
        (createOrder noFailure shortStore 7 declinedCardRequest).response =
          ⟨400, Body.error
            (ErrorMessage.insufficientStock p.name p.stock_quantity ci.quantity)⟩) ∧
    (createOrder noFailure exampleStore 7 declinedCardRequest).response =
      ⟨400, Body.error ErrorMessage.paymentFailed⟩ :=
  ⟨(createOrder_stages exampleStore 9 declinedCardRequest (Or.inl rfl)).1 (by decide),
    (createOrder_stages shortStore 7 declinedCardRequest (Or.inl rfl)).2.1 (by decide),
    (createOrder_stages exampleStore 7 declinedCardRequest (Or.inl rfl)).2.2.1.mpr
      ⟨by decide, by decide, by decide⟩⟩

/-- Claim C8, amended: order placement does not check variant references.
With payment method card or cash, a cart that holds a line of an active
product and whose lines of active products are all within stock, a payment
that is not declined and a storage that does not throw, the placement
succeeds whatever variant ids the customizations list; and the order line of
a customized cart line has, as unit price, the base price of the product plus
the price modifiers of the rows of `product_variants` whose id is listed,
whatever the product and the activity of those rows. -/
theorem createOrder_variants_unchecked (s : Db) (userId : Nat) (req : Request)
    (hmethod : req.payment_method = "card" ∨ req.payment_method = "cash")
    (hline : ∃ ci ∈ s.cart_items, ci.user_id = userId ∧
      ∃ p ∈ s.products, p.id = ci.product_id ∧ p.is_active = true)
    (hstock : ∀ ci ∈ s.cart_items, ci.user_id = userId →
      ∀ p ∈ s.products, p.id = ci.product_id → p.is_active = true →
        ci.quantity ≤ p.stock_quantity)
    (hpay : paymentStatus req ≠ PaymentStatus.failed) :
    (createOrder noFailure s userId req).response.status = 201 ∧
    ∀ ci ∈ s.cart_items, ci.user_id = userId →
      ∀ p ∈ s.products, p.id = ci.product_id → p.is_active = true →
        ∀ cz : Customizations, ci.customizations = some cz →
          ({ order_id := insertId s, product_id := ci.product_id, quantity := ci.quantity,
             unit_price := p.base_price +
               ((s.product_variants.filter fun v => decide (v.id ∈ cz.variants)).map fun v =>
                 v.price_modifier).sum,
             customizations := some cz } : OrderItem) ∈
            (createOrder noFailure s userId req).db.order_items := by
  have hst := (createOrder_ignores_variant_validity s userId req hmethod
    ((selectCartItems_ne_nil_iff userId s).mpr hline)
    ((selectCartItems_within_stock_iff userId s).mpr hstock) hpay).1
  refine ⟨hst, ?_⟩
  intro ci hci hu p hp hid hact cz hcz
  obtain ⟨_, hdb, _⟩ := createOrder_created hst
  rw [hdb]
  show _ ∈ s.order_items ++
    ((selectCartItems userId s).map (toOrderLine s)).map (toOrderItem (insertId s))
  apply List.mem_append_right
  rw [List.map_map]
  refine List.mem_map.mpr ⟨joinRow ci p,
    (mem_selectCartItems userId s _).mpr ⟨ci, hci, p, hp, hid.symm, hu, hact, rfl⟩, ?_⟩
  have hprice := unitPrice_variants s (joinRow ci p) cz hcz
  simp only [Function.comp, toOrderItem, toOrderLine, hprice]
  simp [joinRow, hcz]

theorem createOrder_variants_unchecked_witness :
    (createOrder noFailure unknownVariantStore 7 cashRequest).response.status = 201 ∧
    ∀ ci ∈ unknownVariantStore.cart_items, ci.user_id = 7 →
      ∀ p ∈ unknownVariantStore.products, p.id = ci.product_id → p.is_active = true →
        ∀ cz : Customizations, ci.customizations = some cz →
          ({ order_id := insertId unknownVariantStore, product_id := ci.product_id,
             quantity := ci.quantity,
             unit_price := p.base_price +
               ((unknownVariantStore.product_variants.filter fun v =>
                 decide (v.id ∈ cz.variants)).map fun v => v.price_modifier).sum,
             customizations := some cz } : OrderItem) ∈
            (createOrder noFailure unknownVariantStore 7 cashRequest).db.order_items :=
  createOrder_variants_unchecked unknownVariantStore 7 cashRequest (Or.inr rfl)
    (by decide) (by decide) (by decide)

/-! ## The order lines of a placement -/

theorem filter_length_le_one_of_ids (products : List Product) (q : Product → Bool) (x : Nat)
    (hids : products.Pairwise fun a b => a.id ≠ b.id)
    (hq : ∀ p, q p = true → p.id = x) : (products.filter q).length ≤ 1 := by
  induction products with
  | nil => simp
  | cons p t ih =>
    obtain ⟨hp, ht⟩ := List.pairwise_cons.mp hids
    by_cases hqp : q p = true
    · have hnil : t.filter q = [] := by
        apply List.filter_eq_nil_iff.mpr
        intro b hb hqb
        exact hp b hb ((hq p hqp).trans (hq b hqb).symm)
      rw [List.filter_cons_of_pos hqp, hnil]
      simp
    · rw [List.filter_cons_of_neg hqp]
      exact ih ht

theorem flatMap_filter_map_const {α β γ : Type} (l : List α) (ps : List β)
    (q : α → β → Bool) (g : α → γ)
    (hone : ∀ a ∈ l, (ps.filter (q a)).length ≤ 1) :
    (l.flatMap fun a => (ps.filter (q a)).map fun _ => g a) =
      (l.filter fun a => ps.any (q a)).map g := by
  induction l with
  | nil => rfl
  | cons a t ih =>
    have iht := ih fun b hb => hone b (List.mem_cons_of_mem _ hb)
    have ha := hone a (List.mem_cons_self _ _)
    rw [List.flatMap_cons, iht]
    cases hf : ps.filter (q a) with
    | nil =>
      have hany : ps.any (q a) = false := by
        rw [List.any_eq_false]
        intro b hb hqb
        have : b ∈ ps.filter (q a) := List.mem_filter.mpr ⟨hb, hqb⟩
        rw [hf] at this
        cases this
      rw [List.filter_cons_of_neg (by simp [hany])]
      rfl
    | cons b rest =>
      have hany : ps.any (q a) = true := by
        rw [List.any_eq_true]
        have : b ∈ ps.filter (q a) := by rw [hf]; exact List.mem_cons_self _ _
        exact ⟨b, (List.mem_filter.mp this).1, (List.mem_filter.mp this).2⟩
      have hrest : rest = [] := by
        rw [hf] at ha
        cases rest with
        | nil => rfl
        | cons c more => simp at ha
      rw [List.filter_cons_of_pos (by simpa using hany), hrest]
      rfl

/-- Claim C15, as stated, fails: user 7 holds two cart lines, one Latte and
fifty Chai. The Chai is inactive; the placement succeeds and creates one
order line, for the Latte, and none for the line of the Chai. -/
theorem fewer_order_lines_example :
    (mixedStore.cart_items.filter fun ci => decide (ci.user_id = 7)).map
      (fun ci => (ci.product_id, ci.quantity)) = [(1, 1), (3, 50)] ∧
    (createOrder noFailure mixedStore 7 cashRequest).response.status = 201 ∧
    (createOrder noFailure mixedStore 7 cashRequest).db.order_items.map
      (fun row => (row.product_id, row.quantity)) = [(1, 1)] := by
  decide

/-- Claim C15, amended: a successful placement appends exactly one row to
`orders`, owned by the caller and keyed by a fresh id, and appends to
`order_items`, for every cart line of the caller and every active product
with the id the line names, in the order of the cart lines, one row with the
id of the new order, the product id, quantity and customization of the cart
line, and the base price of the product plus the modifiers of the variants
the customization lists. With product ids that are unique, that is exactly
one row per cart line of the caller whose product is active. The earlier rows
of both tables are unchanged. -/
theorem createOrder_order_lines (fails : Oracle) (s : Db) (userId : Nat) (req : Request)
    (h : (createOrder fails s userId req).response.status = 201) :
    (∃ order : Order,
      (createOrder fails s userId req).db.orders = s.orders ++ [order] ∧
      order.user_id = userId ∧ order.id = insertId s ∧
      ∀ o ∈ s.orders, o.id ≠ order.id) ∧
    (createOrder fails s userId req).db.order_items =
      s.order_items ++ s.cart_items.flatMap (fun ci =>
        (s.products.filter fun p =>
          decide (ci.product_id = p.id) && decide (ci.user_id = userId) && p.is_active).map
          fun p =>
            ({ order_id := insertId s, product_id := ci.product_id, quantity := ci.quantity,
               unit_price := p.base_price + modifiersOf s (selectedVariants ci.customizations),
               customizations := ci.customizations } : OrderItem)) ∧
    ((s.products.Pairwise fun a b => a.id ≠ b.id) →
      ((createOrder fails s userId req).db.order_items.drop s.order_items.length).map
          (fun row => (row.order_id, row.product_id, row.quantity, row.customizations)) =
        (s.cart_items.filter fun ci =>
          s.products.any fun p =>
            decide (ci.product_id = p.id) && decide (ci.user_id = userId) && p.is_active).map
          fun ci => (insertId s, ci.product_id, ci.quantity, ci.customizations)) := by
  obtain ⟨hcreates, hitems⟩ := createOrder_creates fails s userId req h
  have hlines : (createOrder fails s userId req).db.order_items =
      s.order_items ++ s.cart_items.flatMap fun ci =>
        (s.products.filter fun p =>
          decide (ci.product_id = p.id) && decide (ci.user_id = userId) && p.is_active).map
          fun p =>
            ({ order_id := insertId s, product_id := ci.product_id, quantity := ci.quantity,
               unit_price := p.base_price + modifiersOf s (selectedVariants ci.customizations),
               customizations := ci.customizations } : OrderItem) := by
    rw [hitems]
    congr 1
    unfold selectCartItems
    rw [List.map_flatMap]
    congr 1
    funext ci
    rw [List.map_map]
    apply List.map_congr_left
    intro p _
    simp only [Function.comp, unitPrice_eq_modifiersOf]
    rfl
  refine ⟨hcreates, hlines, ?_⟩
  intro hids
  rw [hlines, List.drop_left, List.map_flatMap]
  have hone : ∀ ci ∈ s.cart_items,
      (s.products.filter fun p =>
        decide (ci.product_id = p.id) && decide (ci.user_id = userId) && p.is_active).length ≤
        1 := by
    intro ci _
    apply filter_length_le_one_of_ids s.products _ ci.product_id hids
    intro p hp
    simp only [Bool.and_eq_true, decide_eq_true_eq] at hp
    exact hp.1.1.symm
  rw [← flatMap_filter_map_const s.cart_items s.products
    (fun ci p => decide (ci.product_id = p.id) && decide (ci.user_id = userId) && p.is_active)
    (fun ci => (insertId s, ci.product_id, ci.quantity, ci.customizations)) hone]
  congr 1
  funext ci
  rw [List.map_map]
  rfl

theorem createOrder_order_lines_witness :
    (∃ order : Order,
      (createOrder noFailure mixedStore 7 cashRequest).db.orders =
        mixedStore.orders ++ [order] ∧
      order.user_id = 7 ∧ order.id = insertId mixedStore ∧
      ∀ o ∈ mixedStore.orders, o.id ≠ order.id) ∧
    (createOrder noFailure mixedStore 7 cashRequest).db.order_items =
      mixedStore.order_items ++ mixedStore.cart_items.flatMap (fun ci =>
        (mixedStore.products.filter fun p =>
          decide (ci.product_id = p.id) && decide (ci.user_id = 7) && p.is_active).map
          fun p =>
            ({ order_id := insertId mixedStore, product_id := ci.product_id,
               quantity := ci.quantity,
               unit_price := p.base_price +
                 modifiersOf mixedStore (selectedVariants ci.customizations),
               customizations := ci.customizations } : OrderItem)) ∧
    ((mixedStore.products.Pairwise fun a b => a.id ≠ b.id) →
      ((createOrder noFailure mixedStore 7 cashRequest).db.order_items.drop
          mixedStore.order_items.length).map
          (fun row => (row.order_id, row.product_id, row.quantity, row.customizations)) =
        (mixedStore.cart_items.filter fun ci =>
          mixedStore.products.any fun p =>
            decide (ci.product_id = p.id) && decide (ci.user_id = 7) && p.is_active).map
          fun ci => (insertId mixedStore, ci.product_id, ci.quantity, ci.customizations)) :=
  createOrder_order_lines noFailure mixedStore 7 cashRequest (by decide)

/-! ## Reordering, stated on the tables -/

theorem selectOrderItems_eq_nil_iff (orderId : Nat) (s : Db) :
    selectOrderItems orderId s = [] ↔
      ∀ oi ∈ s.order_items, oi.order_id = orderId →
        ∀ p ∈ s.products, p.id = oi.product_id → p.is_active = false := by
  constructor
  · intro hnil oi hoi ho p hp hid
    by_contra hact
    have hact2 : p.is_active = true := by simpa using hact
    have hmem : (⟨oi.product_id, oi.quantity, oi.customizations, p.stock_quantity⟩ : ReorderRow) ∈
        selectOrderItems orderId s := by
      simp only [selectOrderItems, List.mem_flatMap, List.mem_map, List.mem_filter,
        Bool.and_eq_true, decide_eq_true_eq]
      exact ⟨oi, hoi, p, ⟨hp, ⟨hid.symm, ho⟩, hact2⟩, rfl⟩
    rw [hnil] at hmem
    cases hmem
  · intro hall
    apply List.eq_nil_iff_forall_not_mem.mpr
    intro item hitem
    obtain ⟨oi, hoi, p, hp, ho, hid, hact, _⟩ := mem_selectOrderItems orderId s item hitem
    rw [hall oi hoi ho p hp hid] at hact
    cases hact

theorem selectOrderItems_toLine (orderId : Nat) (s : Db) :
    (selectOrderItems orderId s).map ReorderRow.toLine =
      s.order_items.flatMap fun oi =>
        (s.products.filter fun p =>
          decide (oi.product_id = p.id) && decide (oi.order_id = orderId) && p.is_active).map
          fun _ => (⟨oi.product_id, oi.customizations, oi.quantity⟩ : Line) := by
  unfold selectOrderItems
  rw [List.map_flatMap]
  congr 1
  funext oi
  rw [List.map_map]
  rfl

/-- Claim C19, amended: reordering an order of the caller into the caller's
empty cart, with a storage that does not throw. When every line of the order
names an inactive product, the answer is 400 'No available items to reorder'
and the store is as before. When a line names an active product, the answer
is 200 and the cart gets lines of the caller that are the merged lines of the
order lines of active products: exactly their product ids and customizations,
with quantities summed for the lines that share product and customization
text. This holds provided each line, and each sum at the moment it is made,
is within the stock of the product, and no two of the lines name the same
product without customization. The lines read are the order lines joined
with their active products. -/
theorem reorder_into_empty_cart (s : Db) (userId orderId : Nat)
    (howner : ∃ o ∈ s.orders, o.id = orderId ∧ o.user_id = userId)
    (hempty : ∀ ci ∈ s.cart_items, ci.user_id ≠ userId) :
    ((∀ oi ∈ s.order_items, oi.order_id = orderId →
        ∀ p ∈ s.products, p.id = oi.product_id → p.is_active = false) →
      (reorder noFailure s userId orderId).response =
        ⟨400, Body.error ErrorMessage.noAvailableItems⟩ ∧
      (reorder noFailure s userId orderId).db = s) ∧
    ((∃ oi ∈ s.order_items, oi.order_id = orderId ∧
        ∃ p ∈ s.products, p.id = oi.product_id ∧ p.is_active = true) →
      mergedWithinStock [] (selectOrderItems orderId s) = true →
      NullOnce (selectOrderItems orderId s) →
      (reorder noFailure s userId orderId).response =
        ⟨200, Body.message "Items added to cart successfully"⟩ ∧
      ∃ newLines : List CartItem,
        (reorder noFailure s userId orderId).db =
          { s with cart_items := s.cart_items ++ newLines } ∧
        (∀ ci ∈ newLines, ci.user_id = userId) ∧
        newLines.map CartItem.toLine =
          specMergedLines (s.order_items.flatMap fun oi =>
            (s.products.filter fun p =>
              decide (oi.product_id = p.id) && decide (oi.order_id = orderId) &&
                p.is_active).map
              fun _ => (⟨oi.product_id, oi.customizations, oi.quantity⟩ : Line))) ∧
    (selectOrderItems orderId s).map
        (fun item => (item.product_id, item.quantity, item.customizations, item.stock_quantity)) =
      s.order_items.flatMap fun oi =>
        (s.products.filter fun p =>
          decide (oi.product_id = p.id) && decide (oi.order_id = orderId) && p.is_active).map
          fun p => (oi.product_id, oi.quantity, oi.customizations, p.stock_quantity) := by
  refine ⟨?_, ?_, ?_⟩
  · intro hall
    have hnil := (selectOrderItems_eq_nil_iff orderId s).mpr hall
    obtain ⟨o, ho, hid, hu⟩ := howner
    have hsel : selectOrder orderId userId s ≠ [] := by
      intro hn
      have hm : o.id ∈ selectOrder orderId userId s := by
        unfold selectOrder
        exact List.mem_map.mpr ⟨o, by simp [List.mem_filter, ho, hid, hu], rfl⟩
      rw [hn] at hm
      cases hm
    have hr : reorder noFailure s userId orderId =
        ⟨⟨400, Body.error ErrorMessage.noAvailableItems⟩, s, 2⟩ := by
      simp [reorder, reorderTry, catchOnPool, execute_noFailure, query, hsel, hnil]
    rw [hr]
    exact ⟨rfl, rfl⟩
  · intro hactive hstock hnull
    have hne : selectOrderItems orderId s ≠ [] := by
      intro hnil
      obtain ⟨oi, hoi, ho, p, hp, hid, hact⟩ := hactive
      rw [(selectOrderItems_eq_nil_iff orderId s).mp hnil oi hoi ho p hp hid] at hact
      cases hact
    obtain ⟨h1, ⟨newLines, h2, h3, h4⟩, _⟩ :=
      reorder_merges s userId orderId howner hempty hne hstock hnull
    refine ⟨h1, newLines, h2, h3, ?_⟩
    rw [h4, selectOrderItems_toLine]
  · unfold selectOrderItems
    rw [List.map_flatMap]
    congr 1
    funext oi
    rw [List.map_map]
    rfl

theorem reorder_into_empty_cart_witness :
    ((reorder noFailure reorderSplitStore 7 3).response =
        ⟨400, Body.error ErrorMessage.noAvailableItems⟩ ∧
      (reorder noFailure reorderSplitStore 7 3).db = reorderSplitStore) ∧
    ((reorder noFailure reorderMergeStore 7 1).response =
        ⟨200, Body.message "Items added to cart successfully"⟩ ∧
      ∃ newLines : List CartItem,
        (reorder noFailure reorderMergeStore 7 1).db =
          { reorderMergeStore with cart_items := reorderMergeStore.cart_items ++ newLines } ∧
        (∀ ci ∈ newLines, ci.user_id = 7) ∧
        newLines.map CartItem.toLine =
          specMergedLines (reorderMergeStore.order_items.flatMap fun oi =>
            (reorderMergeStore.products.filter fun p =>
              decide (oi.product_id = p.id) && decide (oi.order_id = 1) && p.is_active).map
              fun _ => (⟨oi.product_id, oi.customizations, oi.quantity⟩ : Line))) ∧
    (reorder noFailure reorderMergeStore 7 1).db.cart_items =
      [⟨4, 8, 1, 1, none⟩, ⟨5, 7, 1, 3, some ⟨[1], ""⟩⟩, ⟨6, 7, 2, 1, none⟩] :=
  ⟨(reorder_into_empty_cart reorderSplitStore 7 3 (by decide) (by decide)).1 (by decide),
    (reorder_into_empty_cart reorderMergeStore 7 1 (by decide) (by decide)).2.1 (by decide)
      (by decide) (by unfold NullOnce; decide),
    by decide⟩

end CoffeeShop
